import Mathlib

/-!
# The VMU save-file cache of the dcalt backend

A shallow embedding of `backends/platform/dcalt/saves.cpp` and `saves.h`:
the staged write stream `VMUSaveFileWriteStream`, the cached record
`VMUSaveFile`, and the manager `DCAltSaveFileManager` with its cache map,
stored fingerprint and short-name generator.

Conventions of the embedding.

* A byte string (`Common::String`, a `char` array, a memory block) is a list of
  byte values; the terminating NUL of a C string is implicit.
* `int` values are `Int`; a conversion to `uint32` is written `% 2 ^ 32`.
* A pointer into a block is the offset from the start of that block; a block
  that is written through a pointer (`_data`) is a function from offsets to
  bytes, so that the model records what the code stores at every offset,
  whether or not the allocation covers it.
* Everything the code calls outside `saves.cpp` is a field of `Env`: the
  KallistiOS device calls, the MD5 digest, the glob matcher, the icon tables,
  the random source, the contents of fresh memory.
* Every device call is appended to a log (`Sys.calls`), so that "no device
  write is issued" is a statement about the log.
-/

set_option autoImplicit false
set_option linter.unusedVariables false
set_option maxRecDepth 100000

namespace DCAlt

/-! ## Byte strings -/

/-- A byte string: the characters of a `Common::String`, or the bytes of a buffer. -/
abbrev CStr := List Nat

/-- The bytes of a string literal. -/
def str (s : String) : CStr := s.toList.map Char.toNat

/-- The C string a `Common::String` hands out through `c_str()`: the bytes up
to the first NUL. -/
def c_str (s : CStr) : CStr := s.takeWhile (fun c => c != 0)

/-- The C string that starts at offset `i` of a block (`Common::String(ptr + i)`). -/
def stringAt (b : List Nat) (i : Nat) : CStr := c_str (b.drop i)

/-- The character at index `i` of a C string; the terminator and what the
model does not cover read as NUL. -/
def charAt (s : CStr) (i : Nat) : Nat := (c_str s).getD i 0

/-- The test `strncmp(a, b, n) == 0`. -/
def strncmpEq (a b : CStr) (n : Nat) : Bool := (c_str a).take n == (c_str b).take n

/-- The C library's `tolower` on a byte (C locale). -/
def tolower (c : Nat) : Nat := if 65 ≤ c ∧ c ≤ 90 then c + 32 else c

/-- Modelled from the spec: `Common::IgnoreCase_EqualTo` (common/hash-str.h, not
under src/), the key equality of the cache map: "keys compared
case-insensitively". The comparison is the one of C strings. -/
def equalsIgnoreCase (a b : CStr) : Bool := (c_str a).map tolower == (c_str b).map tolower

/-- `n` bytes starting at `l`, padded with `pad` where `l` is shorter. -/
def fixLen (n pad : Nat) (l : List Nat) : List Nat := (l ++ List.replicate n pad).take n

/-- A 16-bit value as two bytes, least significant first (the SH-4 is little-endian). -/
def le16 (n : Nat) : List Nat := [n % 256, n / 256 % 256]

/-- A 32-bit value as four bytes, least significant first. -/
def le32 (n : Nat) : List Nat := [n % 256, n / 256 % 256, n / 65536 % 256, n / 16777216 % 256]

/-- The 16-bit value stored at offset `i` of a block. -/
def rd16 (b : List Nat) (i : Nat) : Nat := b.getD i 0 % 256 + 256 * (b.getD (i + 1) 0 % 256)

/-- The 32-bit value stored at offset `i` of a block. -/
def rd32 (b : List Nat) (i : Nat) : Nat :=
  b.getD i 0 % 256 + 256 * (b.getD (i + 1) 0 % 256) + 65536 * (b.getD (i + 2) 0 % 256)
    + 16777216 * (b.getD (i + 3) 0 % 256)

/-- Conversion of an `int` to `uint32`. -/
def toUInt32 (n : Int) : Nat := (n % 2 ^ 32).toNat

/-- Conversion of a `uint32` to `int32`. -/
def toInt32 (n : Nat) : Int :=
  if n % 2 ^ 32 < 2 ^ 31 then ((n % 2 ^ 32 : Nat) : Int) else ((n % 2 ^ 32 : Nat) : Int) - 2 ^ 32

/-- The bytes `n` bytes long that a block holds from offset `i` on. -/
def readMem (mem : Nat → Nat) (i n : Nat) : List Nat := (List.range n).map (fun j => mem (i + j))

/-- The block after `memcpy(block + i, data, data.length)`. -/
def store (mem : Nat → Nat) (i : Nat) (data : List Nat) : Nat → Nat :=
  fun j => if i ≤ j ∧ j < i + data.length then data.getD (j - i) 0 else mem j

/-- The macro `MAX` of saves.cpp. -/
def MAX (x y : Int) : Int := if x ≥ y then x else y

/-- The macro `MIN` of saves.cpp. -/
def MIN (x y : Int) : Int := if x ≤ y then x else y

/-! ## The package format -/

/-- The eye-catch tag `VMUPKG_EC_NONE` of `dc/vmu_pkg.h`. -/
def VMUPKG_EC_NONE : Int := 0

/-- The eye-catch tag `VMUPKG_EC_16BIT` of `dc/vmu_pkg.h`. -/
def VMUPKG_EC_16BIT : Int := 1

/-- The eye-catch tag `VMUPKG_EC_256COL` of `dc/vmu_pkg.h`. -/
def VMUPKG_EC_256COL : Int := 2

/-- The eye-catch tag `VMUPKG_EC_16COL` of `dc/vmu_pkg.h`. -/
def VMUPKG_EC_16COL : Int := 3

/-- The function `vmu_eyecatch_size` of saves.cpp. -/
def vmu_eyecatch_size (eyecatch_type : Int) : Int :=
  if eyecatch_type = VMUPKG_EC_NONE then 0
  else if eyecatch_type = VMUPKG_EC_16BIT then 72 * 56 * 2
  else if eyecatch_type = VMUPKG_EC_256COL then 512 + 72 * 56
  else if eyecatch_type = VMUPKG_EC_16COL then 32 + 72 * 56 / 2
  else -1

/-- The value of `sizeof(struct vmu_hdr)`: 16 + 32 + 16 bytes of text, four
16-bit fields, the 32-bit payload length, 20 reserved bytes and the
16-entry icon palette. -/
def sizeof_vmu_hdr : Nat := 128

/-- The struct `vmu_pkg_t`. A pointer field is the list of bytes it points
at. -/
structure vmu_pkg where
  desc_short : List Nat
  desc_long : List Nat
  app_id : List Nat
  icon_cnt : Int
  icon_anim_speed : Int
  eyecatch_type : Int
  data_len : Int
  icon_pal : List Nat
  icon_data : List Nat
  eyecatch_data : List Nat
  data : List Nat
  deriving DecidableEq, Repr

/-- Modelled from the spec: `vmu_pkg_build` (KallistiOS, not under src/).
"Lays out header, icon, eye-catch (size determined by eye-catch type), then
payload, returning the exact byte length. Fails if payload length does not
fit the device's maximum record size." A negative length does not fit
either. The result is the return code and the package; the checksum field of
the header is left zero. -/
def vmu_pkg_build (max_record_size : Nat) (src : vmu_pkg) : Int × List Nat :=
  let ec_size := vmu_eyecatch_size src.eyecatch_type
  if ec_size < 0 ∨ src.data_len < 0 ∨ (max_record_size : Int) < src.data_len then (-1, [])
  else
    (0, fixLen 16 32 src.desc_short ++ fixLen 32 32 src.desc_long ++ fixLen 16 0 src.app_id
      ++ le16 src.icon_cnt.toNat ++ le16 src.icon_anim_speed.toNat
      ++ le16 src.eyecatch_type.toNat ++ le16 0 ++ le32 src.data_len.toNat
      ++ List.replicate 20 0 ++ fixLen 32 0 src.icon_pal
      ++ fixLen (512 * src.icon_cnt.toNat) 0 src.icon_data
      ++ fixLen ec_size.toNat 0 src.eyecatch_data
      ++ fixLen src.data_len.toNat 0 src.data)

/-- Modelled from the spec: `vmu_pkg_parse` (KallistiOS, not under src/).
"Validates structural consistency (sizes consistent with declared icon
count/eye-catch type) and returns a view onto the payload without copying.
Fails with a decode error if the buffer is shorter than the computed
header+media size." The result is the return code and the contents of the
output struct, which a failing call leaves as it found it (`pkg`). -/
def vmu_pkg_parse (data : List Nat) (pkg : vmu_pkg) : Int × vmu_pkg :=
  let icon_cnt := rd16 data 64
  let eyecatch_type := rd16 data 68
  let icon_size := 512 * icon_cnt
  let ec_size := vmu_eyecatch_size eyecatch_type
  let hdr_size := (sizeof_vmu_hdr : Int) + icon_size + ec_size
  if ec_size < 0 ∨ (data.length : Int) < hdr_size then (-1, pkg)
  else
    (0, { desc_short := (data.drop 0).take 16
          desc_long := (data.drop 16).take 32
          app_id := (data.drop 48).take 16
          icon_cnt := icon_cnt
          icon_anim_speed := rd16 data 66
          eyecatch_type := eyecatch_type
          data_len := rd32 data 72
          icon_pal := (data.drop 96).take 32
          icon_data := (data.drop sizeof_vmu_hdr).take icon_size
          eyecatch_data := (data.drop (sizeof_vmu_hdr + icon_size)).take ec_size.toNat
          data := data.drop hdr_size.toNat })

/-- The package `vmu_pkg_parse` reads back from what `vmu_pkg_build` lays
out. -/
def vmu_pkg.stored (p : vmu_pkg) : vmu_pkg :=
  { desc_short := fixLen 16 32 p.desc_short
    desc_long := fixLen 32 32 p.desc_long
    app_id := fixLen 16 0 p.app_id
    icon_cnt := p.icon_cnt
    icon_anim_speed := p.icon_anim_speed
    eyecatch_type := p.eyecatch_type
    data_len := p.data_len
    icon_pal := fixLen 32 0 p.icon_pal
    icon_data := fixLen (512 * p.icon_cnt.toNat) 0 p.icon_data
    eyecatch_data := fixLen (vmu_eyecatch_size p.eyecatch_type).toNat 0 p.eyecatch_data
    data := fixLen p.data_len.toNat 0 p.data }

/-! ## The environment -/

/-- A call into the device layer, as it is logged. -/
inductive Call where
  | maple_enum_dev (port unit : Nat)
  | vmufs_free_blocks (dev : Option Nat)
  | vmufs_root_read (dev : Option Nat)
  | vmufs_fat_read (dev : Option Nat)
  | opendir (path : CStr)
  | vmufs_read (dev : Option Nat) (name : CStr)
  | vmufs_write (dev : Option Nat) (name : CStr) (buf : List Nat)
  | vmufs_delete (dev : Option Nat) (name : CStr)
  deriving DecidableEq, Repr

/-- Modelled from the spec: `Common::MemoryWriteStream` (common/memstream.h,
not under src/), "a bounded, seekable, in-memory write buffer". `_ptr` is the
offset, inside the block the stream writes to, of the next byte written. -/
structure MemoryWriteStream where
  _ptr : Nat
  _bufSize : Nat
  _pos : Nat
  _err : Bool
  deriving DecidableEq, Repr

/-- Everything saves.cpp calls but does not define. `W` is the state of the
world outside the program (the devices on the maple bus). A device pointer is
`Option Nat`, `none` being `NULL`. The device calls give their return code and
what they leave in their output arguments; the calls that change the device
also give the new world. -/
structure Env (W : Type) where
  /-- The call `maple_enum_dev(port, unit)`. -/
  maple_enum_dev : W → Nat → Nat → Option Nat
  /-- The call `vmufs_free_blocks(dev)`. -/
  vmufs_free_blocks : W → Option Nat → Int
  /-- The call `vmufs_root_read(dev, root)`: return code and root block. -/
  vmufs_root_read : W → Option Nat → Int × List Nat
  /-- The call `vmufs_fat_read(dev, root, fat)`: return code and table. -/
  vmufs_fat_read : W → Option Nat → List Nat → Int × List Nat
  /-- The names `readdir` yields after `opendir(path)`; `none` when `opendir`
  returns `NULL`. -/
  opendir : W → CStr → Option (List CStr)
  /-- The call `vmufs_read(dev, name, &buf, &size)`: return code and the buffer
  the two output variables describe afterwards. -/
  vmufs_read : W → Option Nat → CStr → Int × List Nat
  /-- The call `vmufs_write(dev, name, buf, size, VMUFS_OVERWRITE)`. -/
  vmufs_write : W → Option Nat → CStr → List Nat → Int × W
  /-- The call `vmufs_delete(dev, name)`. -/
  vmufs_delete : W → Option Nat → CStr → Int × W
  /-- The digest `Common::computeStreamMD5AsString`. -/
  computeStreamMD5AsString : List Nat → CStr
  /-- The test `Common::String::matchString(pattern, ignoreCase)`. -/
  matchString : CStr → CStr → Bool → Bool
  /-- The result of the `n`-th call of `_rnd.getRandomNumber(max)`. -/
  getRandomNumber : Nat → Nat → Nat
  /-- The position `Common::MemoryWriteStream::seek(offset, whence)` moves a
  stream of the given size and position to, and the value it returns. -/
  seek : Nat → Nat → Int → Int → Nat × Bool
  /-- The table `icon_palette` of icon.c. -/
  icon_palette : List Nat
  /-- The table `icon_pixels` of icon.c. -/
  icon_pixels : List Nat
  /-- The device's maximum record size, which bounds what `vmu_pkg_build` accepts. -/
  max_record_size : Nat
  /-- The contents of the block `malloc(size)` returns. -/
  malloc : Int → Nat → Nat
  /-- The bytes that follow the terminator of a string in memory. -/
  past_terminator : CStr → List Nat
  /-- The contents of a `vmu_pkg_t` that has not been assigned. -/
  uninit_pkg : vmu_pkg

/-- The world together with the log of the device calls made so far, oldest first. -/
structure Sys (W : Type) where
  world : W
  calls : List Call

/-- Whether a logged call is a device write. -/
def Call.isWrite : Call → Bool
  | Call.vmufs_write _ _ _ => true
  | _ => false

/-- Whether a logged call changes the device: a write or a delete. -/
def Call.isMutation : Call → Bool
  | Call.vmufs_write _ _ _ => true
  | Call.vmufs_delete _ _ => true
  | _ => false

/-- Append a call to the log. -/
def Sys.log {W : Type} (s : Sys W) (c : Call) : Sys W := { s with calls := s.calls ++ [c] }

/-- The function `vmu_path_to_addr` of saves.cpp. -/
def vmu_path_to_addr {W : Type} (k : Env W) (s : Sys W) (p : CStr) : Option Nat × Sys W :=
  if charAt p 0 ≠ 47 then (none, s)
  else
    let port := charAt p 1 ||| 32
    if port < 97 ∨ port > 100 then (none, s)
    else if charAt p 2 < 48 ∨ charAt p 2 > 53 then (none, s)
    else (k.maple_enum_dev s.world (port - 97) (charAt p 2 - 48),
          s.log (Call.maple_enum_dev (port - 97) (charAt p 2 - 48)))

/-! ## The staged write stream -/

/-- The constructor `MemoryWriteStream(buf, len)`; `buf` is an offset. -/
def MemoryWriteStream.new (buf len : Nat) : MemoryWriteStream :=
  { _ptr := buf, _bufSize := len, _pos := 0, _err := false }

/-- Modelled from the spec: `Common::MemoryWriteStream::write` (not under
src/). "`write(bytes) -> count` operates on the in-memory buffer only; writing
past the allocated capacity is an error surfaced to the caller": the bytes
that fit are stored, the rest raise the error flag. The result is the stream,
the block and the count. -/
def MemoryWriteStream.write (s : MemoryWriteStream) (mem : Nat → Nat) (data : List Nat) :
    MemoryWriteStream × (Nat → Nat) × Nat :=
  if data.length > s._bufSize - s._pos then
    let n := s._bufSize - s._pos
    ({ s with _ptr := s._ptr + n, _pos := s._pos + n, _err := true },
      store mem s._ptr (data.take n), n)
  else
    ({ s with _ptr := s._ptr + data.length, _pos := s._pos + data.length },
      store mem s._ptr data, data.length)

/-- Modelled from the spec: `Common::MemoryWriteStream::seek` (not under
src/). "`seek(offset)` operates on the in-memory buffer only": the call moves
the position, and the write pointer with it; where to is left to `Env.seek`. -/
def MemoryWriteStream.seek {W : Type} (k : Env W) (s : MemoryWriteStream) (offset whence : Int) :
    MemoryWriteStream × Bool :=
  let r := k.seek s._bufSize s._pos offset whence
  ({ s with _ptr := s._ptr - s._pos + r.1, _pos := r.1 }, r.2)

/-- The class `VMUSaveFileWriteStream` (the pointer `_savefileManager` is the
manager passed to `close`). `_saveBuf` is an offset into `_data`; `_pkg.data`
aliases `_data` and is read off it when the package is built. -/
structure VMUSaveFileWriteStream where
  _stream : MemoryWriteStream
  _shortFilename : CStr
  _longFilename : CStr
  _dev : Option Nat
  _pkg : vmu_pkg
  _data : Nat → Nat
  /-- The size `_data` was allocated with (the argument of `malloc`). -/
  _dataSize : Int
  _hdr_size : Int
  _saveBuf : Nat

/-- The constructor of `VMUSaveFileWriteStream`. The bytes `memcpy` moves
into `desc_long` are the first 32 of the `MAX(size, 32)` it copies; what it
writes past the field is not modelled, and where `Env.past_terminator` gives
fewer bytes than are copied the rest of the field reads as the spaces of the
`memset`.

The model follows the run in which `malloc` hands back a block: `malloc` has
no failure value here, and `_data` records every store at its offset whether
or not the block covers it. Where `free_bytes - _hdr_size` (`_dataSize`) is
negative or smaller than the sub-header, the source stores through the
result of `malloc` all the same (saves.cpp:128-134) and the size handed to
`MemoryWriteStream` wraps; what the model says of the buffer there is the
model's, not the machine's. Statements about the contents of the buffer
carry the hypothesis that `_dataSize` holds the sub-header. -/
def VMUSaveFileWriteStream.new {W : Type} (k : Env W) (s : Sys W) (dev : Option Nat)
    (shortFilename longFilename : CStr) (existingSize : Int) : VMUSaveFileWriteStream × Sys W :=
  let free_bytes := k.vmufs_free_blocks s.world dev * 512 + existingSize
  let pkg : vmu_pkg :=
    { desc_short := fixLen 16 32 (str "ScummVM")
      desc_long := fixLen 32 32 ((longFilename ++ 0 :: k.past_terminator longFilename).take
        (MAX longFilename.length 32).toNat)
      app_id := fixLen 16 0 (str "ScummVM")
      icon_cnt := 1
      icon_anim_speed := 0
      eyecatch_type := VMUPKG_EC_NONE
      data_len := 0
      icon_pal := fixLen 32 0 k.icon_palette
      icon_data := k.icon_pixels
      eyecatch_data := []
      data := [] }
  let icon_size := 512 * pkg.icon_cnt
  let ec_size := vmu_eyecatch_size pkg.eyecatch_type
  let hdr_size := (sizeof_vmu_hdr : Int) + icon_size + ec_size
  let data0 := k.malloc (free_bytes - hdr_size)
  let save_offset := (4 + longFilename.length + 1) % 2 ^ 32
  let data1 := store data0 0 (le32 save_offset)
  let data2 := store data1 4 (c_str longFilename ++ [0])
  ({ _stream := MemoryWriteStream.new save_offset (toUInt32 (free_bytes - hdr_size - save_offset))
     _shortFilename := shortFilename
     _longFilename := longFilename
     _dev := dev
     _pkg := { pkg with data_len := save_offset }
     _data := data2
     _dataSize := free_bytes - hdr_size
     _hdr_size := hdr_size
     _saveBuf := save_offset },
   s.log (Call.vmufs_free_blocks dev))

/-- The method `VMUSaveFileWriteStream::write`: the stream and the count. -/
def VMUSaveFileWriteStream.write (f : VMUSaveFileWriteStream) (data : List Nat) :
    VMUSaveFileWriteStream × Nat :=
  let r := f._stream.write f._data data
  ({ f with _stream := r.1, _data := r.2.1 }, r.2.2)

/-- The method `VMUSaveFileWriteStream::seek`. -/
def VMUSaveFileWriteStream.seek {W : Type} (k : Env W) (f : VMUSaveFileWriteStream)
    (offset whence : Int) : VMUSaveFileWriteStream × Bool :=
  let r := f._stream.seek k offset whence
  ({ f with _stream := r.1 }, r.2)

/-- The method `VMUSaveFileWriteStream::pos`: the position of the memory
stream, for positions below 2 ^ 31. -/
def VMUSaveFileWriteStream.pos (f : VMUSaveFileWriteStream) : Nat := f._stream._pos

/-- The method `VMUSaveFileWriteStream::size` (saves.h:84): the `uint32` size
of the memory stream, returned as `int32`. -/
def VMUSaveFileWriteStream.size (f : VMUSaveFileWriteStream) : Int :=
  toInt32 f._stream._bufSize

/-- The method `VMUSaveFileWriteStream::err`. -/
def VMUSaveFileWriteStream.err (f : VMUSaveFileWriteStream) : Bool := f._stream._err

/-- An operation a caller performs on an open write stream. -/
inductive StreamOp where
  | write (data : List Nat)
  | seek (offset whence : Int)
  deriving DecidableEq, Repr

/-- Perform one operation on the stream. -/
def VMUSaveFileWriteStream.step {W : Type} (k : Env W) (f : VMUSaveFileWriteStream) :
    StreamOp → VMUSaveFileWriteStream
  | StreamOp.write data => (f.write data).1
  | StreamOp.seek offset whence => (f.seek k offset whence).1

/-- Perform a sequence of operations on the stream, in order. -/
def VMUSaveFileWriteStream.run {W : Type} (k : Env W) (f : VMUSaveFileWriteStream)
    (ops : List StreamOp) : VMUSaveFileWriteStream :=
  ops.foldl (VMUSaveFileWriteStream.step k) f

/-- Whether an operation is a write. -/
def StreamOp.isWrite : StreamOp → Bool
  | StreamOp.write _ => true
  | StreamOp.seek _ _ => false

/-- The bytes a sequence of operations writes, in order. -/
def written : List StreamOp → List Nat
  | [] => []
  | StreamOp.write data :: ops => data ++ written ops
  | StreamOp.seek _ _ :: ops => written ops

/-- The package the destructor of `VMUSaveFileWriteStream` builds: `_pkg`
with `data_len` advanced by the stream position, and the return code and
buffer of `vmu_pkg_build`. -/
def VMUSaveFileWriteStream.build {W : Type} (k : Env W) (f : VMUSaveFileWriteStream) :
    vmu_pkg × Int × List Nat :=
  let data_len := f._pkg.data_len + f._stream._pos
  let pkg := { f._pkg with data_len := data_len, data := readMem f._data 0 data_len.toNat }
  (pkg, vmu_pkg_build k.max_record_size pkg)

/-! ## The cached record -/

/-- The class `VMUSaveFile`. `_saveBuf` is an offset into `_pkg.data`. -/
structure VMUSaveFile where
  _buf : List Nat
  _size : Int
  _pkg : vmu_pkg
  _saveBuf : Nat
  _saveSize : Int
  _shortFilename : CStr
  deriving DecidableEq, Repr

/-- The method `VMUSaveFile::init`; the return code of `vmu_pkg_parse` is not
looked at. The pointer difference `_saveBuf - _pkg.data` is the offset read
from the first four bytes of the payload. After a failing `vmu_pkg_parse`
the struct `_pkg` is what it was before the call, `Env.uninit_pkg`: the
source then reads through the unassigned pointer `_pkg.data`, the model reads
the field `data` of `Env.uninit_pkg`. The model is faithful where the parse
succeeds. -/
def VMUSaveFile.init {W : Type} (k : Env W) (buf : List Nat) (size : Int) (shortFilename : CStr) :
    VMUSaveFile :=
  let _buf := buf.take size.toNat
  let pkg := (vmu_pkg_parse _buf k.uninit_pkg).2
  let save_offset := rd32 pkg.data 0
  { _buf := _buf
    _size := size
    _pkg := pkg
    _saveBuf := save_offset
    _saveSize := pkg.data_len - save_offset
    _shortFilename := shortFilename }

/-- The constructor `VMUSaveFile(dev, shortFilename)`; the return code of
`vmufs_read` is not looked at. -/
def VMUSaveFile.read {W : Type} (k : Env W) (s : Sys W) (dev : Option Nat) (shortFilename : CStr) :
    VMUSaveFile × Sys W :=
  let r := k.vmufs_read s.world dev (c_str shortFilename)
  (VMUSaveFile.init k r.2 r.2.length shortFilename,
    s.log (Call.vmufs_read dev (c_str shortFilename)))

/-- The constructor `VMUSaveFile(buf, size, shortFilename)`. -/
def VMUSaveFile.ofBuffer {W : Type} (k : Env W) (buf : List Nat) (size : Int)
    (shortFilename : CStr) : VMUSaveFile :=
  VMUSaveFile.init k buf size shortFilename

/-- The method `VMUSaveFile::getShortFilename`. -/
def VMUSaveFile.getShortFilename (f : VMUSaveFile) : CStr := f._shortFilename

/-- The method `VMUSaveFile::getLongFilename`. -/
def VMUSaveFile.getLongFilename (f : VMUSaveFile) : CStr := stringAt f._pkg.data 4

/-- The method `VMUSaveFile::createReadStream`: the bytes the
`MemoryReadStream` over `_saveBuf`, `_saveSize` yields. -/
def VMUSaveFile.createReadStream (f : VMUSaveFile) : List Nat :=
  (f._pkg.data.drop f._saveBuf).take (toUInt32 f._saveSize)

/-- The method `VMUSaveFile::createWriteStream`. -/
def VMUSaveFile.createWriteStream {W : Type} (k : Env W) (s : Sys W) (f : VMUSaveFile)
    (dev : Option Nat) : VMUSaveFileWriteStream × Sys W :=
  VMUSaveFileWriteStream.new k s dev f.getShortFilename f.getLongFilename f._size

/-! ## The manager -/

/-- The error codes of `Common::ErrorCode` the manager uses. -/
inductive ErrorCode where
  | kNoError
  | kPathDoesNotExist
  deriving DecidableEq, Repr

/-- The value of `Common::Error`: a code and a description. -/
structure Error where
  code : ErrorCode
  desc : CStr
  deriving DecidableEq, Repr

/-- The type `SaveFileCache`: a map from long names to records whose keys
are compared with `equalsIgnoreCase`. The order of the entries is the order
in which the map is iterated. -/
abbrev SaveFileCache := List (CStr × VMUSaveFile)

/-- Modelled from the spec: `Common::HashMap::find` (common/hashmap.h, not
under src/): `lookup(long_name) -> Save Record option`. -/
def SaveFileCache.find (c : SaveFileCache) (key : CStr) : Option (CStr × VMUSaveFile) :=
  List.find? (fun e => equalsIgnoreCase e.1 key) c

/-- Modelled from the spec: the assignment `map[key] = value` of
`Common::HashMap` (not under src/): `insert_or_replace(record)`. An entry
whose key equals `key` keeps its key and has its value replaced; otherwise
an entry is added. -/
def SaveFileCache.set : SaveFileCache → CStr → VMUSaveFile → SaveFileCache
  | [], key, v => [(key, v)]
  | e :: c, key, v =>
    if equalsIgnoreCase e.1 key then (e.1, v) :: c else e :: SaveFileCache.set c key v

/-- Modelled from the spec: `Common::HashMap::erase` (not under src/) at the
entry `find(key)` returned: "removes from the in-memory map". -/
def SaveFileCache.erase : SaveFileCache → CStr → SaveFileCache
  | [], _ => []
  | e :: c, key => if equalsIgnoreCase e.1 key then c else e :: SaveFileCache.erase c key

/-- The state of a `DCAltSaveFileManager`: its members, the error the base
class holds, and the save path `getSavePath()` returns. -/
structure DCAltSaveFileManager where
  _saveFileCache : SaveFileCache
  _fingerprint : CStr
  _rnd : Nat
  _error : Error
  savePath : CStr
  deriving DecidableEq, Repr

/-- The method `clearError`. -/
def DCAltSaveFileManager.clearError (m : DCAltSaveFileManager) : DCAltSaveFileManager :=
  { m with _error := { code := ErrorCode.kNoError, desc := [] } }

/-- The method `setError`. -/
def DCAltSaveFileManager.setError (m : DCAltSaveFileManager) (code : ErrorCode) (desc : CStr) :
    DCAltSaveFileManager :=
  { m with _error := { code := code, desc := desc } }

/-- The test `strncmp(getSavePath().c_str(), "/vmu", 4) == 0` every entry
point starts with. -/
def DCAltSaveFileManager.onVmu (m : DCAltSaveFileManager) : Bool :=
  strncmpEq m.savePath (str "/vmu") 4

/-- The method `DCAltSaveFileManager::fingerprint`: the digest, the manager
and the log. The assertion `root->fat_size == 1` is assumed to hold. -/
def DCAltSaveFileManager.fingerprint {W : Type} (k : Env W) (m : DCAltSaveFileManager) (s : Sys W)
    (savePathName : CStr) : CStr × DCAltSaveFileManager × Sys W :=
  let a := vmu_path_to_addr k s ((c_str savePathName).drop 4)
  if a.1 = none then
    ([], m.setError ErrorCode.kPathDoesNotExist (str "Invalid VMU path " ++ savePathName), a.2)
  else
    let root := k.vmufs_root_read a.2.world a.1
    let s1 := a.2.log (Call.vmufs_root_read a.1)
    if root.1 < 0 then
      ([], m.setError ErrorCode.kPathDoesNotExist (str "Could not read VMU at " ++ savePathName),
        s1)
    else
      let fat := k.vmufs_fat_read s1.world a.1 root.2
      let s2 := s1.log (Call.vmufs_fat_read a.1)
      if fat.1 < 0 then
        ([], m.setError ErrorCode.kPathDoesNotExist (str "Could not read VMU at " ++ savePathName),
          s2)
      else (k.computeStreamMD5AsString (root.2 ++ fat.2), m, s2)

/-- The body of the loop of `DCAltSaveFileManager::makeSavefileName`: one
candidate name, drawn with four calls of `getRandomNumber(sizeof(chars) - 2)`. -/
def DCAltSaveFileManager.candidate {W : Type} (k : Env W) (m : DCAltSaveFileManager) : CStr :=
  let chars := str "0123456789ABCDEFGHIJKLMNOPQRSTUVWXYZ" ++ [0]
  str "SCUMMVM_" ++
    [chars.getD (k.getRandomNumber m._rnd (chars.length - 2)) 0,
     chars.getD (k.getRandomNumber (m._rnd + 1) (chars.length - 2)) 0,
     chars.getD (k.getRandomNumber (m._rnd + 2) (chars.length - 2)) 0,
     chars.getD (k.getRandomNumber (m._rnd + 3) (chars.length - 2)) 0]

/-- The method `DCAltSaveFileManager::makeSavefileName`. The loop has no
bound in the source; `fuel` bounds the number of candidates tried, and the
result is `none` when it runs out. -/
def DCAltSaveFileManager.makeSavefileName {W : Type} (k : Env W) :
    Nat → DCAltSaveFileManager → Option (CStr × DCAltSaveFileManager)
  | 0, _ => none
  | fuel + 1, m =>
    let name := m.candidate k
    let m1 := { m with _rnd := m._rnd + 4 }
    if (m1._saveFileCache.find name).isSome then DCAltSaveFileManager.makeSavefileName k fuel m1
    else some (name, m1)

/-- The method `DCAltSaveFileManager::cacheNewSave`. -/
def DCAltSaveFileManager.cacheNewSave {W : Type} (k : Env W) (m : DCAltSaveFileManager) (s : Sys W)
    (longFilename : CStr) (saveFile : VMUSaveFile) : DCAltSaveFileManager × Sys W :=
  let m1 := { m with _saveFileCache := m._saveFileCache.set longFilename saveFile }
  let r := m1.fingerprint k s m1.savePath
  ({ r.2.1 with _fingerprint := r.1 }, r.2.2)

/-- The loop of `DCAltSaveFileManager::assureCached` over the names `readdir`
yields. -/
def DCAltSaveFileManager.scan {W : Type} (k : Env W) (dev : Option Nat) :
    List CStr → SaveFileCache × Sys W → SaveFileCache × Sys W
  | [], r => r
  | d_name :: rest, r =>
    if strncmpEq (str "SCUMMVM_") d_name 8 then
      let f := VMUSaveFile.read k r.2 dev (c_str d_name)
      DCAltSaveFileManager.scan k dev rest (r.1.set f.1.getLongFilename f.1, f.2)
    else DCAltSaveFileManager.scan k dev rest r

/-- The method `DCAltSaveFileManager::assureCached`. -/
def DCAltSaveFileManager.assureCached {W : Type} (k : Env W) (m : DCAltSaveFileManager) (s : Sys W)
    (savePathName : CStr) : DCAltSaveFileManager × Sys W :=
  let r := m.clearError.fingerprint k s savePathName
  let currentFingerprint := r.1
  let m1 := r.2.1
  if m1._fingerprint = currentFingerprint then (m1, r.2.2)
  else
    let m2 := { m1 with _saveFileCache := [] }
    let a := vmu_path_to_addr k r.2.2 ((c_str savePathName).drop 4)
    if a.1 = none then
      (m2.setError ErrorCode.kPathDoesNotExist (str "Invalid VMU path " ++ savePathName), a.2)
    else
      let s1 := a.2.log (Call.opendir (c_str savePathName))
      match k.opendir a.2.world (c_str savePathName) with
      | none =>
        (m2.setError ErrorCode.kPathDoesNotExist (str "Could not read VMU at " ++ savePathName), s1)
      | some names =>
        let c := DCAltSaveFileManager.scan k a.1 names (m2._saveFileCache, s1)
        ({ m2 with _saveFileCache := c.1, _fingerprint := currentFingerprint }, c.2)

/-- The destructor of `VMUSaveFileWriteStream`, run when the stream is
closed; the return code of `vmufs_write` is not looked at. -/
def VMUSaveFileWriteStream.close {W : Type} (k : Env W) (f : VMUSaveFileWriteStream)
    (m : DCAltSaveFileManager) (s : Sys W) : DCAltSaveFileManager × Sys W :=
  if f._stream._err then (m, s)
  else
    let b := f.build k
    if b.2.1 < 0 then (m, s)
    else
      let buf := b.2.2
      let w := k.vmufs_write s.world f._dev (c_str f._shortFilename) buf
      let s1 : Sys W :=
        { world := w.2, calls := s.calls ++ [Call.vmufs_write f._dev (c_str f._shortFilename) buf] }
      let save := VMUSaveFile.ofBuffer k buf buf.length f._shortFilename
      m.cacheNewSave k s1 f._longFilename save

/-- A call the manager hands to `DefaultSaveFileManager`, with the arguments
it passes. -/
inductive DefaultCall where
  | listSavefiles (pattern : CStr)
  | openRawFile (filename : CStr)
  | openForLoading (filename : CStr)
  | openForSaving (filename : CStr) (compress : Bool)
  | removeSavefile (filename : CStr)
  | updateSavefilesList (lockedFiles : List CStr)
  deriving DecidableEq, Repr

/-- What an entry point comes to: the call it forwards to the default
manager, or its own result. -/
inductive Routed (α : Type) where
  | forwarded (c : DefaultCall)
  | handled (a : α)
  deriving DecidableEq, Repr

/-- The method `DCAltSaveFileManager::openRawFile`; a stream is the bytes it
yields, `none` is `nullptr`. -/
def DCAltSaveFileManager.openRawFile {W : Type} (k : Env W) (m : DCAltSaveFileManager) (s : Sys W)
    (filename : CStr) : Routed (Option (List Nat)) × DCAltSaveFileManager × Sys W :=
  if !m.onVmu then (Routed.forwarded (DefaultCall.openRawFile filename), m, s)
  else
    let r := m.assureCached k s m.savePath
    if r.1._error.code ≠ ErrorCode.kNoError then (Routed.handled none, r)
    else
      match r.1._saveFileCache.find filename with
      | none => (Routed.handled none, r)
      | some file => (Routed.handled (some file.2.createReadStream), r)

/-- The method `DCAltSaveFileManager::openForLoading`; the stream returned is
`wrapCompressedReadStream` applied to the stream given here. -/
def DCAltSaveFileManager.openForLoading {W : Type} (k : Env W) (m : DCAltSaveFileManager)
    (s : Sys W) (filename : CStr) : Routed (Option (List Nat)) × DCAltSaveFileManager × Sys W :=
  if !m.onVmu then (Routed.forwarded (DefaultCall.openForLoading filename), m, s)
  else
    let r := m.assureCached k s m.savePath
    if r.1._error.code ≠ ErrorCode.kNoError then (Routed.handled none, r)
    else
      match r.1._saveFileCache.find filename with
      | none => (Routed.handled none, r)
      | some file => (Routed.handled (some file.2.createReadStream), r)

/-- The method `DCAltSaveFileManager::openForSaving`; the stream returned is
`wrapCompressedWriteStream` applied to the stream given here, `none` is
`nullptr`. The default manager is called without the `compress` argument,
whose default value is `true`. `fuel` bounds the loop of `makeSavefileName`;
the result is `none` when it runs out. -/
def DCAltSaveFileManager.openForSaving {W : Type} (k : Env W) (fuel : Nat)
    (m : DCAltSaveFileManager) (s : Sys W) (filename : CStr) (_compress : Bool) :
    Option (Routed (Option VMUSaveFileWriteStream) × DCAltSaveFileManager × Sys W) :=
  if !m.onVmu then some (Routed.forwarded (DefaultCall.openForSaving filename true), m, s)
  else
    let r := m.assureCached k s m.savePath
    if r.1._error.code ≠ ErrorCode.kNoError then some (Routed.handled none, r)
    else
      let a := vmu_path_to_addr k r.2 ((c_str m.savePath).drop 4)
      match r.1._saveFileCache.find filename with
      | none =>
        match r.1.makeSavefileName k fuel with
        | none => none
        | some n =>
          let sf := VMUSaveFileWriteStream.new k a.2 a.1 n.1 filename 0
          some (Routed.handled (some sf.1), n.2, sf.2)
      | some file =>
        let sf := file.2.createWriteStream k a.2 a.1
        some (Routed.handled (some sf.1), r.1, sf.2)

/-- The method `DCAltSaveFileManager::removeSavefile`. -/
def DCAltSaveFileManager.removeSavefile {W : Type} (k : Env W) (m : DCAltSaveFileManager)
    (s : Sys W) (filename : CStr) : Routed Bool × DCAltSaveFileManager × Sys W :=
  if !m.onVmu then (Routed.forwarded (DefaultCall.removeSavefile filename), m, s)
  else
    let r := m.assureCached k s m.savePath
    if r.1._error.code ≠ ErrorCode.kNoError then (Routed.handled false, r)
    else
      match r.1._saveFileCache.find filename with
      | none => (Routed.handled false, r)
      | some file =>
        let shortFilename := file.2.getShortFilename
        let m1 := { r.1 with _saveFileCache := r.1._saveFileCache.erase filename }
        let a := vmu_path_to_addr k r.2 ((c_str m.savePath).drop 4)
        let d := k.vmufs_delete a.2.world a.1 (c_str shortFilename)
        let s1 : Sys W :=
          { world := d.2, calls := a.2.calls ++ [Call.vmufs_delete a.1 (c_str shortFilename)] }
        let fp := m1.fingerprint k s1 m1.savePath
        (Routed.handled (d.1 == 0), { fp.2.1 with _fingerprint := fp.1 }, fp.2.2)

/-- The method `DCAltSaveFileManager::updateSavefilesList`. -/
def DCAltSaveFileManager.updateSavefilesList (m : DCAltSaveFileManager) (lockedFiles : List CStr) :
    Routed Unit :=
  if !m.onVmu then Routed.forwarded (DefaultCall.updateSavefilesList lockedFiles)
  else Routed.handled ()

/-- The method `DCAltSaveFileManager::listSavefiles`. -/
def DCAltSaveFileManager.listSavefiles {W : Type} (k : Env W) (m : DCAltSaveFileManager)
    (s : Sys W) (pattern : CStr) : Routed (List CStr) × DCAltSaveFileManager × Sys W :=
  if !m.onVmu then (Routed.forwarded (DefaultCall.listSavefiles pattern), m, s)
  else
    let r := m.assureCached k s m.savePath
    if r.1._error.code ≠ ErrorCode.kNoError then (Routed.handled [], r)
    else
      (Routed.handled ((r.1._saveFileCache.filter (fun e => k.matchString e.1 pattern true)).map
        (fun e => e.1)), r)

/-! ## The config write stream, the second copy and the path tests -/

/-- The function `vmu_eyecatch_size` of dcalt.cpp. -/
def dcalt.vmu_eyecatch_size (eyecatch_type : Int) : Int :=
  if eyecatch_type = VMUPKG_EC_NONE then 0
  else if eyecatch_type = VMUPKG_EC_16BIT then 72 * 56 * 2
  else if eyecatch_type = VMUPKG_EC_256COL then 512 + 72 * 56
  else if eyecatch_type = VMUPKG_EC_16COL then 32 + 72 * 56 / 2
  else -1

/-- The class `VMUConfigFileWriteStream`. `_saveBuf` is an offset into
`_data`; `_pkg.data` aliases `_data`. -/
structure VMUConfigFileWriteStream where
  _stream : MemoryWriteStream
  _filename : CStr
  _dev : Option Nat
  _pkg : vmu_pkg
  _data : Nat → Nat
  /-- The size `_data` was allocated with (the argument of `malloc`). -/
  _dataSize : Int
  _hdr_size : Int
  _saveBuf : Nat

/-- The constructor of `VMUConfigFileWriteStream`. As in
`VMUSaveFileWriteStream.new`, the bytes `memcpy` moves into `desc_long` are
the first 32 of the `MAX(size, 32)` it copies. -/
def VMUConfigFileWriteStream.new {W : Type} (k : Env W) (s : Sys W) (dev : Option Nat)
    (filename : CStr) (existingSize : Int) : VMUConfigFileWriteStream × Sys W :=
  let free_bytes := k.vmufs_free_blocks s.world dev * 512 + existingSize
  let pkg : vmu_pkg :=
    { desc_short := fixLen 16 32 (str "ScummVM")
      desc_long := fixLen 32 32 ((filename ++ 0 :: k.past_terminator filename).take
        (MAX filename.length 32).toNat)
      app_id := fixLen 16 0 (str "ScummVM")
      icon_cnt := 1
      icon_anim_speed := 0
      eyecatch_type := VMUPKG_EC_NONE
      data_len := 0
      icon_pal := fixLen 32 0 k.icon_palette
      icon_data := k.icon_pixels
      eyecatch_data := []
      data := [] }
  let icon_size := 512 * pkg.icon_cnt
  let ec_size := vmu_eyecatch_size pkg.eyecatch_type
  let hdr_size := (sizeof_vmu_hdr : Int) + icon_size + ec_size
  let data0 := k.malloc (free_bytes - hdr_size)
  ({ _stream := MemoryWriteStream.new 0 (toUInt32 (free_bytes - hdr_size))
     _filename := filename
     _dev := dev
     _pkg := pkg
     _data := data0
     _dataSize := free_bytes - hdr_size
     _hdr_size := hdr_size
     _saveBuf := 0 },
   s.log (Call.vmufs_free_blocks dev))

/-- The indices of `p` that `vmu_path_to_addr` reads, in the order in which
it first reads them. -/
def vmu_path_to_addr_reads (p : CStr) : List Nat :=
  if charAt p 0 ≠ 47 then [0]
  else
    let port := charAt p 1 ||| 32
    if port < 97 ∨ port > 100 then [0, 1]
    else [0, 1, 2]

/-- The constant `MAPLE_PORT_COUNT` of `dc/maple.h`. -/
def MAPLE_PORT_COUNT : Nat := 4

/-- The constant `MAPLE_UNIT_COUNT` of `dc/maple.h`. -/
def MAPLE_UNIT_COUNT : Nat := 6

/-- The C library's `strlen`. -/
def strlen (s : CStr) : Nat := (c_str s).length

/-- The function `is_vmu` of path.cpp. -/
def is_vmu (path : CStr) : Int :=
  if strncmpEq path (str "/vmu/") 5 then
    if strlen path ≥ 7 then
      if (charAt path 5 ≥ 97 ∧ charAt path 5 < 97 + MAPLE_PORT_COUNT)
          ∧ (charAt path 6 ≥ 48 ∧ charAt path 6 < 48 + MAPLE_UNIT_COUNT)
          ∧ charAt path 7 = 47 then 1
      else 0
    else 0
  else 0

/-- The indices at which `is_vmu` reads `path` through `path[i]`, in order;
the operator `&&` evaluates its right side only where the left side holds. -/
def is_vmu_reads (path : CStr) : List Nat :=
  if strncmpEq path (str "/vmu/") 5 then
    if strlen path ≥ 7 then
      if charAt path 5 ≥ 97 ∧ charAt path 5 < 97 + MAPLE_PORT_COUNT then
        if charAt path 6 ≥ 48 ∧ charAt path 6 < 48 + MAPLE_UNIT_COUNT then [5, 6, 7]
        else [5, 6]
      else [5]
    else []
  else []

/-! ## A small environment for concrete runs -/

/-- A memory card for the concrete runs below: whether it is plugged in (at
port A, unit 1), its files, its free blocks, and whether its root block can
be read, and whether a write or a delete goes through. -/
structure Card where
  present : Bool
  files : List (CStr × List Nat)
  free : Nat
  readable : Bool
  writable : Bool
  deletable : Bool
  deriving DecidableEq, Repr

/-- The number of 512-byte blocks a file of `n` bytes takes. -/
def blocks (n : Nat) : Nat := (n + 511) / 512

/-- The card after `buf` is written under `name`, replacing a file of that name. -/
def Card.write (c : Card) (name : CStr) (buf : List Nat) : Int × Card :=
  let old := (c.files.filter (fun e => e.1 == name)).map (fun e => blocks e.2.length)
  if c.present ∧ c.writable ∧ blocks buf.length ≤ c.free + old.sum then
    (0, { c with files := c.files.filter (fun e => e.1 != name) ++ [(name, buf)]
                 free := c.free + old.sum - blocks buf.length })
  else (-1, c)

/-- The card after the file `name` is deleted. -/
def Card.delete (c : Card) (name : CStr) : Int × Card :=
  let old := (c.files.filter (fun e => e.1 == name)).map (fun e => blocks e.2.length)
  if c.present ∧ c.deletable ∧ old ≠ [] then
    (0, { c with files := c.files.filter (fun e => e.1 != name), free := c.free + old.sum })
  else (-1, c)

/-- An environment over `Card`. The allocation table lists the name and the
block count of every file, the digest is the identity, every name matches the
pattern `*`, the `n`-th random number is `n` reduced to the range asked for,
`seek` leaves the position where it is and returns `false`, and fresh memory
is zero. -/
def cardEnv : Env Card where
  maple_enum_dev := fun c port unit => if c.present ∧ port = 0 ∧ unit = 1 then some 0 else none
  vmufs_free_blocks := fun c _ => c.free
  vmufs_root_read := fun c _ => if c.present ∧ c.readable then (0, [c.free]) else (-1, [])
  vmufs_fat_read := fun c _ _ =>
    if c.present ∧ c.readable then
      (0, (c.files.map (fun e => e.1 ++ [0, blocks e.2.length])).flatten)
    else (-1, [])
  opendir := fun c _ => if c.present then some (c.files.map (fun e => e.1)) else none
  vmufs_read := fun c _ name =>
    match c.files.find? (fun e => e.1 == name) with
    | some e => if c.present then (0, e.2) else (-1, [])
    | none => (-1, [])
  vmufs_write := fun c _ name buf => c.write name buf
  vmufs_delete := fun c _ name => c.delete name
  computeStreamMD5AsString := fun b => b
  matchString := fun key pattern _ => pattern == str "*" || key == pattern
  getRandomNumber := fun n max => n % (max + 1)
  seek := fun _ pos _ _ => (pos, false)
  icon_palette := List.replicate 32 0
  icon_pixels := List.replicate 512 0
  max_record_size := 200 * 512
  malloc := fun _ _ => 0
  past_terminator := fun _ => []
  uninit_pkg :=
    { desc_short := [], desc_long := [], app_id := [], icon_cnt := 0, icon_anim_speed := 0,
      eyecatch_type := 0, data_len := 0, icon_pal := [], icon_data := [], eyecatch_data := [],
      data := [] }

/-- A manager that has not been used yet, with save path `/vmu/a1`. -/
def freshManager : DCAltSaveFileManager :=
  { _saveFileCache := [], _fingerprint := [], _rnd := 0,
    _error := { code := ErrorCode.kNoError, desc := [] }, savePath := str "/vmu/a1" }

/-- An empty card with `free` free blocks, plugged in and working. -/
def emptyCard (free : Nat) : Card :=
  { present := true, files := [], free := free, readable := true, writable := true,
    deletable := true }

/-- Open `filename` for saving, write `data` in one call and close the
stream; `none` when no stream was returned. -/
def saveBytes {W : Type} (k : Env W) (fuel : Nat) (m : DCAltSaveFileManager) (s : Sys W)
    (filename : CStr) (data : List Nat) : Option (DCAltSaveFileManager × Sys W) :=
  match m.openForSaving k fuel s filename true with
  | some (Routed.handled (some sf), m1, s1) => some ((sf.write data).1.close k m1 s1)
  | _ => none

/-- An empty card with ten free blocks and an empty log. -/
def card10 : Sys Card := { world := emptyCard 10, calls := [] }

/-- The manager after it has opened `SAVE1` for saving on `card10`. -/
def demoManager : DCAltSaveFileManager :=
  { freshManager with _fingerprint := [10], _rnd := 4 }

/-- The log after `SAVE1` has been opened for saving on `card10`. -/
def demoLog : List Call :=
  [Call.maple_enum_dev 0 1, Call.vmufs_root_read (some 0), Call.vmufs_fat_read (some 0),
   Call.maple_enum_dev 0 1, Call.opendir (str "/vmu/a1"), Call.maple_enum_dev 0 1,
   Call.vmufs_free_blocks (some 0)]

/-- The stream that opening `SAVE1` for saving on `card10` returns. -/
def demoStream : VMUSaveFileWriteStream :=
  (VMUSaveFileWriteStream.new cardEnv card10 (some 0) (str "SCUMMVM_0123") (str "SAVE1") 0).1

/-- The keys of a cache with the short names of their records. -/
def cacheNames (m : DCAltSaveFileManager) : List (CStr × CStr) :=
  m._saveFileCache.map (fun e => (e.1, e.2._shortFilename))

/-- The card `card10` after `SAVE1` has been saved on it with the bytes 1, 2, 3. -/
def cardWithSave1 : Card :=
  match saveBytes cardEnv 5 freshManager card10 (str "SAVE1") [1, 2, 3] with
  | some r => r.2.world
  | none => emptyCard 10

/-- The manager and the log of a new session after it has listed the saves
of `cardWithSave1`, and so has reconciled with it. -/
def reconciled : DCAltSaveFileManager × Sys Card :=
  (freshManager.listSavefiles cardEnv { world := cardWithSave1, calls := [] } (str "*")).2

/-- The manager and the system after a fresh manager has saved `SAVE1` with the
bytes 1, 2, 3 on `card10`. -/
def savedRun : DCAltSaveFileManager × Sys Card :=
  match saveBytes cardEnv 5 freshManager card10 (str "SAVE1") [1, 2, 3] with
  | some r => r
  | none => (freshManager, card10)

/-- A card with ten free blocks on which every write fails. -/
def readOnlyCard : Sys Card := { world := { emptyCard 10 with writable := false }, calls := [] }

/-- The run that continues `savedRun`: the saves are listed while the card is
unplugged, and once more after it has been plugged in again. -/
def replugRun : (Routed (List CStr) × DCAltSaveFileManager × Sys Card)
    × (Routed (List CStr) × DCAltSaveFileManager × Sys Card) :=
  let a := savedRun.1.listSavefiles cardEnv
    { savedRun.2 with world := { savedRun.2.world with present := false } } (str "*")
  (a, a.2.1.listSavefiles cardEnv { a.2.2 with world := savedRun.2.world } (str "*"))

/-- A manager whose save path is on the SD card, with a record in its cache
and a stored fingerprint. -/
def sdManager : DCAltSaveFileManager :=
  { savedRun.1 with savePath := str "/sd/saves" }

/-- An empty card with one free block and an empty log. -/
def card1 : Sys Card := { world := emptyCard 1, calls := [] }

/-- The stream that opening `SAVE1` for saving on `card1` returns, with the
manager and the system it leaves. -/
def openedOn1 : Option (VMUSaveFileWriteStream × DCAltSaveFileManager × Sys Card) :=
  match freshManager.openForSaving cardEnv 5 card1 (str "SAVE1") true with
  | some (Routed.handled (some sf), m1, s1) => some (sf, m1, s1)
  | _ => none

/-- An unused manager whose save path is `/vmufoo/saves`, a directory that is
not under `/vmu`. -/
def vmufooManager : DCAltSaveFileManager :=
  { freshManager with savePath := str "/vmufoo/saves" }

/-- A card that is not plugged in. -/
def unplugged : Sys Card := { world := { emptyCard 10 with present := false }, calls := [] }

/-- The run that continues `savedRun`: `SAVE1` is removed. -/
def removedRun : Routed Bool × DCAltSaveFileManager × Sys Card :=
  savedRun.1.removeSavefile cardEnv savedRun.2 (str "SAVE1")

/-- The environment `cardEnv` with a device on which every `vmufs_read`
fails and hands back an empty buffer. -/
def noReadEnv : Env Card := { cardEnv with vmufs_read := fun _ _ _ => (-1, []) }

/-- A package with a payload of six bytes: the offset field holds 100 and
the bytes `AB` follow, with no NUL after them. -/
def badFrame : List Nat :=
  (vmu_pkg_build (200 * 512)
    { desc_short := [], desc_long := [], app_id := [], icon_cnt := 1, icon_anim_speed := 0,
      eyecatch_type := 0, data_len := 6, icon_pal := [], icon_data := [], eyecatch_data := [],
      data := [100, 0, 0, 0, 65, 66] }).2

/-- A card that holds `badFrame` under the name `SCUMMVM_0001`. -/
def cardWithBadFrame : Sys Card :=
  { world := { emptyCard 10 with files := [(str "SCUMMVM_0001", badFrame)] }, calls := [] }

/-- The card `cardWithSave1` with one more file, of three bytes, under the
name `SCUMMVM_0001`. -/
def cardWithJunk : Sys Card :=
  { world := { cardWithSave1 with files := (str "SCUMMVM_0001", [1, 2, 3]) :: cardWithSave1.files },
    calls := [] }

/-! ## Invariants -/

/-- The form of a name under which `equalsIgnoreCase` compares it. -/
def foldCase (a : CStr) : CStr := (c_str a).map tolower

/-- Every key of the cache equals, up to letter case, the long name stored in
the record it maps to. -/
def CacheNamed (c : SaveFileCache) : Prop :=
  ∀ e ∈ c, equalsIgnoreCase e.1 e.2.getLongFilename = true

/-- The device pointer `vmu_path_to_addr` returns in world `w`. -/
def addrOf {W : Type} (k : Env W) (w : W) (p : CStr) : Option Nat :=
  (vmu_path_to_addr k { world := w, calls := [] } p).1

/-- The device's current fingerprint: the digest `fingerprint` returns in
world `w`, `none` where it sets an error instead. -/
def fingerprintOf {W : Type} (k : Env W) (w : W) (savePathName : CStr) : Option CStr :=
  let dev := addrOf k w ((c_str savePathName).drop 4)
  if dev = none then none
  else
    let root := k.vmufs_root_read w dev
    if root.1 < 0 then none
    else
      let fat := k.vmufs_fat_read w dev root.2
      if fat.1 < 0 then none else some (k.computeStreamMD5AsString (root.2 ++ fat.2))

/-- The write pointer of an open stream stands at the stream position inside
the save area. -/
def VMUSaveFileWriteStream.Aligned (f : VMUSaveFileWriteStream) : Prop :=
  f._stream._ptr = f._saveBuf + f._stream._pos

/-- What the operations on an open stream leave alone: `g` has the names,
device, package header, sizes and save area of `f`, the bytes of `f` in front
of the save area, and the error flag of `f` if that was raised. -/
def VMUSaveFileWriteStream.Extends (f g : VMUSaveFileWriteStream) : Prop :=
  g._shortFilename = f._shortFilename ∧ g._longFilename = f._longFilename ∧ g._dev = f._dev
    ∧ g._pkg = f._pkg ∧ g._dataSize = f._dataSize ∧ g._hdr_size = f._hdr_size
    ∧ g._saveBuf = f._saveBuf ∧ g._stream._bufSize = f._stream._bufSize
    ∧ (∀ j, j < f._saveBuf → g._data j = f._data j) ∧ (f.err = true → g.err = true)

/-- No two keys of the cache are equal up to letter case: what a hash map
whose keys are compared with `IgnoreCase_EqualTo` keeps. -/
def CacheDistinct (c : SaveFileCache) : Prop :=
  c.Pairwise (fun a b => equalsIgnoreCase a.1 b.1 = false)

/-- Whether a logged call reads an entry of the device's directory. -/
def Call.isEntryRead : Call → Bool
  | Call.vmufs_read _ _ => true
  | _ => false

/-- Whether a logged call enumerates the device: it opens the directory or
reads an entry. -/
def Call.isScan : Call → Bool
  | Call.opendir _ => true
  | Call.vmufs_read _ _ => true
  | _ => false

/-- The characters `0` to `9` and `A` to `Z`. -/
def isDigitOrUpper (c : Nat) : Prop := (48 ≤ c ∧ c ≤ 57) ∨ (65 ≤ c ∧ c ≤ 90)

/-- A package whose fields have the sizes the format gives them, with a
payload that fits a record of `max_record_size` bytes. -/
def vmu_pkg.Valid (p : vmu_pkg) (max_record_size : Nat) : Prop :=
  p.desc_short.length = 16 ∧ p.desc_long.length = 32 ∧ p.app_id.length = 16
    ∧ 0 ≤ p.icon_cnt ∧ p.icon_cnt < 65536 ∧ 0 ≤ p.icon_anim_speed ∧ p.icon_anim_speed < 65536
    ∧ 0 ≤ p.eyecatch_type ∧ p.eyecatch_type ≤ 3
    ∧ p.icon_pal.length = 32 ∧ p.icon_data.length = 512 * p.icon_cnt.toNat
    ∧ p.eyecatch_data.length = (vmu_eyecatch_size p.eyecatch_type).toNat
    ∧ 0 ≤ p.data_len ∧ p.data_len ≤ max_record_size ∧ p.data_len < 2 ^ 32
    ∧ p.data.length = p.data_len.toNat

/-- The records a rescan reads in world `w`: one for every name of the
directory that begins with `SCUMMVM_`, in the order of the directory. -/
def scannedRecords {W : Type} (k : Env W) (w : W) (dev : Option Nat) (names : List CStr) :
    List VMUSaveFile :=
  (names.filter (fun n => strncmpEq (str "SCUMMVM_") n 8)).map
    (fun n => VMUSaveFile.init k (k.vmufs_read w dev (c_str (c_str n))).2
      (k.vmufs_read w dev (c_str (c_str n))).2.length (c_str n))

/-! ## Lemmas on byte strings and the package layout -/

theorem fixLen_length (n pad : Nat) (l : List Nat) : (fixLen n pad l).length = n := by
  simp [fixLen]

theorem readMem_length (mem : Nat → Nat) (i n : Nat) : (readMem mem i n).length = n := by
  simp [readMem]

theorem le16_length (v : Nat) : (le16 v).length = 2 := rfl
theorem le32_length (v : Nat) : (le32 v).length = 4 := rfl

theorem getD_append_ge (pre rest : List Nat) (i : Nat) (h : pre.length ≤ i) :
    (pre ++ rest).getD i 0 = rest.getD (i - pre.length) 0 := by
  simp [List.getD_eq_getElem?_getD, List.getElem?_append_right h]

theorem rd16_append_ge (pre rest : List Nat) (i : Nat) (h : pre.length ≤ i) :
    rd16 (pre ++ rest) i = rd16 rest (i - pre.length) := by
  unfold rd16
  rw [getD_append_ge pre rest i h, getD_append_ge pre rest (i + 1) (by omega)]
  have : i + 1 - pre.length = i - pre.length + 1 := by omega
  rw [this]

theorem rd32_append_ge (pre rest : List Nat) (i : Nat) (h : pre.length ≤ i) :
    rd32 (pre ++ rest) i = rd32 rest (i - pre.length) := by
  unfold rd32
  rw [getD_append_ge pre rest i h, getD_append_ge pre rest (i + 1) (by omega),
    getD_append_ge pre rest (i + 2) (by omega), getD_append_ge pre rest (i + 3) (by omega)]
  have h1 : i + 1 - pre.length = i - pre.length + 1 := by omega
  have h2 : i + 2 - pre.length = i - pre.length + 2 := by omega
  have h3 : i + 3 - pre.length = i - pre.length + 3 := by omega
  rw [h1, h2, h3]

theorem rd16_le16 (v : Nat) (rest : List Nat) : rd16 (le16 v ++ rest) 0 = v % 65536 := by
  simp [rd16, le16]
  omega

theorem rd32_le32 (v : Nat) (rest : List Nat) : rd32 (le32 v ++ rest) 0 = v % 4294967296 := by
  simp [rd32, le32]
  omega

theorem drop_append_ge (pre rest : List Nat) (i : Nat) (h : pre.length ≤ i) :
    (pre ++ rest).drop i = rest.drop (i - pre.length) := by
  rw [List.drop_append_eq_append_drop]
  simp [List.drop_eq_nil_of_le h]



theorem take_append_len (a rest : List Nat) (n : Nat) (h : a.length = n) :
    (a ++ rest).take n = a := by
  subst h; simp

theorem vmu_eyecatch_size_nonneg (t : Int) (h0 : 0 ≤ t) (h3 : t ≤ 3) : 0 ≤ vmu_eyecatch_size t := by
  have : t = 0 ∨ t = 1 ∨ t = 2 ∨ t = 3 := by omega
  rcases this with h | h | h | h <;> subst h <;> decide

theorem vmu_pkg_build_ok (max : Nat) (p : vmu_pkg) (hec0 : 0 ≤ p.eyecatch_type)
    (hec3 : p.eyecatch_type ≤ 3) (hn : 0 ≤ p.data_len) (hmax : p.data_len ≤ max) :
    vmu_pkg_build max p =
      (0, fixLen 16 32 p.desc_short ++ (fixLen 32 32 p.desc_long ++ (fixLen 16 0 p.app_id
      ++ (le16 p.icon_cnt.toNat ++ (le16 p.icon_anim_speed.toNat
      ++ (le16 p.eyecatch_type.toNat ++ (le16 0 ++ (le32 p.data_len.toNat
      ++ (List.replicate 20 0 ++ (fixLen 32 0 p.icon_pal
      ++ (fixLen (512 * p.icon_cnt.toNat) 0 p.icon_data
      ++ (fixLen (vmu_eyecatch_size p.eyecatch_type).toNat 0 p.eyecatch_data
      ++ fixLen p.data_len.toNat 0 p.data)))))))))))) := by
  have hec := vmu_eyecatch_size_nonneg p.eyecatch_type hec0 hec3
  unfold vmu_pkg_build
  have hc : ¬ (vmu_eyecatch_size p.eyecatch_type < 0 ∨ p.data_len < 0 ∨ (max : Int) < p.data_len) := by
    omega
  simp only [hc, if_false, List.append_assoc]


theorem vmu_pkg_parse_layout (u : vmu_pkg) (A B C pal I E D : List Nat) (ic an ec n es : Nat)
    (hA : A.length = 16) (hB : B.length = 32) (hC : C.length = 16) (hpal : pal.length = 32)
    (hI : I.length = 512 * ic) (hes : vmu_eyecatch_size ec = es) (hE : E.length = es)
    (hic : ic < 65536) (han : an < 65536) (hec : ec < 65536) (hn : n < 4294967296) :
    vmu_pkg_parse (A ++ (B ++ (C ++ (le16 ic ++ (le16 an ++ (le16 ec ++ (le16 0 ++ (le32 n
      ++ (List.replicate 20 0 ++ (pal ++ (I ++ (E ++ D)))))))))))) u =
    (0, { desc_short := A, desc_long := B, app_id := C, icon_cnt := ic, icon_anim_speed := an,
          eyecatch_type := ec, data_len := n, icon_pal := pal, icon_data := I,
          eyecatch_data := E, data := D }) := by
  have e1 : rd16 (A ++ (B ++ (C ++ (le16 ic ++ (le16 an ++ (le16 ec ++ (le16 0 ++ (le32 n
      ++ (List.replicate 20 0 ++ (pal ++ (I ++ (E ++ D)))))))))))) 64 = ic := by
    rw [rd16_append_ge _ _ _ (by omega), rd16_append_ge _ _ _ (by omega),
      rd16_append_ge _ _ _ (by omega)]
    simp only [hA, hB, hC]
    rw [rd16_le16]; omega
  have e2 : rd16 (A ++ (B ++ (C ++ (le16 ic ++ (le16 an ++ (le16 ec ++ (le16 0 ++ (le32 n
      ++ (List.replicate 20 0 ++ (pal ++ (I ++ (E ++ D)))))))))))) 66 = an := by
    rw [rd16_append_ge _ _ _ (by omega), rd16_append_ge _ _ _ (by omega),
      rd16_append_ge _ _ _ (by omega), rd16_append_ge _ _ _ (by simp [le16_length]; omega)]
    simp only [hA, hB, hC, le16_length]
    rw [rd16_le16]; omega
  have e3 : rd16 (A ++ (B ++ (C ++ (le16 ic ++ (le16 an ++ (le16 ec ++ (le16 0 ++ (le32 n
      ++ (List.replicate 20 0 ++ (pal ++ (I ++ (E ++ D)))))))))))) 68 = ec := by
    rw [rd16_append_ge _ _ _ (by omega), rd16_append_ge _ _ _ (by omega),
      rd16_append_ge _ _ _ (by omega), rd16_append_ge _ _ _ (by simp [le16_length]; omega),
      rd16_append_ge _ _ _ (by simp [le16_length]; omega)]
    simp only [hA, hB, hC, le16_length]
    rw [rd16_le16]; omega
  have e4 : rd32 (A ++ (B ++ (C ++ (le16 ic ++ (le16 an ++ (le16 ec ++ (le16 0 ++ (le32 n
      ++ (List.replicate 20 0 ++ (pal ++ (I ++ (E ++ D)))))))))))) 72 = n := by
    rw [rd32_append_ge _ _ _ (by omega), rd32_append_ge _ _ _ (by omega),
      rd32_append_ge _ _ _ (by omega), rd32_append_ge _ _ _ (by simp [le16_length]; omega),
      rd32_append_ge _ _ _ (by simp [le16_length]; omega),
      rd32_append_ge _ _ _ (by simp [le16_length]; omega),
      rd32_append_ge _ _ _ (by simp [le16_length]; omega)]
    simp only [hA, hB, hC, le16_length]
    rw [rd32_le32]; omega
  have hlen : (A ++ (B ++ (C ++ (le16 ic ++ (le16 an ++ (le16 ec ++ (le16 0 ++ (le32 n
      ++ (List.replicate 20 0 ++ (pal ++ (I ++ (E ++ D)))))))))))).length
      = 128 + 512 * ic + es + D.length := by
    simp only [List.length_append, hA, hB, hC, hpal, hI, hE, le16_length, le32_length,
      List.length_replicate]
    omega
  unfold vmu_pkg_parse
  simp only [e1, e2, e3, e4, hes, hlen, sizeof_vmu_hdr]
  rw [if_neg (by push_cast; omega)]
  have d0 : ∀ (X : List Nat), ((A ++ X).drop 0).take 16 = A := by
    intro X; rw [List.drop_zero]; exact take_append_len A X 16 hA
  have d1 : ∀ (X : List Nat), ((A ++ (B ++ X)).drop 16).take 32 = B := by
    intro X
    rw [drop_append_ge _ _ _ (by omega)]
    simp only [hA, Nat.sub_self, List.drop_zero]
    exact take_append_len B X 32 hB
  have d2 : ∀ (X : List Nat), ((A ++ (B ++ (C ++ X))).drop 48).take 16 = C := by
    intro X
    rw [drop_append_ge _ _ _ (by omega), drop_append_ge _ _ _ (by omega)]
    simp only [hA, hB, Nat.reduceSub, List.drop_zero]
    exact take_append_len C X 16 hC
  have d3 : ∀ (X : List Nat), ((A ++ (B ++ (C ++ (le16 ic ++ (le16 an ++ (le16 ec ++ (le16 0
      ++ (le32 n ++ (List.replicate 20 0 ++ (pal ++ X)))))))))).drop 96).take 32 = pal := by
    intro X
    rw [drop_append_ge _ _ _ (by omega), drop_append_ge _ _ _ (by omega),
      drop_append_ge _ _ _ (by omega), drop_append_ge _ _ _ (by simp [le16_length]; omega),
      drop_append_ge _ _ _ (by simp [le16_length]; omega),
      drop_append_ge _ _ _ (by simp [le16_length]; omega),
      drop_append_ge _ _ _ (by simp [le16_length]; omega),
      drop_append_ge _ _ _ (by simp [le16_length, le32_length]; omega),
      drop_append_ge _ _ _ (by simp [le16_length, le32_length]; omega)]
    simp only [hA, hB, hC, le16_length, le32_length, List.length_replicate, Nat.reduceSub,
      List.drop_zero]
    exact take_append_len pal X 32 hpal
  have d4 : ∀ (X : List Nat), (A ++ (B ++ (C ++ (le16 ic ++ (le16 an ++ (le16 ec ++ (le16 0
      ++ (le32 n ++ (List.replicate 20 0 ++ (pal ++ X)))))))))).drop 128 = X := by
    intro X
    rw [drop_append_ge _ _ _ (by omega), drop_append_ge _ _ _ (by omega),
      drop_append_ge _ _ _ (by omega), drop_append_ge _ _ _ (by simp [le16_length]; omega),
      drop_append_ge _ _ _ (by simp [le16_length]; omega),
      drop_append_ge _ _ _ (by simp [le16_length]; omega),
      drop_append_ge _ _ _ (by simp [le16_length]; omega),
      drop_append_ge _ _ _ (by simp [le16_length, le32_length]; omega),
      drop_append_ge _ _ _ (by simp [le16_length, le32_length]; omega),
      drop_append_ge _ _ _ (by simp [le16_length, le32_length, hpal]; omega)]
    simp only [hA, hB, hC, hpal, le16_length, le32_length, List.length_replicate, Nat.reduceSub,
      List.drop_zero]
  have d5 : ∀ (j : Nat) (X : List Nat), (A ++ (B ++ (C ++ (le16 ic ++ (le16 an ++ (le16 ec
      ++ (le16 0 ++ (le32 n ++ (List.replicate 20 0 ++ (pal ++ X)))))))))).drop (128 + j)
      = X.drop j := by
    intro j X
    rw [← List.drop_drop, d4]
  have t1 : (((128 : Nat) : Int) + ((512 * ic : Nat) : Int) + (es : Int)).toNat
      = 128 + (512 * ic + es) := by
    push_cast; omega
  simp only [d0, d1, d2, d3]
  rw [t1, d5 0, d5 (512 * ic), d5 (512 * ic + es)]
  have f1 : (I ++ (E ++ D)).take (512 * ic) = I := take_append_len I _ _ hI
  have f2 : ((I ++ (E ++ D)).drop (512 * ic)).take es = E := by
    rw [drop_append_ge _ _ _ (by omega), hI, Nat.sub_self, List.drop_zero]
    exact take_append_len E _ _ hE
  have f3 : (I ++ (E ++ D)).drop (512 * ic + es) = D := by
    rw [drop_append_ge _ _ _ (by omega), drop_append_ge _ _ _ (by omega), hI, hE]
    have : 512 * ic + es - 512 * ic - es = 0 := by omega
    rw [this, List.drop_zero]
  simp only [List.drop_zero, f1, f2, f3, Int.toNat_ofNat]

theorem vmu_pkg_parse_build (max : Nat) (p u : vmu_pkg) (hic0 : 0 ≤ p.icon_cnt)
    (hic : p.icon_cnt < 65536) (han0 : 0 ≤ p.icon_anim_speed) (han : p.icon_anim_speed < 65536)
    (hec0 : 0 ≤ p.eyecatch_type) (hec3 : p.eyecatch_type ≤ 3) (hn : 0 ≤ p.data_len)
    (hmax : p.data_len ≤ max) (h32 : p.data_len < 2 ^ 32) :
    vmu_pkg_parse (vmu_pkg_build max p).2 u = (0, p.stored) := by
  have hec := vmu_eyecatch_size_nonneg p.eyecatch_type hec0 hec3
  rw [vmu_pkg_build_ok max p hec0 hec3 hn hmax]
  obtain ⟨ds, dl, ai, ic, an, ec, n, pal, idata, edata, data⟩ := p
  simp only at hic0 hic han0 han hec0 hec3 hn hmax h32 hec ⊢
  obtain ⟨ic, rfl⟩ := Int.eq_ofNat_of_zero_le hic0
  obtain ⟨an, rfl⟩ := Int.eq_ofNat_of_zero_le han0
  obtain ⟨ec, rfl⟩ := Int.eq_ofNat_of_zero_le hec0
  obtain ⟨n, rfl⟩ := Int.eq_ofNat_of_zero_le hn
  obtain ⟨es, hes⟩ := Int.eq_ofNat_of_zero_le hec
  simp only [vmu_pkg.stored, Int.toNat_ofNat, hes]
  exact vmu_pkg_parse_layout u _ _ _ _ _ _ _ ic an ec n es (fixLen_length _ _ _)
    (fixLen_length _ _ _) (fixLen_length _ _ _) (fixLen_length _ _ _) (fixLen_length _ _ _) hes
    (fixLen_length _ _ _) (by omega) (by omega) (by omega) (by omega)

/-! ## Lemmas on the staged write stream -/

theorem readMem_add (mem : Nat → Nat) (b n k : Nat) :
    readMem mem b (n + k) = readMem mem b n ++ readMem mem (b + n) k := by
  unfold readMem
  rw [List.range_add, List.map_append, List.map_map]
  congr 1
  apply List.map_congr_left
  intro j _
  simp [Nat.add_assoc]

theorem readMem_store_below (mem : Nat → Nat) (p : Nat) (d : List Nat) (b n : Nat)
    (h : b + n ≤ p) : readMem (store mem p d) b n = readMem mem b n := by
  unfold readMem
  apply List.map_congr_left
  intro j hj
  have : j < n := List.mem_range.mp hj
  unfold store
  rw [if_neg (by omega)]

theorem readMem_store_self (mem : Nat → Nat) (p : Nat) (d : List Nat) :
    readMem (store mem p d) p d.length = d := by
  apply List.ext_getElem
  · simp [readMem]
  · intro i h1 h2
    simp only [readMem, List.getElem_map, List.getElem_range, store]
    rw [if_pos (by omega)]
    simp [List.getD_eq_getElem?_getD, h2]

theorem write_err_sticky (f : VMUSaveFileWriteStream) (data : List Nat)
    (h : (f.write data).1.err = false) :
    f.err = false ∧ data.length ≤ f._stream._bufSize - f.pos := by
  unfold VMUSaveFileWriteStream.write MemoryWriteStream.write VMUSaveFileWriteStream.err at h
  unfold VMUSaveFileWriteStream.err VMUSaveFileWriteStream.pos
  by_cases hc : data.length > f._stream._bufSize - f._stream._pos
  · simp [hc] at h
  · simp only [hc, if_false] at h
    exact ⟨h, by omega⟩

theorem write_fits (f : VMUSaveFileWriteStream) (data : List Nat)
    (h : data.length ≤ f._stream._bufSize - f.pos) :
    f.write data = ({ f with _stream := { f._stream with _ptr := f._stream._ptr + data.length,
                                                          _pos := f._stream._pos + data.length },
                             _data := store f._data f._stream._ptr data }, data.length) := by
  unfold VMUSaveFileWriteStream.pos at h
  unfold VMUSaveFileWriteStream.write MemoryWriteStream.write
  simp only [show ¬ (data.length > f._stream._bufSize - f._stream._pos) by omega, if_false]

theorem extends_refl (f : VMUSaveFileWriteStream) : f.Extends f :=
  ⟨rfl, rfl, rfl, rfl, rfl, rfl, rfl, rfl, fun _ _ => rfl, fun h => h⟩

theorem extends_trans {f g h : VMUSaveFileWriteStream} (a : f.Extends g) (b : g.Extends h) :
    f.Extends h := by
  obtain ⟨a1, a2, a3, a4, a5, a6, a7, a8, a9, a10⟩ := a
  obtain ⟨b1, b2, b3, b4, b5, b6, b7, b8, b9, b10⟩ := b
  refine ⟨b1.trans a1, b2.trans a2, b3.trans a3, b4.trans a4, b5.trans a5, b6.trans a6,
    b7.trans a7, b8.trans a8, ?_, fun e => b10 (a10 e)⟩
  intro j hj
  rw [b9 j (by omega), a9 j hj]

theorem step_extends {W : Type} (k : Env W) (f : VMUSaveFileWriteStream) (op : StreamOp)
    (ha : f.Aligned) : f.Extends (f.step k op) ∧ (f.step k op).Aligned := by
  unfold VMUSaveFileWriteStream.Aligned at ha
  cases op with
  | write data =>
    simp only [VMUSaveFileWriteStream.step, VMUSaveFileWriteStream.write, MemoryWriteStream.write]
    by_cases hc : data.length > f._stream._bufSize - f._stream._pos
    · simp only [hc, if_true]
      refine ⟨⟨rfl, rfl, rfl, rfl, rfl, rfl, rfl, rfl, ?_, fun _ => rfl⟩, ?_⟩
      · intro j hj
        simp only [store]
        rw [if_neg (by omega)]
      · simp only [VMUSaveFileWriteStream.Aligned]; omega
    · simp only [hc, if_false]
      refine ⟨⟨rfl, rfl, rfl, rfl, rfl, rfl, rfl, rfl, ?_, fun h => h⟩, ?_⟩
      · intro j hj
        simp only [store]
        rw [if_neg (by omega)]
      · simp only [VMUSaveFileWriteStream.Aligned]; omega
  | seek offset whence =>
    simp only [VMUSaveFileWriteStream.step, VMUSaveFileWriteStream.seek, MemoryWriteStream.seek]
    refine ⟨⟨rfl, rfl, rfl, rfl, rfl, rfl, rfl, rfl, fun _ _ => rfl, fun h => h⟩, ?_⟩
    simp only [VMUSaveFileWriteStream.Aligned]; omega

theorem run_extends {W : Type} (k : Env W) (ops : List StreamOp) :
    ∀ f : VMUSaveFileWriteStream, f.Aligned → f.Extends (f.run k ops) ∧ (f.run k ops).Aligned := by
  induction ops with
  | nil => intro f ha; exact ⟨extends_refl f, ha⟩
  | cons op ops ih =>
    intro f ha
    have h1 := step_extends k f op ha
    have h2 := ih (f.step k op) h1.2
    exact ⟨extends_trans h1.1 h2.1, h2.2⟩

theorem run_written {W : Type} (k : Env W) (ops : List StreamOp) :
    ∀ f : VMUSaveFileWriteStream, f.Aligned → (∀ o ∈ ops, o.isWrite = true) →
      (f.run k ops).err = false →
      (f.run k ops).pos = f.pos + (written ops).length ∧
      readMem (f.run k ops)._data f._saveBuf (f.pos + (written ops).length)
        = readMem f._data f._saveBuf f.pos ++ written ops := by
  induction ops with
  | nil => intro f _ _ _; simp [VMUSaveFileWriteStream.run, written]
  | cons op ops ih =>
    intro f ha hw he
    have hop := hw op (List.mem_cons_self _ _)
    cases op with
    | seek o w => simp [StreamOp.isWrite] at hop
    | write data =>
      have hrun : f.run k (StreamOp.write data :: ops) = (f.write data).1.run k ops := rfl
      rw [hrun] at he ⊢
      have h1 := step_extends k f (StreamOp.write data) ha
      simp only [VMUSaveFileWriteStream.step] at h1
      have he1 : (f.write data).1.err = false := by
        have := (run_extends k ops _ h1.2).1.2.2.2.2.2.2.2.2.2
        cases hq : (f.write data).1.err with
        | false => rfl
        | true => rw [this hq] at he; exact absurd he (by simp)
      have hfit := (write_err_sticky f data he1).2
      have hih := ih (f.write data).1 h1.2 (fun o ho => hw o (List.mem_cons_of_mem _ ho)) he
      rw [write_fits f data hfit] at hih ⊢
      simp only [VMUSaveFileWriteStream.pos, written, List.length_append] at hih ⊢
      unfold VMUSaveFileWriteStream.Aligned at ha
      refine ⟨by omega, ?_⟩
      rw [← Nat.add_assoc, hih.2, readMem_add, readMem_store_below _ _ _ _ _ (by omega), ha,
        readMem_store_self, List.append_assoc]

theorem fixLen_exact (n pad : Nat) (l : List Nat) (h : l.length = n) : fixLen n pad l = l := by
  unfold fixLen
  subst h
  simp

theorem c_str_append_nul (a rest : List Nat) : c_str (c_str a ++ 0 :: rest) = c_str a := by
  unfold c_str
  rw [List.takeWhile_append_of_pos]
  · simp
  · intro x hx
    have := List.mem_takeWhile_imp hx
    simpa using this

theorem c_str_eq_self (a : List Nat) (h : 0 ∉ a) : c_str a = a := by
  unfold c_str
  rw [List.takeWhile_eq_self_iff]
  intro x hx
  simp only [bne_iff_ne, ne_eq]
  intro h0
  exact h (h0 ▸ hx)

theorem new_fields {W : Type} (k : Env W) (s : Sys W) (dev : Option Nat)
    (short long : CStr) (existing : Int) (hL : long.length + 5 < 2 ^ 32) :
    let f := (VMUSaveFileWriteStream.new k s dev short long existing).1
    f.Aligned ∧ f._saveBuf = long.length + 5 ∧ f._pkg.data_len = ((long.length + 5 : Nat) : Int)
      ∧ f._pkg.icon_cnt = 1 ∧ f._pkg.icon_anim_speed = 0 ∧ f._pkg.eyecatch_type = 0
      ∧ f._shortFilename = short ∧ f._longFilename = long ∧ f._dev = dev ∧ f._hdr_size = 640
      ∧ f._stream._pos = 0 ∧ f._stream._err = false
      ∧ f._dataSize = k.vmufs_free_blocks s.world dev * 512 + existing - 640
      ∧ f._stream._bufSize
          = toUInt32 (k.vmufs_free_blocks s.world dev * 512 + existing - 640 - (long.length + 5 : Nat))
      ∧ readMem f._data 0 (4 + ((c_str long).length + 1))
          = le32 (long.length + 5) ++ (c_str long ++ [0]) := by
  have hoff : (4 + long.length + 1) % 2 ^ 32 = long.length + 5 := by
    rw [Nat.mod_eq_of_lt (by omega)]; omega
  have hec : vmu_eyecatch_size 0 = 0 := rfl
  intro f
  refine ⟨?_, ?_, ?_, ?_, ?_, ?_, ?_, ?_, ?_, ?_, ?_, ?_, ?_, ?_, ?_⟩
  · simp [f, VMUSaveFileWriteStream.new, VMUSaveFileWriteStream.Aligned, MemoryWriteStream.new]
  · simp only [f, VMUSaveFileWriteStream.new, hoff]
  · simp only [f, VMUSaveFileWriteStream.new, hoff]
  · simp [f, VMUSaveFileWriteStream.new]
  · simp [f, VMUSaveFileWriteStream.new]
  · simp [f, VMUSaveFileWriteStream.new, VMUPKG_EC_NONE]
  · simp [f, VMUSaveFileWriteStream.new]
  · simp [f, VMUSaveFileWriteStream.new]
  · simp [f, VMUSaveFileWriteStream.new]
  · simp [f, VMUSaveFileWriteStream.new, VMUPKG_EC_NONE, hec, sizeof_vmu_hdr]
  · simp [f, VMUSaveFileWriteStream.new, MemoryWriteStream.new]
  · simp [f, VMUSaveFileWriteStream.new, MemoryWriteStream.new]
  · simp only [f, VMUSaveFileWriteStream.new, VMUPKG_EC_NONE, hec, sizeof_vmu_hdr]
    omega
  · simp only [f, VMUSaveFileWriteStream.new, MemoryWriteStream.new, VMUPKG_EC_NONE, hec,
      sizeof_vmu_hdr, hoff]
    congr 1
  · simp only [f, VMUSaveFileWriteStream.new, hoff]
    rw [readMem_add, readMem_store_below _ _ _ _ _ (by omega)]
    have h4 : (le32 (long.length + 5)).length = 4 := rfl
    have e1 := readMem_store_self (k.malloc (k.vmufs_free_blocks s.world dev * 512 + existing
      - ((sizeof_vmu_hdr : Int) + 512 * 1 + vmu_eyecatch_size VMUPKG_EC_NONE))) 0
      (le32 (long.length + 5))
    rw [h4] at e1
    rw [e1]
    have e2 := readMem_store_self (store (k.malloc (k.vmufs_free_blocks s.world dev * 512
      + existing - ((sizeof_vmu_hdr : Int) + 512 * 1 + vmu_eyecatch_size VMUPKG_EC_NONE))) 0
      (le32 (long.length + 5))) 4 (c_str long ++ [0])
    simp only [List.length_append, List.length_singleton] at e2
    simp only [Nat.zero_add]
    rw [e2]

theorem rd32_readMem_le32 (mem : Nat → Nat) (v n : Nat) (h4 : 4 ≤ n)
    (h : readMem mem 0 4 = le32 v) (hv : v < 2 ^ 32) : rd32 (readMem mem 0 n) 0 = v := by
  obtain ⟨m, rfl⟩ : ∃ m, n = 4 + m := ⟨n - 4, by omega⟩
  rw [readMem_add, h, rd32_le32]
  omega

theorem committed_record_aux {W : Type} (k : Env W) (f : VMUSaveFileWriteStream)
    (short long : CStr)
    (n3 : f._pkg.data_len = ((long.length + 5 : Nat) : Int)) (n4 : f._pkg.icon_cnt = 1)
    (n5 : f._pkg.icon_anim_speed = 0) (n6 : f._pkg.eyecatch_type = 0)
    (n7 : f._shortFilename = short)
    (hhead : readMem f._data 0 (4 + ((c_str long).length + 1))
      = le32 (long.length + 5) ++ (c_str long ++ [0]))
    (hmax : long.length + 5 + f.pos ≤ k.max_record_size)
    (h32 : long.length + 5 + f.pos < 2 ^ 32) :
    (f.build k).2.1 = 0 ∧ (f.build k).1.data_len = ((long.length + 5 + f.pos : Nat) : Int)
      ∧ (f.build k).2.2.length = 640 + (long.length + 5 + f.pos)
      ∧ (VMUSaveFile.ofBuffer k (f.build k).2.2 (f.build k).2.2.length
          f._shortFilename).getLongFilename = c_str long
      ∧ (VMUSaveFile.ofBuffer k (f.build k).2.2 (f.build k).2.2.length
          f._shortFilename).createReadStream = readMem f._data (long.length + 5) f.pos
      ∧ (VMUSaveFile.ofBuffer k (f.build k).2.2 (f.build k).2.2.length
          f._shortFilename)._shortFilename = short
      ∧ (VMUSaveFile.ofBuffer k (f.build k).2.2 (f.build k).2.2.length f._shortFilename)._size
          = ((640 + (long.length + 5 + f.pos) : Nat) : Int) := by
  have hL : long.length + 5 < 2 ^ 32 := by omega
  generalize hb : f.build k = b
  have hpos : f.pos = f._stream._pos := rfl
  have hlenI : f._pkg.data_len + f._stream._pos = ((long.length + 5 + f.pos : Nat) : Int) := by
    rw [n3, hpos]; push_cast; ring
  have hb1 : b.1 = { f._pkg with data_len := ((long.length + 5 + f.pos : Nat) : Int),
                                 data := readMem f._data 0 (long.length + 5 + f.pos) } := by
    rw [← hb]
    simp only [VMUSaveFileWriteStream.build, hlenI, Int.toNat_ofNat]
  have hb2 : b.2 = vmu_pkg_build k.max_record_size b.1 := by rw [← hb]; rfl
  have hic : b.1.icon_cnt = 1 := by rw [hb1]; exact n4
  have han : b.1.icon_anim_speed = 0 := by rw [hb1]; exact n5
  have hec : b.1.eyecatch_type = 0 := by rw [hb1]; exact n6
  have hdl : b.1.data_len = ((long.length + 5 + f.pos : Nat) : Int) := by rw [hb1]
  have hdata : b.1.data = readMem f._data 0 (long.length + 5 + f.pos) := by rw [hb1]
  have hbuild := vmu_pkg_build_ok k.max_record_size b.1 (by omega) (by omega) (by omega)
    (by rw [hdl]; exact_mod_cast hmax)
  have hparse := vmu_pkg_parse_build k.max_record_size b.1 k.uninit_pkg (by omega) (by omega)
    (by omega) (by omega) (by omega) (by omega) (by omega) (by rw [hdl]; exact_mod_cast hmax)
    (by rw [hdl]; exact_mod_cast h32)
  rw [← hb2] at hbuild hparse
  have hlen : b.2.2.length = 640 + (long.length + 5 + f.pos) := by
    rw [hbuild]
    simp only [List.length_append, fixLen_length, le16_length, le32_length, List.length_replicate,
      hic, hec, hdl, Int.toNat_ofNat]
    have : (vmu_eyecatch_size 0).toNat = 0 := rfl
    rw [this]
    have : (1 : Int).toNat = 1 := rfl
    rw [this]
    omega
  generalize hr : VMUSaveFile.ofBuffer k b.2.2 b.2.2.length f._shortFilename = r
  have hr2 : r = { _buf := b.2.2, _size := b.2.2.length, _pkg := b.1.stored,
                   _saveBuf := rd32 b.1.stored.data 0,
                   _saveSize := b.1.stored.data_len - rd32 b.1.stored.data 0,
                   _shortFilename := f._shortFilename } := by
    rw [← hr]
    simp only [VMUSaveFile.ofBuffer, VMUSaveFile.init, Int.toNat_ofNat, List.take_length,
      hparse]
  have hsd : b.1.stored.data = readMem f._data 0 (long.length + 5 + f.pos) := by
    simp only [vmu_pkg.stored, hdl, hdata, Int.toNat_ofNat]
    exact fixLen_exact _ _ _ (readMem_length _ _ _)
  have hcl : (c_str long).length ≤ long.length := (List.takeWhile_sublist _).length_le
  have h4 : readMem f._data 0 4 = le32 (long.length + 5) := by
    have h := hhead
    rw [readMem_add] at h
    exact (List.append_inj h (by simp [readMem_length, le32_length])).1
  have hoff : rd32 (readMem f._data 0 (long.length + 5 + f.pos)) 0 = long.length + 5 :=
    rd32_readMem_le32 _ _ _ (by omega) h4 hL
  refine ⟨?_, hdl, hlen, ?_, ?_, ?_, ?_⟩
  · rw [hbuild]
  · rw [hr2]
    simp only [VMUSaveFile.getLongFilename, stringAt, hsd]
    obtain ⟨q, hq⟩ : ∃ q, long.length + 5 + f.pos = 4 + ((c_str long).length + 1) + q :=
      ⟨long.length + 5 + f.pos - (4 + ((c_str long).length + 1)), by omega⟩
    rw [hq, readMem_add, hhead, List.append_assoc, drop_append_ge _ _ _ (by simp [le32_length]),
      le32_length, Nat.sub_self, List.drop_zero, List.append_assoc, List.singleton_append,
      c_str_append_nul]
  · rw [hr2]
    have hsdl : b.1.stored.data_len = ((long.length + 5 + f.pos : Nat) : Int) := hdl
    have e1 : toUInt32 (((long.length + 5 + f.pos : Nat) : Int) - ((long.length + 5 : Nat) : Int))
        = f.pos := by
      unfold toUInt32
      have : (((long.length + 5 + f.pos : Nat) : Int) - ((long.length + 5 : Nat) : Int))
          = ((f.pos : Nat) : Int) := by push_cast; ring
      rw [this]
      omega
    show (b.1.stored.data.drop (rd32 b.1.stored.data 0)).take
        (toUInt32 (b.1.stored.data_len - rd32 b.1.stored.data 0)) = _
    rw [hsd, hoff, hsdl, e1, readMem_add, drop_append_ge _ _ _ (by simp [readMem_length]),
      readMem_length, Nat.sub_self, List.drop_zero, Nat.zero_add]
    rw [List.take_of_length_le (by simp [readMem_length])]
  · rw [hr2]; exact n7
  · rw [hr2]; simp only; rw [hlen]

theorem run_head {W : Type} (k : Env W) (s : Sys W) (dev : Option Nat)
    (short long : CStr) (existing : Int) (ops : List StreamOp) (hL : long.length + 5 < 2 ^ 32) :
    readMem ((VMUSaveFileWriteStream.new k s dev short long existing).1.run k ops)._data 0
        (4 + ((c_str long).length + 1))
      = le32 (long.length + 5) ++ (c_str long ++ [0]) := by
  obtain ⟨n1, n2, -, -, -, -, -, -, -, -, -, -, -, -, n15⟩ :=
    new_fields k s dev short long existing hL
  have hx := (run_extends k ops _ n1).1.2.2.2.2.2.2.2.2.1
  rw [← n15]
  unfold readMem
  apply List.map_congr_left
  intro j hj
  have hj2 : j < 4 + ((c_str long).length + 1) := List.mem_range.mp hj
  have hcl : (c_str long).length ≤ long.length := (List.takeWhile_sublist _).length_le
  simp only [Nat.zero_add]
  exact hx j (by rw [n2]; omega)

theorem committed_record {W : Type} (k : Env W) (s : Sys W) (dev : Option Nat)
    (short long : CStr) (existing : Int) (ops : List StreamOp)
    (f : VMUSaveFileWriteStream)
    (hf : f = (VMUSaveFileWriteStream.new k s dev short long existing).1.run k ops)
    (hmax : long.length + 5 + f.pos ≤ k.max_record_size)
    (h32 : long.length + 5 + f.pos < 2 ^ 32) :
    (f.build k).2.1 = 0 ∧ (f.build k).1.data_len = ((long.length + 5 + f.pos : Nat) : Int)
      ∧ (f.build k).2.2.length = 640 + (long.length + 5 + f.pos)
      ∧ (VMUSaveFile.ofBuffer k (f.build k).2.2 (f.build k).2.2.length
          f._shortFilename).getLongFilename = c_str long
      ∧ (VMUSaveFile.ofBuffer k (f.build k).2.2 (f.build k).2.2.length
          f._shortFilename).createReadStream = readMem f._data (long.length + 5) f.pos
      ∧ (VMUSaveFile.ofBuffer k (f.build k).2.2 (f.build k).2.2.length
          f._shortFilename)._shortFilename = short
      ∧ (VMUSaveFile.ofBuffer k (f.build k).2.2 (f.build k).2.2.length f._shortFilename)._size
          = ((640 + (long.length + 5 + f.pos) : Nat) : Int) := by
  have hL : long.length + 5 < 2 ^ 32 := by omega
  obtain ⟨n1, n2, n3, n4, n5, n6, n7, -, -, -, -, -, -, -, -⟩ :=
    new_fields k s dev short long existing hL
  obtain ⟨⟨x1, -, -, x4, -, -, -, -, -, -⟩, -⟩ :=
    run_extends k ops (VMUSaveFileWriteStream.new k s dev short long existing).1 n1
  have hh := run_head k s dev short long existing ops hL
  rw [← hf] at x1 x4 hh
  exact committed_record_aux k f short long (by rw [x4]; exact n3) (by rw [x4]; exact n4)
    (by rw [x4]; exact n5) (by rw [x4]; exact n6) (by rw [x1]; exact n7) hh hmax h32

/-! ## Lemmas on the cache and the manager -/

theorem equalsIgnoreCase_iff (a b : CStr) : equalsIgnoreCase a b = true ↔ foldCase a = foldCase b := by
  simp [equalsIgnoreCase, foldCase]

theorem find_set (c : SaveFileCache) (key key2 : CStr) (v : VMUSaveFile)
    (h : foldCase key = foldCase key2) :
    (c.set key v).find key2
      = some ((match c.find key with | some e => e.1 | none => key), v) := by
  induction c with
  | nil =>
    have h1 := (equalsIgnoreCase_iff key key2).mpr h
    simp [SaveFileCache.set, SaveFileCache.find, List.find?, h1]
  | cons e c ih =>
    by_cases he : equalsIgnoreCase e.1 key = true
    · have he2 : equalsIgnoreCase e.1 key2 = true := by
        rw [equalsIgnoreCase_iff] at he ⊢; rw [he, h]
      simp [SaveFileCache.set, SaveFileCache.find, List.find?, he, he2]
    · have he2 : ¬ equalsIgnoreCase e.1 key2 = true := by
        rw [equalsIgnoreCase_iff] at he ⊢; rw [← h]; exact he
      simp only [SaveFileCache.find] at ih
      simp [SaveFileCache.set, SaveFileCache.find, List.find?, he, he2, ih]

theorem set_named (c : SaveFileCache) (key : CStr) (v : VMUSaveFile) (hc : CacheNamed c)
    (h : foldCase key = foldCase v.getLongFilename) : CacheNamed (c.set key v) := by
  induction c with
  | nil =>
    intro e he
    simp only [SaveFileCache.set, List.mem_singleton] at he
    subst he
    exact (equalsIgnoreCase_iff _ _).mpr h
  | cons e c ih =>
    have hc1 : CacheNamed c := fun x hx => hc x (List.mem_cons_of_mem _ hx)
    by_cases he : equalsIgnoreCase e.1 key = true
    · simp only [SaveFileCache.set, he, if_true]
      intro x hx
      rcases List.mem_cons.mp hx with hx | hx
      · subst hx
        rw [equalsIgnoreCase_iff] at he ⊢
        simp only
        rw [he, h]
      · exact hc1 x hx
    · simp only [SaveFileCache.set, he]
      intro x hx
      rcases List.mem_cons.mp hx with hx | hx
      · subst hx; exact hc x (List.mem_cons_self _ _)
      · exact ih hc1 x hx

theorem vmu_path_to_addr_fst {W : Type} (k : Env W) (s : Sys W) (p : CStr) :
    (vmu_path_to_addr k s p).1 = addrOf k s.world p := by
  unfold addrOf vmu_path_to_addr
  dsimp only
  split_ifs <;> rfl

theorem vmu_path_to_addr_world {W : Type} (k : Env W) (s : Sys W) (p : CStr) :
    (vmu_path_to_addr k s p).2.world = s.world := by
  unfold vmu_path_to_addr
  dsimp only
  split_ifs <;> rfl

theorem fingerprint_world {W : Type} (k : Env W) (m : DCAltSaveFileManager) (s : Sys W)
    (p : CStr) : (m.fingerprint k s p).2.2.world = s.world := by
  unfold DCAltSaveFileManager.fingerprint
  simp only [Sys.log]
  split_ifs <;> simp [vmu_path_to_addr_world]

theorem fingerprint_fst {W : Type} (k : Env W) (m : DCAltSaveFileManager) (s : Sys W)
    (p : CStr) : (m.fingerprint k s p).1 = (fingerprintOf k s.world p).getD [] := by
  unfold DCAltSaveFileManager.fingerprint fingerprintOf
  simp only [Sys.log, vmu_path_to_addr_fst, vmu_path_to_addr_world]
  split_ifs <;> rfl

theorem fingerprint_ok {W : Type} (k : Env W) (m : DCAltSaveFileManager) (s : Sys W)
    (p : CStr) (h : (fingerprintOf k s.world p).isSome = true) : (m.fingerprint k s p).2.1 = m := by
  unfold fingerprintOf at h
  unfold DCAltSaveFileManager.fingerprint
  simp only [Sys.log, vmu_path_to_addr_fst, vmu_path_to_addr_world]
  dsimp only at h ⊢
  by_cases h1 : addrOf k s.world ((c_str p).drop 4) = none
  · simp [h1] at h
  · by_cases h2 : (k.vmufs_root_read s.world (addrOf k s.world ((c_str p).drop 4))).1 < 0
    · simp [h1, h2] at h
    · by_cases h3 : (k.vmufs_fat_read s.world (addrOf k s.world ((c_str p).drop 4))
          (k.vmufs_root_read s.world (addrOf k s.world ((c_str p).drop 4))).2).1 < 0
      · simp [h1, h2, h3] at h
      · simp only [h1, h2, h3, if_false]

theorem fingerprint_fail {W : Type} (k : Env W) (m : DCAltSaveFileManager) (s : Sys W)
    (p : CStr) (h : fingerprintOf k s.world p = none) :
    ∃ desc, (m.fingerprint k s p).2.1 = m.setError ErrorCode.kPathDoesNotExist desc := by
  unfold fingerprintOf at h
  unfold DCAltSaveFileManager.fingerprint
  simp only [Sys.log, vmu_path_to_addr_fst, vmu_path_to_addr_world]
  dsimp only at h ⊢
  by_cases h1 : addrOf k s.world ((c_str p).drop 4) = none
  · simp only [h1, if_true]; exact ⟨_, rfl⟩
  · by_cases h2 : (k.vmufs_root_read s.world (addrOf k s.world ((c_str p).drop 4))).1 < 0
    · simp only [h1, h2, if_true, if_false]; exact ⟨_, rfl⟩
    · by_cases h3 : (k.vmufs_fat_read s.world (addrOf k s.world ((c_str p).drop 4))
          (k.vmufs_root_read s.world (addrOf k s.world ((c_str p).drop 4))).2).1 < 0
      · simp only [h1, h2, h3, if_true, if_false]; exact ⟨_, rfl⟩
      · simp [h1, h2, h3] at h

/-- Calls made by `fingerprint` are reads. -/
theorem fingerprint_calls {W : Type} (k : Env W) (m : DCAltSaveFileManager) (s : Sys W)
    (p : CStr) : ∃ cs : List Call, (m.fingerprint k s p).2.2.calls = s.calls ++ cs
      ∧ ∀ c ∈ cs, c.isMutation = false := by
  have haddr : ∃ cs : List Call, (vmu_path_to_addr k s ((c_str p).drop 4)).2.calls = s.calls ++ cs
      ∧ ∀ c ∈ cs, c.isMutation = false := by
    unfold vmu_path_to_addr
    dsimp only
    split_ifs
    · exact ⟨[], by simp⟩
    · exact ⟨[], by simp⟩
    · exact ⟨[], by simp⟩
    · exact ⟨[_], rfl, by simp [Call.isMutation]⟩
  obtain ⟨cs, hcs, hm⟩ := haddr
  unfold DCAltSaveFileManager.fingerprint
  generalize vmu_path_to_addr k s ((c_str p).drop 4) = a at hcs ⊢
  simp only [Sys.log]
  split_ifs
  · exact ⟨cs, hcs, hm⟩
  · refine ⟨cs ++ [Call.vmufs_root_read a.1], by simp only [hcs, List.append_assoc], ?_⟩
    intro c hc
    rcases List.mem_append.mp hc with hc | hc
    · exact hm c hc
    · simp only [List.mem_singleton] at hc; subst hc; rfl
  · refine ⟨cs ++ [Call.vmufs_root_read a.1, Call.vmufs_fat_read a.1],
      by simp only [hcs, List.append_assoc, List.cons_append, List.nil_append], ?_⟩
    intro c hc
    rcases List.mem_append.mp hc with hc | hc
    · exact hm c hc
    · simp only [List.mem_cons, List.mem_singleton, List.not_mem_nil, or_false] at hc
      rcases hc with hc | hc <;> subst hc <;> rfl
  · refine ⟨cs ++ [Call.vmufs_root_read a.1, Call.vmufs_fat_read a.1],
      by simp only [hcs, List.append_assoc, List.cons_append, List.nil_append], ?_⟩
    intro c hc
    rcases List.mem_append.mp hc with hc | hc
    · exact hm c hc
    · simp only [List.mem_cons, List.mem_singleton, List.not_mem_nil, or_false] at hc
      rcases hc with hc | hc <;> subst hc <;> rfl

theorem fingerprint_frame {W : Type} (k : Env W) (m : DCAltSaveFileManager) (s : Sys W)
    (p : CStr) :
    (m.fingerprint k s p).2.1._saveFileCache = m._saveFileCache
      ∧ (m.fingerprint k s p).2.1._fingerprint = m._fingerprint
      ∧ (m.fingerprint k s p).2.1._rnd = m._rnd
      ∧ (m.fingerprint k s p).2.1.savePath = m.savePath
      ∧ ((m.fingerprint k s p).2.1._error.code = ErrorCode.kNoError →
          (fingerprintOf k s.world p).isSome = true) := by
  cases h : fingerprintOf k s.world p with
  | none =>
    obtain ⟨desc, hd⟩ := fingerprint_fail k m s p h
    rw [hd]
    refine ⟨rfl, rfl, rfl, rfl, ?_⟩
    intro he
    simp [DCAltSaveFileManager.setError] at he
  | some d =>
    rw [fingerprint_ok k m s p (by rw [h]; rfl)]
    exact ⟨rfl, rfl, rfl, rfl, fun _ => rfl⟩

theorem scan_world {W : Type} (k : Env W) (dev : Option Nat) (names : List CStr) :
    ∀ r : SaveFileCache × Sys W, (DCAltSaveFileManager.scan k dev names r).2.world = r.2.world := by
  induction names with
  | nil => intro r; rfl
  | cons n names ih =>
    intro r
    unfold DCAltSaveFileManager.scan
    split_ifs
    · rw [ih]; rfl
    · rw [ih]

theorem scan_named {W : Type} (k : Env W) (dev : Option Nat) (names : List CStr) :
    ∀ r : SaveFileCache × Sys W, CacheNamed r.1 →
      CacheNamed (DCAltSaveFileManager.scan k dev names r).1 := by
  induction names with
  | nil => intro r h; exact h
  | cons n names ih =>
    intro r h
    unfold DCAltSaveFileManager.scan
    split_ifs
    · exact ih _ (set_named _ _ _ h rfl)
    · exact ih _ h

theorem assureCached_frame {W : Type} (k : Env W) (m : DCAltSaveFileManager) (s : Sys W)
    (p : CStr) :
    (m.assureCached k s p).2.world = s.world ∧ (m.assureCached k s p).1.savePath = m.savePath
      ∧ (m.assureCached k s p).1._rnd = m._rnd
      ∧ (CacheNamed m._saveFileCache → CacheNamed (m.assureCached k s p).1._saveFileCache) := by
  obtain ⟨f1, f2, f3, f4, -⟩ := fingerprint_frame k m.clearError s p
  have fw := fingerprint_world k m.clearError s p
  unfold DCAltSaveFileManager.assureCached
  dsimp only
  generalize m.clearError.fingerprint k s p = r at f1 f2 f3 f4 fw
  by_cases h1 : r.2.1._fingerprint = r.1
  · simp only [h1, if_true]
    exact ⟨fw, f4, f3, fun h => by rw [f1]; exact h⟩
  · simp only [h1, if_false]
    by_cases h2 : (vmu_path_to_addr k r.2.2 ((c_str p).drop 4)).1 = none
    · simp only [h2, if_true]
      refine ⟨by rw [vmu_path_to_addr_world, fw], f4, f3, ?_⟩
      intro _ e he
      simp [DCAltSaveFileManager.setError] at he
    · simp only [h2, if_false]
      cases hd : k.opendir (vmu_path_to_addr k r.2.2 ((c_str p).drop 4)).2.world (c_str p) with
      | none =>
        refine ⟨by simp only [Sys.log]; rw [vmu_path_to_addr_world, fw], f4, f3, ?_⟩
        intro _ e he
        simp [DCAltSaveFileManager.setError] at he
      | some names =>
        refine ⟨?_, f4, f3, ?_⟩
        · simp only [scan_world, Sys.log]
          rw [vmu_path_to_addr_world, fw]
        · intro _
          apply scan_named
          intro e he
          simp at he

theorem assureCached_hit {W : Type} (k : Env W) (m : DCAltSaveFileManager) (s : Sys W)
    (p : CStr) (h : fingerprintOf k s.world p = some m._fingerprint) :
    (m.assureCached k s p).1 = m.clearError := by
  have h1 := fingerprint_ok k m.clearError s p (by rw [h]; rfl)
  have h2 := fingerprint_fst k m.clearError s p
  rw [h] at h2
  unfold DCAltSaveFileManager.assureCached
  dsimp only
  rw [h1, h2]
  simp [DCAltSaveFileManager.clearError]

theorem makeSavefileName_frame {W : Type} (k : Env W) (fuel : Nat) :
    ∀ (m : DCAltSaveFileManager) (n : CStr) (m1 : DCAltSaveFileManager),
      m.makeSavefileName k fuel = some (n, m1) →
      m1._saveFileCache = m._saveFileCache ∧ m1._fingerprint = m._fingerprint
        ∧ m1._error = m._error ∧ m1.savePath = m.savePath
        ∧ m1._saveFileCache.find n = none := by
  induction fuel with
  | zero => intro m n m1 h; simp [DCAltSaveFileManager.makeSavefileName] at h
  | succ fuel ih =>
    intro m n m1 h
    unfold DCAltSaveFileManager.makeSavefileName at h
    dsimp only at h
    split_ifs at h with hc
    · obtain ⟨a, b, c, d, e⟩ := ih _ n m1 h
      exact ⟨a, b, c, d, e⟩
    · simp only [Option.some.injEq, Prod.mk.injEq] at h
      obtain ⟨rfl, rfl⟩ := h
      refine ⟨rfl, rfl, rfl, rfl, ?_⟩
      simpa using hc

theorem new_world {W : Type} (k : Env W) (s : Sys W) (dev : Option Nat)
    (short long : CStr) (existing : Int) :
    (VMUSaveFileWriteStream.new k s dev short long existing).2.world = s.world := rfl

theorem openForSaving_handled {W : Type} (k : Env W) (fuel : Nat) (m : DCAltSaveFileManager)
    (s : Sys W) (X : CStr) (compress : Bool) (sf : VMUSaveFileWriteStream)
    (m1 : DCAltSaveFileManager) (s1 : Sys W)
    (hopen : m.openForSaving k fuel s X compress = some (Routed.handled (some sf), m1, s1)) :
    m.onVmu = true ∧ m1._error.code = ErrorCode.kNoError ∧ m1.savePath = m.savePath
      ∧ s1.world = s.world
      ∧ (CacheNamed m._saveFileCache → CacheNamed m1._saveFileCache)
      ∧ m1._saveFileCache = (m.assureCached k s m.savePath).1._saveFileCache
      ∧ ∃ (s2 : Sys W) (dev : Option Nat) (short long : CStr) (existing : Int),
          sf = (VMUSaveFileWriteStream.new k s2 dev short long existing).1
          ∧ s2.world = s.world
          ∧ dev = addrOf k s.world ((c_str m.savePath).drop 4)
          ∧ ((m1._saveFileCache.find X = none ∧ long = X ∧ existing = 0)
              ∨ ∃ e, m1._saveFileCache.find X = some e ∧ long = e.2.getLongFilename
                  ∧ short = e.2._shortFilename ∧ existing = e.2._size) := by
  unfold DCAltSaveFileManager.openForSaving at hopen
  by_cases hv : m.onVmu = true
  · simp only [hv, Bool.not_true, Bool.false_eq_true, if_false] at hopen
    obtain ⟨a1, a2, a3, a4⟩ := assureCached_frame k m s m.savePath
    generalize m.assureCached k s m.savePath = r at hopen a1 a2 a3 a4
    by_cases he : r.1._error.code = ErrorCode.kNoError
    · simp only [he, ne_eq, not_true_eq_false, if_false] at hopen
      have hw := vmu_path_to_addr_world k r.2 ((c_str m.savePath).drop 4)
      have hd := vmu_path_to_addr_fst k r.2 ((c_str m.savePath).drop 4)
      generalize vmu_path_to_addr k r.2 ((c_str m.savePath).drop 4) = a at hopen hw hd
      cases hf : r.1._saveFileCache.find X with
      | none =>
        simp only [hf] at hopen
        cases hn : r.1.makeSavefileName k fuel with
        | none => simp [hn] at hopen
        | some n =>
          simp only [hn, Option.some.injEq, Prod.mk.injEq, Routed.handled.injEq] at hopen
          obtain ⟨h1, h2, h3⟩ := hopen
          obtain ⟨c1, c2, c3, c4, c5⟩ := makeSavefileName_frame k fuel r.1 n.1 n.2 hn
          subst h2
          refine ⟨hv, by rw [c3]; exact he, by rw [c4, a2], ?_, ?_, c1, ?_⟩
          · rw [← h3, new_world, hw, a1]
          · intro h; rw [c1]; exact a4 h
          · refine ⟨a.2, a.1, n.1, X, 0, h1.symm, by rw [hw, a1], by rw [hd, a1], Or.inl ?_⟩
            exact ⟨by rw [c1]; exact hf, rfl, rfl⟩
      | some e =>
        simp only [hf, Option.some.injEq, Prod.mk.injEq, Routed.handled.injEq] at hopen
        obtain ⟨h1, h2, h3⟩ := hopen
        subst h2
        refine ⟨hv, he, a2, ?_, a4, rfl, ?_⟩
        · rw [← h3]
          simp only [VMUSaveFile.createWriteStream, new_world, hw, a1]
        · exact ⟨a.2, a.1, e.2.getShortFilename, e.2.getLongFilename, e.2._size, h1.symm,
            by rw [hw, a1], by rw [hd, a1], Or.inr ⟨e, hf, rfl, rfl, rfl⟩⟩
    · simp [he] at hopen
  · simp [hv] at hopen

/-! ## Lemmas on committing and reading back -/

theorem c_str_idem (a : CStr) : c_str (c_str a) = c_str a := by
  unfold c_str
  rw [List.takeWhile_eq_self_iff]
  intro x hx
  have := List.mem_takeWhile_imp hx
  simpa using this

theorem foldCase_length (a b : CStr) (h : foldCase a = foldCase b) :
    (c_str a).length = (c_str b).length := by
  have := congrArg List.length h
  simpa [foldCase] using this

/-- What closing a stream without error flag does, given that the package is built. -/
theorem close_commit {W : Type} (k : Env W) (f : VMUSaveFileWriteStream)
    (m : DCAltSaveFileManager) (s : Sys W) (herr : f.err = false) (hb : (f.build k).2.1 = 0) :
    f.close k m s = m.cacheNewSave k
      { world := (k.vmufs_write s.world f._dev (c_str f._shortFilename) (f.build k).2.2).2,
        calls := s.calls ++ [Call.vmufs_write f._dev (c_str f._shortFilename) (f.build k).2.2] }
      f._longFilename
      (VMUSaveFile.ofBuffer k (f.build k).2.2 (f.build k).2.2.length f._shortFilename) := by
  unfold VMUSaveFileWriteStream.close
  unfold VMUSaveFileWriteStream.err at herr
  simp only [herr, Bool.false_eq_true, if_false, hb, lt_self_iff_false]

theorem cacheNewSave_spec {W : Type} (k : Env W) (m : DCAltSaveFileManager) (s : Sys W)
    (long : CStr) (v : VMUSaveFile) :
    (m.cacheNewSave k s long v).1._saveFileCache = m._saveFileCache.set long v
      ∧ (m.cacheNewSave k s long v).1.savePath = m.savePath
      ∧ (m.cacheNewSave k s long v).2.world = s.world
      ∧ (m.cacheNewSave k s long v).1._fingerprint = (fingerprintOf k s.world m.savePath).getD []
      ∧ ((m.cacheNewSave k s long v).1._error.code = ErrorCode.kNoError →
          (fingerprintOf k s.world m.savePath).isSome = true) := by
  unfold DCAltSaveFileManager.cacheNewSave
  dsimp only
  obtain ⟨f1, f2, f3, f4, f5⟩ := fingerprint_frame k
    { m with _saveFileCache := m._saveFileCache.set long v } s m.savePath
  exact ⟨f1, f4, fingerprint_world _ _ _ _, fingerprint_fst _ _ _ _, f5⟩

/-- The state a commit leaves: the record is in the cache under the stream's
long name and the stored fingerprint is the device's. -/
theorem commit_state {W : Type} (k : Env W) (s2 : Sys W) (dev : Option Nat)
    (short long : CStr) (existing : Int) (ops : List StreamOp) (f : VMUSaveFileWriteStream)
    (hf : f = (VMUSaveFileWriteStream.new k s2 dev short long existing).1.run k ops)
    (m1 : DCAltSaveFileManager) (s1 : Sys W)
    (herr : f.err = false)
    (hmax : long.length + 5 + f.pos ≤ k.max_record_size)
    (h32 : long.length + 5 + f.pos < 2 ^ 32)
    (hfp : (f.close k m1 s1).1._error.code = ErrorCode.kNoError) :
    ∃ save : VMUSaveFile,
      (f.close k m1 s1).1._saveFileCache = m1._saveFileCache.set long save
        ∧ save.getLongFilename = c_str long
        ∧ save.createReadStream = readMem f._data (long.length + 5) f.pos
        ∧ save._shortFilename = short
        ∧ (f.close k m1 s1).1.savePath = m1.savePath
        ∧ fingerprintOf k (f.close k m1 s1).2.world (f.close k m1 s1).1.savePath
            = some (f.close k m1 s1).1._fingerprint := by
  obtain ⟨b1, b2, b3, b4, b5, b6, b7⟩ :=
    committed_record k s2 dev short long existing ops f hf hmax h32
  have hL : long.length + 5 < 2 ^ 32 := by omega
  have hlong : f._longFilename = long := by
    obtain ⟨n1, -, -, -, -, -, -, n8, -⟩ := new_fields k s2 dev short long existing hL
    have := (run_extends k ops _ n1).1.2.1
    rw [hf, this, n8]
  have hc := close_commit k f m1 s1 herr b1
  rw [hc] at hfp ⊢
  rw [hlong] at hfp ⊢
  obtain ⟨c1, c2, c3, c4, c5⟩ := cacheNewSave_spec k m1
    { world := (k.vmufs_write s1.world f._dev (c_str f._shortFilename) (f.build k).2.2).2,
      calls := s1.calls ++ [Call.vmufs_write f._dev (c_str f._shortFilename) (f.build k).2.2] }
    long (VMUSaveFile.ofBuffer k (f.build k).2.2 (f.build k).2.2.length f._shortFilename)
  refine ⟨_, c1, b4, b5, b6, c2, ?_⟩
  rw [c2, c3, c4]
  have := c5 hfp
  dsimp only at this ⊢
  cases hq : fingerprintOf k (k.vmufs_write s1.world f._dev (c_str f._shortFilename)
      (f.build k).2.2).2 m1.savePath with
  | none => rw [hq] at this; simp at this
  | some d => rfl

theorem onVmu_congr (m m1 : DCAltSaveFileManager) (h : m1.savePath = m.savePath) :
    m1.onVmu = m.onVmu := by
  unfold DCAltSaveFileManager.onVmu
  rw [h]

theorem build_size {W : Type} (k : Env W) (s : Sys W) (dev : Option Nat)
    (short long : CStr) (existing : Int) (ops : List StreamOp) (f : VMUSaveFileWriteStream)
    (hf : f = (VMUSaveFileWriteStream.new k s dev short long existing).1.run k ops)
    (hL : long.length + 5 < 2 ^ 32)
    (hmax : long.length + 5 + f.pos ≤ k.max_record_size) :
    (f.build k).2.1 = 0 ∧ (f.build k).1.data_len = ((long.length + 5 + f.pos : Nat) : Int)
      ∧ (f.build k).2.2.length = 640 + (long.length + 5 + f.pos)
      ∧ f._hdr_size = 640 ∧ f._shortFilename = short ∧ f._longFilename = long ∧ f._dev = dev := by
  obtain ⟨n1, n2, n3, n4, n5, n6, n7, n8, n9, n10, -⟩ :=
    new_fields k s dev short long existing hL
  obtain ⟨⟨x1, x2, x3, x4, x5, x6, -⟩, -⟩ :=
    run_extends k ops (VMUSaveFileWriteStream.new k s dev short long existing).1 n1
  rw [← hf] at x1 x2 x3 x4 x6
  have hlenI : f._pkg.data_len + f._stream._pos = ((long.length + 5 + f.pos : Nat) : Int) := by
    rw [x4, n3]
    simp only [VMUSaveFileWriteStream.pos]
    push_cast; ring
  generalize hb : f.build k = b
  have hb1 : b.1 = { f._pkg with data_len := ((long.length + 5 + f.pos : Nat) : Int),
                                 data := readMem f._data 0 (long.length + 5 + f.pos) } := by
    rw [← hb]
    simp only [VMUSaveFileWriteStream.build, hlenI, Int.toNat_ofNat]
  have hb2 : b.2 = vmu_pkg_build k.max_record_size b.1 := by rw [← hb]; rfl
  have hic : b.1.icon_cnt = 1 := by rw [hb1]; simp only; rw [x4, n4]
  have hec : b.1.eyecatch_type = 0 := by rw [hb1]; simp only; rw [x4, n6]
  have hdl : b.1.data_len = ((long.length + 5 + f.pos : Nat) : Int) := by rw [hb1]
  have hbuild := vmu_pkg_build_ok k.max_record_size b.1 (by omega) (by omega) (by omega)
    (by rw [hdl]; exact_mod_cast hmax)
  rw [← hb2] at hbuild
  refine ⟨by rw [hbuild], hdl, ?_, by rw [x6, n10], by rw [x1, n7], by rw [x2, n8],
    by rw [x3, n9]⟩
  rw [hbuild]
  simp only [List.length_append, fixLen_length, le16_length, le32_length, List.length_replicate,
    hic, hec, hdl, Int.toNat_ofNat]
  have : (vmu_eyecatch_size 0).toNat = 0 := rfl
  rw [this]
  have : (1 : Int).toNat = 1 := rfl
  rw [this]
  omega

theorem cacheNewSave_calls {W : Type} (k : Env W) (m : DCAltSaveFileManager) (s : Sys W)
    (long : CStr) (v : VMUSaveFile) :
    ∃ cs : List Call, (m.cacheNewSave k s long v).2.calls = s.calls ++ cs
      ∧ ∀ c ∈ cs, c.isMutation = false := by
  unfold DCAltSaveFileManager.cacheNewSave
  exact fingerprint_calls k _ s _

theorem write_over (f : VMUSaveFileWriteStream) (data : List Nat)
    (h : data.length > f._stream._bufSize - f.pos) :
    (f.write data).1.err = true ∧ (f.write data).2 = f._stream._bufSize - f.pos := by
  unfold VMUSaveFileWriteStream.pos at h
  unfold VMUSaveFileWriteStream.write MemoryWriteStream.write VMUSaveFileWriteStream.err
    VMUSaveFileWriteStream.pos
  simp only [h, if_true, and_self]

/-- Opening a new name on a full card: no capacity check. -/
theorem open_on_full_card (m : DCAltSaveFileManager) (s : Sys Card) (save : VMUSaveFile)
    (hp : m.savePath = str "/vmu/a1") (hc : m._saveFileCache = [(str "SAVE1", save)])
    (hr : m._rnd = 4)
    (hfp : fingerprintOf cardEnv s.world (str "/vmu/a1") = some m._fingerprint)
    (hfree : s.world.free = 0) (hpres : s.world.present = true) :
    ∃ sf m1 s1, m.openForSaving cardEnv 5 s (str "SAVE2") true
        = some (Routed.handled (some sf), m1, s1)
      ∧ sf._shortFilename = str "SCUMMVM_4567" ∧ sf._dataSize = -640
      ∧ sf._stream._bufSize = 4294966646 ∧ sf.pos = 0 ∧ sf.err = false
      ∧ s1.world = s.world := by
  have hv : m.onVmu = true := by
    unfold DCAltSaveFileManager.onVmu; rw [hp]; decide
  have h1 := assureCached_hit cardEnv m s m.savePath (by rw [hp]; exact hfp)
  obtain ⟨a1, -⟩ := assureCached_frame cardEnv m s m.savePath
  unfold DCAltSaveFileManager.openForSaving
  simp only [hv, Bool.not_true, Bool.false_eq_true, if_false]
  generalize m.assureCached cardEnv s m.savePath = r at h1 a1
  have he : r.1._error.code = ErrorCode.kNoError := by rw [h1]; rfl
  simp only [he, ne_eq, not_true_eq_false, if_false]
  have hw := vmu_path_to_addr_world cardEnv r.2 ((c_str m.savePath).drop 4)
  have hd := vmu_path_to_addr_fst cardEnv r.2 ((c_str m.savePath).drop 4)
  generalize vmu_path_to_addr cardEnv r.2 ((c_str m.savePath).drop 4) = a at hw hd
  have hcache : r.1._saveFileCache = [(str "SAVE1", save)] := by rw [h1]; exact hc
  have hfind : r.1._saveFileCache.find (str "SAVE2") = none := by
    rw [hcache]
    have : equalsIgnoreCase (str "SAVE1") (str "SAVE2") = false := by decide
    simp [SaveFileCache.find, List.find?, this]
  have hrnd : r.1._rnd = 4 := by rw [h1]; exact hr
  have hcand : r.1.candidate cardEnv = str "SCUMMVM_4567" := by
    unfold DCAltSaveFileManager.candidate
    rw [hrnd]
    decide
  have hname : r.1.makeSavefileName cardEnv 5
      = some (str "SCUMMVM_4567", { r.1 with _rnd := r.1._rnd + 4 }) := by
    unfold DCAltSaveFileManager.makeSavefileName
    simp only [hcand, hcache]
    have : equalsIgnoreCase (str "SAVE1") (str "SCUMMVM_4567") = false := by decide
    simp [SaveFileCache.find, List.find?, this]
  simp only [hfind, hname]
  refine ⟨_, _, _, rfl, rfl, ?_, ?_, rfl, rfl, ?_⟩
  · obtain ⟨-, -, -, -, -, -, -, -, -, -, -, -, n13, -⟩ :=
      new_fields cardEnv a.2 a.1 (str "SCUMMVM_4567") (str "SAVE2") 0 (by decide)
    rw [n13]
    have : cardEnv.vmufs_free_blocks a.2.world a.1 = (a.2.world.free : Int) := rfl
    rw [this, hw, a1, hfree]
    rfl
  · obtain ⟨-, -, -, -, -, -, -, -, -, -, -, -, -, n14, -⟩ :=
      new_fields cardEnv a.2 a.1 (str "SCUMMVM_4567") (str "SAVE2") 0 (by decide)
    show (VMUSaveFileWriteStream.new cardEnv a.2 a.1 (str "SCUMMVM_4567") (str "SAVE2")
      0).1._stream._bufSize = _
    rw [n14]
    have : cardEnv.vmufs_free_blocks a.2.world a.1 = (a.2.world.free : Int) := rfl
    rw [this, hw, a1, hfree]
    rfl
  · rw [new_world, hw, a1]

theorem cardEnv_fingerprintOf (w : Card) (hp : w.present = true) (hr : w.readable = true) :
    fingerprintOf cardEnv w (str "/vmu/a1")
      = some ([w.free] ++ (w.files.map (fun e => e.1 ++ [0, blocks e.2.length])).flatten) := by
  have haddr : addrOf cardEnv w ((c_str (str "/vmu/a1")).drop 4) = some 0 := by
    have h1 : (c_str (str "/vmu/a1")).drop 4 = str "/a1" := by decide
    rw [h1]
    unfold addrOf vmu_path_to_addr
    have c0 : charAt (str "/a1") 0 = 47 := by decide
    have c1 : charAt (str "/a1") 1 = 97 := by decide
    have c2 : charAt (str "/a1") 2 = 49 := by decide
    simp only [c0, c1, c2]
    simp [cardEnv, hp]
  unfold fingerprintOf
  simp only [haddr]
  simp [cardEnv, hp, hr]

theorem cacheNewSave_rnd {W : Type} (k : Env W) (m : DCAltSaveFileManager) (s : Sys W)
    (long : CStr) (v : VMUSaveFile) : (m.cacheNewSave k s long v).1._rnd = m._rnd := by
  unfold DCAltSaveFileManager.cacheNewSave
  dsimp only
  exact (fingerprint_frame k _ s m.savePath).2.2.1

/-- The state after 4000 bytes have been saved as `SAVE1` on `card10`. -/
theorem save1_state (data : List Nat) (hlen : data.length = 4000) :
    ∃ m2 s2 save, saveBytes cardEnv 5 freshManager card10 (str "SAVE1") data = some (m2, s2)
      ∧ m2.savePath = str "/vmu/a1" ∧ m2._saveFileCache = [(str "SAVE1", save)] ∧ m2._rnd = 4
      ∧ fingerprintOf cardEnv s2.world (str "/vmu/a1") = some m2._fingerprint
      ∧ s2.world.free = 0 ∧ s2.world.present = true
      ∧ s2.world.files.map (fun e => (e.1, e.2.length)) = [(str "SCUMMVM_0123", 4650)] := by
  have hopen : freshManager.openForSaving cardEnv 5 card10 (str "SAVE1") true
      = some (Routed.handled (some demoStream), demoManager,
          { world := emptyCard 10, calls := demoLog }) := rfl
  have hrun : (demoStream.write data).1 = demoStream.run cardEnv [StreamOp.write data] := rfl
  have hfit : data.length ≤ demoStream._stream._bufSize - demoStream.pos := by
    rw [hlen]; decide
  have hpos : (demoStream.run cardEnv [StreamOp.write data]).pos = 4000 := by
    rw [← hrun, write_fits demoStream data hfit]
    show demoStream._stream._pos + data.length = 4000
    rw [hlen]; rfl
  have herr : (demoStream.run cardEnv [StreamOp.write data]).err = false := by
    rw [← hrun, write_fits demoStream data hfit]; rfl
  obtain ⟨b1, b2, b3, b4, b5, b6, b7⟩ := build_size cardEnv card10 (some 0) (str "SCUMMVM_0123")
    (str "SAVE1") 0 [StreamOp.write data] (demoStream.run cardEnv [StreamOp.write data]) rfl
    (by decide) (by rw [hpos]; decide)
  rw [hpos] at b3
  have hblen : ((demoStream.run cardEnv [StreamOp.write data]).build cardEnv).2.2.length = 4650 := by
    rw [b3]; rfl
  unfold saveBytes
  rw [hopen]
  simp only
  rw [hrun, close_commit cardEnv _ demoManager _ herr b1, b5, b6, b7]
  dsimp only
  generalize ((demoStream.run cardEnv [StreamOp.write data]).build cardEnv).2.2 = buf at hblen
  have hcs : c_str (str "SCUMMVM_0123") = str "SCUMMVM_0123" := by decide
  have hw : (cardEnv.vmufs_write (emptyCard 10) (some 0) (c_str (str "SCUMMVM_0123")) buf).2
      = { present := true, files := [(str "SCUMMVM_0123", buf)], free := 0, readable := true,
          writable := true, deletable := true } := by
    rw [hcs]
    show ((emptyCard 10).write (str "SCUMMVM_0123") buf).2 = _
    unfold Card.write
    simp only [emptyCard, hblen, List.filter_nil, List.map_nil, List.sum_nil, List.nil_append]
    have : blocks 4650 = 10 := by decide
    simp [this]
  obtain ⟨c1, c2, c3, c4, c5⟩ := cacheNewSave_spec cardEnv demoManager
    { world := (cardEnv.vmufs_write (emptyCard 10) (some 0) (c_str (str "SCUMMVM_0123")) buf).2,
      calls := demoLog ++ [Call.vmufs_write (some 0) (c_str (str "SCUMMVM_0123")) buf] }
    (str "SAVE1") (VMUSaveFile.ofBuffer cardEnv buf buf.length (str "SCUMMVM_0123"))
  have hrnd := cacheNewSave_rnd cardEnv demoManager
    { world := (cardEnv.vmufs_write (emptyCard 10) (some 0) (c_str (str "SCUMMVM_0123")) buf).2,
      calls := demoLog ++ [Call.vmufs_write (some 0) (c_str (str "SCUMMVM_0123")) buf] }
    (str "SAVE1") (VMUSaveFile.ofBuffer cardEnv buf buf.length (str "SCUMMVM_0123"))
  generalize demoManager.cacheNewSave cardEnv
    { world := (cardEnv.vmufs_write (emptyCard 10) (some 0) (c_str (str "SCUMMVM_0123")) buf).2,
      calls := demoLog ++ [Call.vmufs_write (some 0) (c_str (str "SCUMMVM_0123")) buf] }
    (str "SAVE1") (VMUSaveFile.ofBuffer cardEnv buf buf.length (str "SCUMMVM_0123")) = q
    at c1 c2 c3 c4 c5 hrnd ⊢
  dsimp only at c3 c4
  rw [hw] at c3 c4
  refine ⟨q.1, q.2, VMUSaveFile.ofBuffer cardEnv buf buf.length (str "SCUMMVM_0123"), rfl, c2, c1,
    hrnd, ?_, ?_, ?_, ?_⟩
  · rw [c3, c4]
    have : demoManager.savePath = str "/vmu/a1" := rfl
    rw [this, cardEnv_fingerprintOf _ rfl rfl]
    rfl
  · rw [c3]
  · rw [c3]
  · rw [c3]; simp [hblen]

theorem cardEnv_addrOf (w : Card) (hp : w.present = true) :
    addrOf cardEnv w ((c_str (str "/vmu/a1")).drop 4) = some 0 := by
  have h1 : (c_str (str "/vmu/a1")).drop 4 = str "/a1" := by decide
  rw [h1]
  unfold addrOf vmu_path_to_addr
  have c0 : charAt (str "/a1") 0 = 47 := by decide
  have c1 : charAt (str "/a1") 1 = 97 := by decide
  have c2 : charAt (str "/a1") 2 = 49 := by decide
  simp only [c0, c1, c2]
  simp [cardEnv, hp]

theorem run_single_write {W : Type} (k : Env W) (f : VMUSaveFileWriteStream) (data : List Nat)
    (h : data.length ≤ f._stream._bufSize - f.pos) :
    (f.write data).1 = f.run k [StreamOp.write data]
      ∧ (f.run k [StreamOp.write data]).pos = f.pos + data.length
      ∧ (f.run k [StreamOp.write data]).err = f.err ∧ (f.write data).2 = data.length := by
  have hrun : (f.write data).1 = f.run k [StreamOp.write data] := rfl
  rw [← hrun, write_fits f data h]
  exact ⟨rfl, rfl, rfl, rfl⟩

/-! ## The claims -/

/-- Claim C2. Frame round trip: for every long name without a NUL byte and
every sequence of writes that the stream accepts without error, the package
that `VMUSaveFileWriteStream` lays out and builds (4-byte offset, long name,
NUL, save bytes), read back by `VMUSaveFile::init`, gives the same long name
through `getLongFilename` and the same save bytes through `createReadStream`.
`hsub` and `hint` say that the buffer the constructor allocates holds the
sub-header and that the free bytes fit an `int`, so that what the
constructor and the writes store lies inside the buffer; `hmax` and `h32`
say that the payload fits the device's record size and the 32-bit length
field. -/
theorem frame_round_trip {W : Type} (k : Env W) (s : Sys W) (dev : Option Nat)
    (short long : CStr) (existing : Int) (ops : List StreamOp)
    (hnul : 0 ∉ long)
    (hsub : (4 + long.length + 1 : Int) ≤ k.vmufs_free_blocks s.world dev * 512 + existing - 640)
    (hint : k.vmufs_free_blocks s.world dev * 512 + existing < 2 ^ 31)
    (hw : ∀ o ∈ ops, o.isWrite = true)
    (herr : ((VMUSaveFileWriteStream.new k s dev short long existing).1.run k ops).err = false)
    (hmax : long.length + 5 + (written ops).length ≤ k.max_record_size)
    (h32 : long.length + 5 + (written ops).length < 2 ^ 32) :
    let f := (VMUSaveFileWriteStream.new k s dev short long existing).1.run k ops
    let r := VMUSaveFile.init k (f.build k).2.2 (f.build k).2.2.length f._shortFilename
    r.getLongFilename = long ∧ r.createReadStream = written ops := by
  intro f r
  have hL : long.length + 5 < 2 ^ 32 := by omega
  obtain ⟨n1, n2, -⟩ := new_fields k s dev short long existing hL
  have hrw := run_written k ops _ n1 hw herr
  have hp0 : (VMUSaveFileWriteStream.new k s dev short long existing).1.pos = 0 := rfl
  rw [hp0, Nat.zero_add, n2] at hrw
  have hpos : f.pos = (written ops).length := hrw.1
  obtain ⟨-, -, -, c4, c5, -⟩ := committed_record k s dev short long existing ops f rfl
    (by rw [hpos]; exact hmax) (by rw [hpos]; exact h32)
  refine ⟨?_, ?_⟩
  · show (VMUSaveFile.ofBuffer k (f.build k).2.2 (f.build k).2.2.length
      f._shortFilename).getLongFilename = long
    rw [c4, c_str_eq_self long hnul]
  · show (VMUSaveFile.ofBuffer k (f.build k).2.2 (f.build k).2.2.length
      f._shortFilename).createReadStream = written ops
    rw [c5, hpos, hrw.2]
    simp [readMem]

/-- Witness of `frame_round_trip`: the name `SAVE1` and the bytes 1, 2, 3 on
the card with ten free blocks, whose buffer of 4480 bytes holds the
sub-header of 10. -/
theorem frame_round_trip_witness :
    0 ∉ str "SAVE1"
      ∧ (VMUSaveFile.init cardEnv
          ((demoStream.run cardEnv [StreamOp.write [1, 2, 3]]).build cardEnv).2.2
          ((demoStream.run cardEnv [StreamOp.write [1, 2, 3]]).build cardEnv).2.2.length
          (demoStream.run cardEnv [StreamOp.write [1, 2, 3]])._shortFilename).getLongFilename
        = str "SAVE1"
      ∧ (VMUSaveFile.init cardEnv
          ((demoStream.run cardEnv [StreamOp.write [1, 2, 3]]).build cardEnv).2.2
          ((demoStream.run cardEnv [StreamOp.write [1, 2, 3]]).build cardEnv).2.2.length
          (demoStream.run cardEnv [StreamOp.write [1, 2, 3]])._shortFilename).createReadStream
        = [1, 2, 3] :=
  ⟨by decide, frame_round_trip cardEnv card10 (some 0) (str "SCUMMVM_0123") (str "SAVE1") 0
    [StreamOp.write [1, 2, 3]] (by decide) (by decide) (by decide) (by decide) (by decide)
    (by decide) (by decide)⟩

/-- Claim C3, the code at the failing input. A card holds the save `SAVE1`
under the short name `SCUMMVM_0123`. A new session reconciles with it, so its
cache holds that record, and `makeSavefileName` returns `SCUMMVM_0123`, the
short name of the cached record: it looks the candidate up among the long
names. Saving `SAVE2` then leaves two records with one short name and one
file on the card, and a later session no longer finds `SAVE1`. -/
theorem makeSavefileName_collision :
    cardWithSave1.files.map (fun e => e.1) = [str "SCUMMVM_0123"]
      ∧ cacheNames reconciled.1 = [(str "SAVE1", str "SCUMMVM_0123")]
      ∧ (reconciled.1.makeSavefileName cardEnv 5).map (fun n => n.1) = some (str "SCUMMVM_0123")
      ∧ (saveBytes cardEnv 5 reconciled.1 reconciled.2 (str "SAVE2") [9]).map
          (fun r => cacheNames r.1)
          = some [(str "SAVE1", str "SCUMMVM_0123"), (str "SAVE2", str "SCUMMVM_0123")]
      ∧ (saveBytes cardEnv 5 reconciled.1 reconciled.2 (str "SAVE2") [9]).map
          (fun r => r.2.world.files.map (fun e => e.1)) = some [str "SCUMMVM_0123"]
      ∧ (saveBytes cardEnv 5 reconciled.1 reconciled.2 (str "SAVE2") [9]).map
          (fun r => (freshManager.openRawFile cardEnv { world := r.2.world, calls := [] }
            (str "SAVE1")).1) = some (Routed.handled none) :=
  ⟨by decide, by decide, by decide, by decide, by decide, by decide⟩

/-- Claim C4, the code at the failing input. A fresh manager saves `SAVE1`, so
its cache holds `SAVE1` and its stored fingerprint is the card's. The saves
are listed while the card is unplugged: an error is reported, the cache is
emptied and the stored fingerprint stays (the two are not changed together).
The card is plugged in again and the saves are listed: the stored
fingerprint equals the device's current one, no error is reported, and the
cache is empty, while a full rescan of the device produces the record
`SAVE1`. -/
theorem cache_stale_after_replug :
    cacheNames savedRun.1 = [(str "SAVE1", str "SCUMMVM_0123")]
      ∧ fingerprintOf cardEnv savedRun.2.world (str "/vmu/a1") = some savedRun.1._fingerprint
      ∧ replugRun.1.1 = Routed.handled []
      ∧ replugRun.1.2.1._error.code = ErrorCode.kPathDoesNotExist
      ∧ replugRun.1.2.1._fingerprint = savedRun.1._fingerprint
      ∧ cacheNames replugRun.1.2.1 = []
      ∧ replugRun.2.1 = Routed.handled []
      ∧ replugRun.2.2.1._error.code = ErrorCode.kNoError
      ∧ fingerprintOf cardEnv replugRun.2.2.2.world (str "/vmu/a1")
          = some replugRun.2.2.1._fingerprint
      ∧ cacheNames replugRun.2.2.1 = []
      ∧ cacheNames (freshManager.assureCached cardEnv
          { world := replugRun.2.2.2.world, calls := [] } (str "/vmu/a1")).1
          = [(str "SAVE1", str "SCUMMVM_0123")] :=
  ⟨by decide, by decide, by decide, by decide, by decide, by decide, by decide, by decide,
    by decide, by decide, by decide⟩

/-- Claim C5, the code at the failing input. A manager whose cache holds
`SAVE1` reconciles while the device cannot be addressed: an error is
reported and the stored fingerprint is what it was, but the cache map has
been emptied. -/
theorem unplugged_reconcile_clears_cache :
    cacheNames reconciled.1 = [(str "SAVE1", str "SCUMMVM_0123")]
      ∧ (reconciled.1.assureCached cardEnv
            { world := { cardWithSave1 with present := false }, calls := [] }
            (str "/vmu/a1")).1._error.code = ErrorCode.kPathDoesNotExist
      ∧ cacheNames (reconciled.1.assureCached cardEnv
            { world := { cardWithSave1 with present := false }, calls := [] }
            (str "/vmu/a1")).1 = []
      ∧ (reconciled.1.assureCached cardEnv
            { world := { cardWithSave1 with present := false }, calls := [] }
            (str "/vmu/a1")).1._fingerprint = reconciled.1._fingerprint
      ∧ reconciled.1._fingerprint ≠ [] :=
  ⟨by decide, by decide, by decide, by decide, by decide⟩

/-- Claim C6, the code at the failing input. On a card on which every write
fails, `SAVE1` is opened for saving, three bytes are written and the stream is
closed. Before the write the cache is empty; after the close the device is
unchanged (one device write was issued and failed), yet the cache holds a
record for `SAVE1`. -/
theorem failed_write_is_cached :
    (∀ dev name buf, (cardEnv.vmufs_write readOnlyCard.world dev name buf).1 = -1)
      ∧ (freshManager.openForSaving cardEnv 5 readOnlyCard (str "SAVE1") true).map
          (fun r => (cacheNames r.2.1, r.2.1._fingerprint)) = some ([], [10])
      ∧ (saveBytes cardEnv 5 freshManager readOnlyCard (str "SAVE1") [1, 2, 3]).map
          (fun r => (cacheNames r.1, r.1._fingerprint))
          = some ([(str "SAVE1", str "SCUMMVM_0123")], [10])
      ∧ (saveBytes cardEnv 5 freshManager readOnlyCard (str "SAVE1") [1, 2, 3]).map
          (fun r => r.2.world) = some readOnlyCard.world
      ∧ (saveBytes cardEnv 5 freshManager readOnlyCard (str "SAVE1") [1, 2, 3]).map
          (fun r => (r.2.calls.filter Call.isWrite).length) = some 1 :=
  ⟨fun _ _ _ => rfl, by decide, by decide, by decide, by decide⟩

/-- The close of a stream whose error flag is set leaves the manager and the
device log as they were: no device call is made. -/
theorem close_after_error {W : Type} (k : Env W) (g : VMUSaveFileWriteStream)
    (m : DCAltSaveFileManager) (s : Sys W) (hg : g.err = true) : g.close k m s = (m, s) := by
  unfold VMUSaveFileWriteStream.err at hg
  unfold VMUSaveFileWriteStream.close
  simp only [hg, if_true]

/-- Claim C7, the code at the failing input. On an empty card with one free
block `SAVE1` is opened for saving. The size of the buffer is computed as
512 - 640 = -128, so that no write fits it, and the size handed to the memory
stream, -128 - 10 = -138, wraps to 4294967158. A write of 600 bytes returns
600 and leaves the error flag clear; closing the stream then hands a package
of 1250 bytes to the device write and caches the record, where nothing was
cached before. -/
theorem write_past_allocation_unflagged :
    openedOn1.map (fun r => (r.1._dataSize, r.1._saveBuf, r.1._stream._bufSize, r.1.size,
        r.1.pos, r.1.err)) = some (-128, 10, 4294967158, -138, 0, false)
      ∧ openedOn1.map (fun r => ((r.1.write (List.replicate 600 7)).1.err,
          (r.1.write (List.replicate 600 7)).2)) = some (false, 600)
      ∧ openedOn1.map (fun r =>
          (((r.1.write (List.replicate 600 7)).1.close cardEnv r.2.1 r.2.2).2.calls.filter
            Call.isWrite).map (fun c =>
              match c with
              | Call.vmufs_write _ name buf => (name, buf.length)
              | _ => ([], 0))) = some [(str "SCUMMVM_0123", 1250)]
      ∧ openedOn1.map (fun r => cacheNames r.2.1) = some []
      ∧ openedOn1.map (fun r =>
          cacheNames ((r.1.write (List.replicate 600 7)).1.close cardEnv r.2.1 r.2.2).1)
          = some [(str "SAVE1", str "SCUMMVM_0123")] :=
  ⟨by decide, by decide, by decide, by decide, by decide⟩

/-- Claim C8, the code at the failing input. On an empty card with ten free
blocks 4000 bytes are saved as `SAVE1`: the package takes 4650 bytes and no
block is left free. Opening `SAVE2` then returns a stream, not an error: its
buffer size is computed as -640, the size of its write stream wraps to
4294966646 (which `size()` returns as the `int32` -650), a write of 2000
bytes is accepted without error flag, and closing the stream hands a package
of 2650 bytes to the device write. -/
theorem no_capacity_check :
    ∃ m2 s2 sf m3 s3 buf,
      saveBytes cardEnv 5 freshManager card10 (str "SAVE1") (List.replicate 4000 7) = some (m2, s2)
        ∧ s2.world.files.map (fun e => (e.1, e.2.length)) = [(str "SCUMMVM_0123", 4650)]
        ∧ s2.world.free = 0
        ∧ m2.openForSaving cardEnv 5 s2 (str "SAVE2") true = some (Routed.handled (some sf), m3, s3)
        ∧ sf._dataSize = -640 ∧ sf._stream._bufSize = 4294966646 ∧ sf.size = -650
        ∧ (sf.write (List.replicate 2000 1)).1.err = false
        ∧ (sf.write (List.replicate 2000 1)).2 = 2000
        ∧ Call.vmufs_write (some 0) (str "SCUMMVM_4567") buf
            ∈ ((sf.write (List.replicate 2000 1)).1.close cardEnv m3 s3).2.calls
        ∧ buf.length = 2650 := by
  obtain ⟨m2, s2, save, h1, h2, h3, h4, h5, h6, h7, h8⟩ :=
    save1_state (List.replicate 4000 7) (List.length_replicate _ _)
  obtain ⟨sf, m3, s3, g1, g2, g3, g4, g5, g6, g7⟩ := open_on_full_card m2 s2 save h2 h3 h4 h5 h6 h7
  obtain ⟨-, -, -, -, -, -, t, dev, short, long, existing, i1, i2, i3, i4⟩ :=
    openForSaving_handled cardEnv 5 m2 s2 (str "SAVE2") true sf m3 s3 g1
  have hdev : dev = some 0 := by rw [i3, h2]; exact cardEnv_addrOf _ h7
  have hnew : long = str "SAVE2" ∧ existing = 0 := by
    rcases i4 with ⟨-, a, b⟩ | ⟨e, he, -⟩
    · exact ⟨a, b⟩
    · exfalso
      have hm3 : m3._saveFileCache = [(str "SAVE1", save)] := by
        have := (openForSaving_handled cardEnv 5 m2 s2 (str "SAVE2") true sf m3 s3 g1).2.2.2.2.2.1
        rw [this, assureCached_hit cardEnv m2 s2 m2.savePath (by rw [h2]; exact h5)]
        exact h3
      rw [hm3] at he
      have : equalsIgnoreCase (str "SAVE1") (str "SAVE2") = false := by decide
      simp [SaveFileCache.find, List.find?, this] at he
  obtain ⟨rfl, rfl⟩ := hnew
  subst hdev
  have hshort : short = str "SCUMMVM_4567" := by
    rw [← g2, i1]; rfl
  subst hshort
  have hfit : (List.replicate 2000 1).length ≤ sf._stream._bufSize - sf.pos := by
    rw [g4, g5, List.length_replicate]; decide
  have hsize : sf.size = -650 := by
    unfold VMUSaveFileWriteStream.size
    rw [g4]; decide
  obtain ⟨hrun, hpos, herr0, hcnt⟩ := run_single_write cardEnv sf (List.replicate 2000 1) hfit
  rw [g5, List.length_replicate, Nat.zero_add] at hpos
  rw [g6] at herr0
  rw [List.length_replicate] at hcnt
  have herr : (sf.write (List.replicate 2000 1)).1.err = false := by rw [hrun]; exact herr0
  obtain ⟨b1, b2, b3, b4, b5, b6, b7⟩ := build_size cardEnv t (some 0) (str "SCUMMVM_4567")
    (str "SAVE2") 0 [StreamOp.write (List.replicate 2000 1)]
    (sf.run cardEnv [StreamOp.write (List.replicate 2000 1)]) (by rw [i1]) (by decide)
    (by rw [hpos]; decide)
  refine ⟨m2, s2, sf, m3, s3,
    ((sf.run cardEnv [StreamOp.write (List.replicate 2000 1)]).build cardEnv).2.2,
    h1, h8, h6, g1, g3, g4, hsize, herr, hcnt, ?_, by rw [b3, hpos]; rfl⟩
  rw [hrun, close_commit cardEnv _ m3 s3 herr0 b1, b5, b7]
  obtain ⟨cs, hcs, -⟩ := cacheNewSave_calls cardEnv m3
    { world := (cardEnv.vmufs_write s3.world (some 0) (c_str (str "SCUMMVM_4567"))
        ((sf.run cardEnv [StreamOp.write (List.replicate 2000 1)]).build cardEnv).2.2).2,
      calls := s3.calls ++ [Call.vmufs_write (some 0) (c_str (str "SCUMMVM_4567"))
        ((sf.run cardEnv [StreamOp.write (List.replicate 2000 1)]).build cardEnv).2.2] }
    (sf.run cardEnv [StreamOp.write (List.replicate 2000 1)])._longFilename
    (VMUSaveFile.ofBuffer cardEnv
      ((sf.run cardEnv [StreamOp.write (List.replicate 2000 1)]).build cardEnv).2.2
      ((sf.run cardEnv [StreamOp.write (List.replicate 2000 1)]).build cardEnv).2.2.length
      (str "SCUMMVM_4567"))
  rw [hcs]
  have hcs2 : c_str (str "SCUMMVM_4567") = str "SCUMMVM_4567" := by decide
  rw [hcs2]
  simp

/-- Claim C9. The buffer of a staged write stream is allocated with
`free_blocks * 512 + existingSize - (header size + 512 * icon count +
eye-catch size)` bytes, the overhead being 640; its first `4 + len + 1` bytes
hold the offset, the long name and a NUL; the stream accepts exactly the
capacity minus these bytes, a longer write raises the error flag. With ten
free blocks, nothing replaced and the name `SAVE1` the capacity is 4480, the
stream takes 4470 bytes and a write of 4000 bytes fits. The name has no NUL
byte (`hnul`), the capacity holds the sub-header (`hsub`) and the free bytes
fit an `int` (`hint`). -/
theorem buffer_capacity {W : Type} (k : Env W) (s : Sys W) (dev : Option Nat)
    (short long : CStr) (existing : Int) (data : List Nat)
    (hnul : 0 ∉ long)
    (hsub : (4 + long.length + 1 : Int) ≤ k.vmufs_free_blocks s.world dev * 512 + existing - 640)
    (hint : k.vmufs_free_blocks s.world dev * 512 + existing < 2 ^ 31) :
    let f := (VMUSaveFileWriteStream.new k s dev short long existing).1
    f._dataSize = k.vmufs_free_blocks s.world dev * 512 + existing
        - ((sizeof_vmu_hdr : Int) + 512 * f._pkg.icon_cnt + vmu_eyecatch_size f._pkg.eyecatch_type)
      ∧ (sizeof_vmu_hdr : Int) + 512 * f._pkg.icon_cnt + vmu_eyecatch_size f._pkg.eyecatch_type
          = 640
      ∧ readMem f._data 0 (4 + long.length + 1) = le32 (4 + long.length + 1) ++ long ++ [0]
      ∧ ((f._stream._bufSize : Int) = f._dataSize - (4 + long.length + 1)
          ∧ f.size = f._dataSize - (4 + long.length + 1))
      ∧ ((data.length : Int) ≤ f._dataSize - (4 + long.length + 1) →
          (f.write data).1.err = false ∧ (f.write data).2 = data.length)
      ∧ ((data.length : Int) > f._dataSize - (4 + long.length + 1) →
          (f.write data).1.err = true)
      ∧ (k.vmufs_free_blocks s.world dev = 10 → existing = 0 → long = str "SAVE1" →
          f._dataSize = 4480 ∧ f.size = 4470
            ∧ (data.length = 4000 → (f.write data).1.err = false)) := by
  intro f
  have hL : long.length + 5 < 2 ^ 32 := by omega
  obtain ⟨n1, n2, n3, n4, n5, n6, n7, n8, n9, n10, n11, n12, n13, n14, n15⟩ :=
    new_fields k s dev short long existing hL
  have hbuf : (f._stream._bufSize : Int) = f._dataSize - (4 + long.length + 1) := by
    rw [n14, n13]
    unfold toUInt32
    push_cast
    omega
  have hsize : f.size = f._dataSize - (4 + long.length + 1) := by
    rw [← hbuf]
    have hlt : f._stream._bufSize < 2 ^ 31 := by
      have h0 := hbuf
      rw [n13] at h0
      omega
    unfold VMUSaveFileWriteStream.size toInt32
    rw [Nat.mod_eq_of_lt (by omega), if_pos hlt]
  have hpos : f.pos = 0 := rfl
  have hfits : (data.length : Int) ≤ f._dataSize - (4 + long.length + 1) →
      (f.write data).1.err = false ∧ (f.write data).2 = data.length := by
    intro h
    have h2 : data.length ≤ f._stream._bufSize - f.pos := by rw [hpos]; omega
    rw [write_fits f data h2]
    exact ⟨n12, rfl⟩
  refine ⟨?_, ?_, ?_, ⟨hbuf, hsize⟩, hfits, ?_, ?_⟩
  · rw [n13, n4, n6]; rfl
  · rw [n4, n6]; rfl
  · have h := n15
    rw [c_str_eq_self long hnul] at h
    have e : 4 + long.length + 1 = 4 + (long.length + 1) := by omega
    rw [e, h]
    have e2 : 4 + (long.length + 1) = long.length + 5 := by omega
    rw [e2, List.append_assoc]
  · intro h
    exact (write_over f data (by rw [hpos]; omega)).1
  · intro h10 h0 hname
    have hlen : long.length = 5 := by rw [hname]; rfl
    have hd : f._dataSize = 4480 := by rw [n13, h10, h0]; rfl
    refine ⟨hd, by omega, ?_⟩
    intro h4000
    exact (hfits (by omega)).1

/-- Witness of `buffer_capacity`: the card with ten free blocks and the name
`SAVE1`. -/
theorem buffer_capacity_witness :
    0 ∉ str "SAVE1"
      ∧ demoStream._dataSize = 4480 ∧ demoStream.size = 4470
      ∧ (demoStream.write (List.replicate 4000 7)).1.err = false :=
  ⟨by decide,
    ((buffer_capacity cardEnv card10 (some 0) (str "SCUMMVM_0123") (str "SAVE1") 0
      (List.replicate 4000 7) (by decide) (by decide) (by decide)).2.2.2.2.2.2 rfl rfl rfl).1,
    ((buffer_capacity cardEnv card10 (some 0) (str "SCUMMVM_0123") (str "SAVE1") 0
      (List.replicate 4000 7) (by decide) (by decide) (by decide)).2.2.2.2.2.2 rfl rfl rfl).2.1,
    ((buffer_capacity cardEnv card10 (some 0) (str "SCUMMVM_0123") (str "SAVE1") 0
      (List.replicate 4000 7) (by decide) (by decide) (by decide)).2.2.2.2.2.2 rfl rfl rfl).2.2
      (List.length_replicate 4000 7)⟩

/-- Claim C10. On commit the declared payload length is the sub-header
length `4 + len + 1` plus the stream position, which for a sequence of writes
is the number of bytes written; it does not depend on the buffer capacity.
The package handed to the one device write of the close has the size of the
header and media, 640 bytes, plus that payload length. `herr` and `hmax` say
that the stream is committed: no error flag, and a payload the package
builder accepts. -/
theorem commit_payload_length {W : Type} (k : Env W) (s : Sys W) (dev : Option Nat)
    (short long : CStr) (existing : Int) (ops : List StreamOp) (m : DCAltSaveFileManager)
    (s1 : Sys W)
    (hL : long.length + 5 < 2 ^ 32)
    (herr : ((VMUSaveFileWriteStream.new k s dev short long existing).1.run k ops).err = false)
    (hmax : long.length + 5
      + ((VMUSaveFileWriteStream.new k s dev short long existing).1.run k ops).pos
        ≤ k.max_record_size) :
    let f := (VMUSaveFileWriteStream.new k s dev short long existing).1.run k ops
    (f.build k).1.data_len = (4 + (long.length : Int) + 1) + f.pos
      ∧ ((∀ o ∈ ops, o.isWrite = true) → f.pos = (written ops).length)
      ∧ ((f.build k).2.2.length : Int) = f._hdr_size + (f.build k).1.data_len
      ∧ f._hdr_size = (sizeof_vmu_hdr : Int) + 512 * 1 + vmu_eyecatch_size VMUPKG_EC_NONE
      ∧ ∃ rest : List Call,
          (f.close k m s1).2.calls
              = s1.calls ++ Call.vmufs_write dev (c_str short) (f.build k).2.2 :: rest
            ∧ ∀ c ∈ rest, c.isMutation = false := by
  intro f
  obtain ⟨b1, b2, b3, b4, b5, b6, b7⟩ := build_size k s dev short long existing ops f rfl hL hmax
  refine ⟨by rw [b2]; push_cast; ring, ?_, by rw [b3, b4, b2]; push_cast; ring, by rw [b4]; rfl, ?_⟩
  · intro hw
    obtain ⟨n1, -⟩ := new_fields k s dev short long existing hL
    have h := (run_written k ops _ n1 hw herr).1
    have hp0 : (VMUSaveFileWriteStream.new k s dev short long existing).1.pos = 0 := rfl
    rw [hp0, Nat.zero_add] at h
    exact h
  · rw [close_commit k f m s1 herr b1, b5, b7]
    obtain ⟨cs, h1, h2⟩ := cacheNewSave_calls k m
      { world := (k.vmufs_write s1.world dev (c_str short) (f.build k).2.2).2,
        calls := s1.calls ++ [Call.vmufs_write dev (c_str short) (f.build k).2.2] }
      f._longFilename (VMUSaveFile.ofBuffer k (f.build k).2.2 (f.build k).2.2.length short)
    refine ⟨cs, ?_, h2⟩
    rw [h1]
    simp

/-- Witness of `commit_payload_length`: `SAVE1` with the bytes 1, 2, 3; the
payload length is 13. -/
theorem commit_payload_length_witness :
    (demoStream.run cardEnv [StreamOp.write [1, 2, 3]]).err = false
      ∧ ((demoStream.run cardEnv [StreamOp.write [1, 2, 3]]).build cardEnv).1.data_len = 13
      ∧ (((demoStream.run cardEnv [StreamOp.write [1, 2, 3]]).build cardEnv).2.2.length : Int)
          = (demoStream.run cardEnv [StreamOp.write [1, 2, 3]])._hdr_size
            + ((demoStream.run cardEnv [StreamOp.write [1, 2, 3]]).build cardEnv).1.data_len :=
  ⟨by decide,
    (commit_payload_length cardEnv card10 (some 0) (str "SCUMMVM_0123") (str "SAVE1") 0
      [StreamOp.write [1, 2, 3]] demoManager card10 (by decide) (by decide) (by decide)).1,
    (commit_payload_length cardEnv card10 (some 0) (str "SCUMMVM_0123") (str "SAVE1") 0
      [StreamOp.write [1, 2, 3]] demoManager card10 (by decide) (by decide) (by decide)).2.2.1⟩

/-! ## Lemmas on the keys of the cache -/

theorem equalsIgnoreCase_congr (a b c : CStr) (h : equalsIgnoreCase a b = true) :
    equalsIgnoreCase c a = equalsIgnoreCase c b := by
  have h1 := (equalsIgnoreCase_iff a b).mp h
  cases hx : equalsIgnoreCase c a with
  | true =>
    have h2 := (equalsIgnoreCase_iff c a).mp hx
    exact ((equalsIgnoreCase_iff c b).mpr (h2.trans h1)).symm
  | false =>
    cases hy : equalsIgnoreCase c b with
    | false => rfl
    | true =>
      have h2 := (equalsIgnoreCase_iff c b).mp hy
      have h3 := (equalsIgnoreCase_iff c a).mpr (h2.trans h1.symm)
      rw [hx] at h3
      exact h3

theorem set_keys (c : SaveFileCache) (key : CStr) (v : VMUSaveFile) :
    ∀ b ∈ c.set key v, (∃ b2 ∈ c, b2.1 = b.1) ∨ b.1 = key := by
  induction c with
  | nil =>
    intro b hb
    simp only [SaveFileCache.set, List.mem_singleton] at hb
    right; rw [hb]
  | cons e c ih =>
    intro b hb
    unfold SaveFileCache.set at hb
    split_ifs at hb with h
    · rcases List.mem_cons.mp hb with hb | hb
      · left; exact ⟨e, List.mem_cons_self _ _, by rw [hb]⟩
      · left; exact ⟨b, List.mem_cons_of_mem _ hb, rfl⟩
    · rcases List.mem_cons.mp hb with hb | hb
      · left; exact ⟨e, List.mem_cons_self _ _, by rw [hb]⟩
      · rcases ih b hb with ⟨b2, hb2, hk⟩ | hk
        · left; exact ⟨b2, List.mem_cons_of_mem _ hb2, hk⟩
        · right; exact hk

theorem set_distinct (c : SaveFileCache) (key : CStr) (v : VMUSaveFile) (hc : CacheDistinct c) :
    CacheDistinct (c.set key v) := by
  induction c with
  | nil => simp [SaveFileCache.set, CacheDistinct]
  | cons e c ih =>
    unfold CacheDistinct at hc
    obtain ⟨h1, h2⟩ := List.pairwise_cons.mp hc
    unfold SaveFileCache.set
    split_ifs with h
    · exact List.pairwise_cons.mpr ⟨h1, h2⟩
    · refine List.pairwise_cons.mpr ⟨?_, ih h2⟩
      intro b hb
      rcases set_keys c key v b hb with ⟨b2, hb2, hk⟩ | hk
      · rw [← hk]; exact h1 b2 hb2
      · rw [hk]; simpa using h

theorem erase_subset (c : SaveFileCache) (X : CStr) : ∀ b ∈ c.erase X, b ∈ c := by
  induction c with
  | nil => intro b hb; simp [SaveFileCache.erase] at hb
  | cons e c ih =>
    intro b hb
    unfold SaveFileCache.erase at hb
    split_ifs at hb with h
    · exact List.mem_cons_of_mem _ hb
    · rcases List.mem_cons.mp hb with hb | hb
      · rw [hb]; exact List.mem_cons_self _ _
      · exact List.mem_cons_of_mem _ (ih b hb)

theorem erase_distinct (c : SaveFileCache) (X : CStr) (hc : CacheDistinct c) :
    CacheDistinct (c.erase X) := by
  induction c with
  | nil => simp [SaveFileCache.erase, CacheDistinct]
  | cons e c ih =>
    unfold CacheDistinct at hc
    obtain ⟨h1, h2⟩ := List.pairwise_cons.mp hc
    unfold SaveFileCache.erase
    split_ifs with h
    · exact h2
    · exact List.pairwise_cons.mpr ⟨fun b hb => h1 b (erase_subset c X b hb), ih h2⟩

theorem find_none_iff (c : SaveFileCache) (X : CStr) :
    c.find X = none ↔ ∀ b ∈ c, equalsIgnoreCase b.1 X = false := by
  unfold SaveFileCache.find
  rw [List.find?_eq_none]
  constructor
  · intro h b hb; simpa using h b hb
  · intro h b hb; simpa using h b hb

theorem erase_find (c : SaveFileCache) (X : CStr) (hc : CacheDistinct c) :
    (c.erase X).find X = none := by
  induction c with
  | nil => rfl
  | cons e c ih =>
    unfold CacheDistinct at hc
    obtain ⟨h1, h2⟩ := List.pairwise_cons.mp hc
    unfold SaveFileCache.erase
    split_ifs with h
    · rw [find_none_iff]
      intro b hb
      rw [← equalsIgnoreCase_congr e.1 X b.1 h]
      have h3 := h1 b hb
      cases hx : equalsIgnoreCase b.1 e.1 with
      | false => rfl
      | true =>
        have h4 := (equalsIgnoreCase_iff _ _).mp hx
        have h5 := (equalsIgnoreCase_iff _ _).mpr h4.symm
        rw [h3] at h5
        exact absurd h5 (by simp)
    · have h0 : equalsIgnoreCase e.1 X = false := by simpa using h
      unfold SaveFileCache.find
      rw [List.find?_cons]
      simp only [h0]
      exact ih h2

theorem scan_distinct {W : Type} (k : Env W) (dev : Option Nat) (names : List CStr) :
    ∀ r : SaveFileCache × Sys W, CacheDistinct r.1 →
      CacheDistinct (DCAltSaveFileManager.scan k dev names r).1 := by
  induction names with
  | nil => intro r h; exact h
  | cons n names ih =>
    intro r h
    unfold DCAltSaveFileManager.scan
    split_ifs
    · exact ih _ (set_distinct _ _ _ h)
    · exact ih _ h

theorem equalsIgnoreCase_self (a : CStr) : equalsIgnoreCase a a = true :=
  (equalsIgnoreCase_iff a a).mpr rfl

theorem list_not_mem (c : SaveFileCache) (X : CStr) (f : CStr × VMUSaveFile → Bool)
    (h : c.find X = none) : X ∉ (c.filter f).map (fun e => e.1) := by
  intro hx
  obtain ⟨e, he, hk⟩ := List.mem_map.mp hx
  have h1 := (find_none_iff c X).mp h e (List.mem_filter.mp he).1
  have hk2 : e.1 = X := hk
  rw [hk2, equalsIgnoreCase_self] at h1
  exact absurd h1 (by simp)

/-! ## Lemmas on reconciling and removing -/

theorem vmu_path_to_addr_calls {W : Type} (k : Env W) (s : Sys W) (p : CStr) (P : Call → Prop)
    (h1 : ∀ a b, P (Call.maple_enum_dev a b)) :
    ∃ cs : List Call, (vmu_path_to_addr k s p).2.calls = s.calls ++ cs ∧ ∀ c ∈ cs, P c := by
  unfold vmu_path_to_addr
  dsimp only
  split_ifs
  · exact ⟨[], by simp⟩
  · exact ⟨[], by simp⟩
  · exact ⟨[], by simp⟩
  · refine ⟨[_], rfl, ?_⟩
    intro c hc
    rw [List.mem_singleton.mp hc]
    exact h1 _ _

theorem fingerprint_calls_of {W : Type} (k : Env W) (m : DCAltSaveFileManager) (s : Sys W)
    (p : CStr) (P : Call → Prop) (h1 : ∀ a b, P (Call.maple_enum_dev a b))
    (h2 : ∀ d, P (Call.vmufs_root_read d)) (h3 : ∀ d, P (Call.vmufs_fat_read d)) :
    ∃ cs : List Call, (m.fingerprint k s p).2.2.calls = s.calls ++ cs ∧ ∀ c ∈ cs, P c := by
  obtain ⟨cs, hcs, hm⟩ := vmu_path_to_addr_calls k s ((c_str p).drop 4) P h1
  unfold DCAltSaveFileManager.fingerprint
  dsimp only
  generalize vmu_path_to_addr k s ((c_str p).drop 4) = a at hcs
  split_ifs
  · exact ⟨cs, hcs, hm⟩
  · refine ⟨cs ++ [Call.vmufs_root_read a.1], by simp [Sys.log, hcs], ?_⟩
    intro c hc
    rcases List.mem_append.mp hc with hc | hc
    · exact hm c hc
    · rw [List.mem_singleton.mp hc]; exact h2 _
  · refine ⟨cs ++ [Call.vmufs_root_read a.1, Call.vmufs_fat_read a.1],
      by simp [Sys.log, hcs], ?_⟩
    intro c hc
    rcases List.mem_append.mp hc with hc | hc
    · exact hm c hc
    · simp only [List.mem_cons, List.mem_singleton, List.not_mem_nil, or_false] at hc
      rcases hc with hc | hc
      · rw [hc]; exact h2 _
      · rw [hc]; exact h3 _
  · refine ⟨cs ++ [Call.vmufs_root_read a.1, Call.vmufs_fat_read a.1],
      by simp [Sys.log, hcs], ?_⟩
    intro c hc
    rcases List.mem_append.mp hc with hc | hc
    · exact hm c hc
    · simp only [List.mem_cons, List.mem_singleton, List.not_mem_nil, or_false] at hc
      rcases hc with hc | hc
      · rw [hc]; exact h2 _
      · rw [hc]; exact h3 _

theorem scan_calls_of {W : Type} (k : Env W) (dev : Option Nat) (names : List CStr)
    (P : Call → Prop) (h1 : ∀ d n, P (Call.vmufs_read d n)) :
    ∀ r : SaveFileCache × Sys W, ∃ cs : List Call,
      (DCAltSaveFileManager.scan k dev names r).2.calls = r.2.calls ++ cs ∧ ∀ c ∈ cs, P c := by
  induction names with
  | nil => intro r; exact ⟨[], by simp [DCAltSaveFileManager.scan], by simp⟩
  | cons n names ih =>
    intro r
    unfold DCAltSaveFileManager.scan
    split_ifs
    · obtain ⟨cs, h2, h3⟩ := ih ((r.1.set (VMUSaveFile.read k r.2 dev (c_str n)).1.getLongFilename
        (VMUSaveFile.read k r.2 dev (c_str n)).1, (VMUSaveFile.read k r.2 dev (c_str n)).2))
      refine ⟨Call.vmufs_read dev (c_str (c_str n)) :: cs, ?_, ?_⟩
      · rw [h2]; simp [VMUSaveFile.read, Sys.log]
      · intro c hc
        rcases List.mem_cons.mp hc with hc | hc
        · rw [hc]; exact h1 _ _
        · exact h3 c hc
    · exact ih r

/-- What `assureCached` comes to, case by case. -/
theorem assureCached_cases {W : Type} (k : Env W) (m : DCAltSaveFileManager) (s : Sys W)
    (p : CStr) :
    (m._fingerprint = (fingerprintOf k s.world p).getD [] →
        (m.assureCached k s p).1._saveFileCache = m._saveFileCache
          ∧ (m.assureCached k s p).1._fingerprint = m._fingerprint
          ∧ ((m.assureCached k s p).1._error.code = ErrorCode.kNoError →
              (fingerprintOf k s.world p).isSome = true)
          ∧ ∃ cs : List Call, (m.assureCached k s p).2.calls = s.calls ++ cs
              ∧ ∀ c ∈ cs, c.isScan = false ∧ c.isMutation = false)
      ∧ (m._fingerprint ≠ (fingerprintOf k s.world p).getD [] →
          (addrOf k s.world ((c_str p).drop 4) = none
            ∧ (m.assureCached k s p).1._saveFileCache = []
            ∧ (m.assureCached k s p).1._fingerprint = m._fingerprint
            ∧ (m.assureCached k s p).1._error.code ≠ ErrorCode.kNoError
            ∧ ∃ cs : List Call, (m.assureCached k s p).2.calls = s.calls ++ cs
                ∧ ∀ c ∈ cs, c.isScan = false ∧ c.isMutation = false)
          ∨ (addrOf k s.world ((c_str p).drop 4) ≠ none
            ∧ k.opendir s.world (c_str p) = none
            ∧ (m.assureCached k s p).1._saveFileCache = []
            ∧ (m.assureCached k s p).1._fingerprint = m._fingerprint
            ∧ (m.assureCached k s p).1._error.code ≠ ErrorCode.kNoError
            ∧ ∃ cs : List Call, (m.assureCached k s p).2.calls = s.calls ++ cs
                ∧ ∀ c ∈ cs, c.isEntryRead = false ∧ c.isMutation = false)
          ∨ (addrOf k s.world ((c_str p).drop 4) ≠ none
            ∧ (k.opendir s.world (c_str p)).isSome = true
            ∧ CacheDistinct (m.assureCached k s p).1._saveFileCache
            ∧ (m.assureCached k s p).1._fingerprint = (fingerprintOf k s.world p).getD []
            ∧ ((m.assureCached k s p).1._error.code = ErrorCode.kNoError →
                (fingerprintOf k s.world p).isSome = true)
            ∧ ∃ cs : List Call, (m.assureCached k s p).2.calls = s.calls ++ cs
                ∧ ∀ c ∈ cs, c.isMutation = false)) := by
  obtain ⟨f1, f2, f3, f4, f5⟩ := fingerprint_frame k m.clearError s p
  have fw := fingerprint_world k m.clearError s p
  have ff := fingerprint_fst k m.clearError s p
  obtain ⟨cs, fc, fm⟩ := fingerprint_calls_of k m.clearError s p
    (fun c => c.isScan = false ∧ c.isEntryRead = false ∧ c.isMutation = false)
    (fun _ _ => ⟨rfl, rfl, rfl⟩) (fun _ => ⟨rfl, rfl, rfl⟩) (fun _ => ⟨rfl, rfl, rfl⟩)
  have f2b : (m.clearError.fingerprint k s p).2.1._fingerprint = m._fingerprint := f2
  unfold DCAltSaveFileManager.assureCached
  dsimp only
  generalize m.clearError.fingerprint k s p = r at f1 f2b f3 f4 f5 fw ff fc
  obtain ⟨cs2, ac, am⟩ := vmu_path_to_addr_calls k r.2.2 ((c_str p).drop 4)
    (fun c => c.isScan = false ∧ c.isEntryRead = false ∧ c.isMutation = false)
    (fun _ _ => ⟨rfl, rfl, rfl⟩)
  have aw := vmu_path_to_addr_world k r.2.2 ((c_str p).drop 4)
  have af := vmu_path_to_addr_fst k r.2.2 ((c_str p).drop 4)
  rw [fw] at aw af
  generalize vmu_path_to_addr k r.2.2 ((c_str p).drop 4) = a at ac aw af
  refine ⟨?_, ?_⟩
  · intro h
    have h1 : r.2.1._fingerprint = r.1 := by rw [f2b, ff, h]
    simp only [h1, if_true]
    exact ⟨f1, by rw [← h1, f2b], f5, cs, fc, fun c hc => ⟨(fm c hc).1, (fm c hc).2.2⟩⟩
  · intro h
    have h1 : ¬ r.2.1._fingerprint = r.1 := by rw [f2b, ff]; exact h
    simp only [h1, if_false]
    by_cases h2 : a.1 = none
    · left
      simp only [h2, if_true]
      refine ⟨by rw [← af, h2], rfl, f2b, by simp [DCAltSaveFileManager.setError], cs ++ cs2,
        by rw [ac, fc, List.append_assoc], ?_⟩
      intro c hc
      rcases List.mem_append.mp hc with hc | hc
      · exact ⟨(fm c hc).1, (fm c hc).2.2⟩
      · exact ⟨(am c hc).1, (am c hc).2.2⟩
    · right
      simp only [h2, if_false]
      rw [aw]
      cases hd : k.opendir s.world (c_str p) with
      | none =>
        left
        refine ⟨by rw [← af]; exact h2, rfl, rfl, f2b,
          by simp [DCAltSaveFileManager.setError],
          cs ++ cs2 ++ [Call.opendir (c_str p)], by simp [Sys.log, ac, fc], ?_⟩
        intro c hc
        rcases List.mem_append.mp hc with hc | hc
        · rcases List.mem_append.mp hc with hc | hc
          · exact (fm c hc).2
          · exact (am c hc).2
        · rw [List.mem_singleton.mp hc]; exact ⟨rfl, rfl⟩
      | some names =>
        right
        obtain ⟨cs3, sc, sm⟩ := scan_calls_of k a.1 names (fun c => c.isMutation = false)
          (fun _ _ => rfl) (([] : SaveFileCache), a.2.log (Call.opendir (c_str p)))
        refine ⟨by rw [← af]; exact h2, rfl, ?_, ff, ?_, cs ++ cs2 ++ [Call.opendir (c_str p)] ++ cs3,
          ?_, ?_⟩
        · exact scan_distinct k a.1 names _ (by simp [CacheDistinct])
        · exact f5
        · dsimp only
          rw [sc]
          simp [Sys.log, ac, fc]
        · intro c hc
          rcases List.mem_append.mp hc with hc | hc
          · rcases List.mem_append.mp hc with hc | hc
            · rcases List.mem_append.mp hc with hc | hc
              · exact (fm c hc).2.2
              · exact (am c hc).2.2
            · rw [List.mem_singleton.mp hc]; rfl
          · exact sm c hc

theorem assureCached_calls {W : Type} (k : Env W) (m : DCAltSaveFileManager) (s : Sys W)
    (p : CStr) : ∃ cs : List Call, (m.assureCached k s p).2.calls = s.calls ++ cs
      ∧ ∀ c ∈ cs, c.isMutation = false := by
  obtain ⟨h1, h2⟩ := assureCached_cases k m s p
  by_cases h : m._fingerprint = (fingerprintOf k s.world p).getD []
  · obtain ⟨-, -, -, cs, hc, hm⟩ := h1 h
    exact ⟨cs, hc, fun c hx => (hm c hx).2⟩
  · rcases h2 h with ⟨-, -, -, -, cs, hc, hm⟩ | ⟨-, -, -, -, -, cs, hc, hm⟩
      | ⟨-, -, -, -, -, cs, hc, hm⟩
    · exact ⟨cs, hc, fun c hx => (hm c hx).2⟩
    · exact ⟨cs, hc, fun c hx => (hm c hx).2⟩
    · exact ⟨cs, hc, hm⟩

theorem assureCached_distinct {W : Type} (k : Env W) (m : DCAltSaveFileManager) (s : Sys W)
    (p : CStr) (hd : CacheDistinct m._saveFileCache) :
    CacheDistinct (m.assureCached k s p).1._saveFileCache := by
  obtain ⟨h1, h2⟩ := assureCached_cases k m s p
  by_cases h : m._fingerprint = (fingerprintOf k s.world p).getD []
  · rw [(h1 h).1]; exact hd
  · rcases h2 h with ⟨-, hc, -⟩ | ⟨-, -, hc, -⟩ | ⟨-, -, hc, -⟩
    · rw [hc]; simp [CacheDistinct]
    · rw [hc]; simp [CacheDistinct]
    · exact hc

theorem assureCached_ok {W : Type} (k : Env W) (m : DCAltSaveFileManager) (s : Sys W)
    (p : CStr) (he : (m.assureCached k s p).1._error.code = ErrorCode.kNoError) :
    fingerprintOf k s.world p = some (m.assureCached k s p).1._fingerprint := by
  obtain ⟨h1, h2⟩ := assureCached_cases k m s p
  by_cases h : m._fingerprint = (fingerprintOf k s.world p).getD []
  · obtain ⟨-, hf, hs, -⟩ := h1 h
    have := hs he
    rw [hf, h]
    cases hx : fingerprintOf k s.world p with
    | none => rw [hx] at this; simp at this
    | some d => rfl
  · rcases h2 h with ⟨-, -, -, hn, -⟩ | ⟨-, -, -, -, hn, -⟩ | ⟨-, -, -, hf, hs, -⟩
    · exact absurd he hn
    · exact absurd he hn
    · have := hs he
      rw [hf]
      cases hx : fingerprintOf k s.world p with
      | none => rw [hx] at this; simp at this
      | some d => rfl

/-- A second call of `assureCached` after a first one, the device being as
the first call found it. -/
theorem assureCached_again {W : Type} (k : Env W) (m : DCAltSaveFileManager) (s s2 : Sys W)
    (p : CStr) (hs2 : s2.world = s.world) :
    ((m.assureCached k s p).1.assureCached k s2 p).1._saveFileCache
        = (m.assureCached k s p).1._saveFileCache
      ∧ ((m.assureCached k s p).1.assureCached k s2 p).1._fingerprint
        = (m.assureCached k s p).1._fingerprint
      ∧ ∃ cs : List Call,
          ((m.assureCached k s p).1.assureCached k s2 p).2.calls = s2.calls ++ cs
          ∧ (∀ c ∈ cs, c.isEntryRead = false ∧ c.isMutation = false)
          ∧ ((∃ c ∈ cs, c.isScan = true) →
              k.opendir s.world (c_str p) = none
                ∧ (m.assureCached k s p).1._error.code ≠ ErrorCode.kNoError) := by
  obtain ⟨h1, h2⟩ := assureCached_cases k m s p
  obtain ⟨g1, g2⟩ := assureCached_cases k (m.assureCached k s p).1 s2 p
  generalize m.assureCached k s p = r at h1 h2 g1 g2
  rw [hs2] at g1 g2
  have noscan : ∀ cs : List Call, (∀ c ∈ cs, c.isScan = false ∧ c.isMutation = false) →
      (∀ c ∈ cs, c.isEntryRead = false ∧ c.isMutation = false)
        ∧ ((∃ c ∈ cs, c.isScan = true) →
              k.opendir s.world (c_str p) = none ∧ r.1._error.code ≠ ErrorCode.kNoError) := by
    intro cs hm
    refine ⟨?_, ?_⟩
    · intro c hc
      have hs := (hm c hc).1
      refine ⟨?_, (hm c hc).2⟩
      cases c <;> first | rfl | exact absurd hs (by simp [Call.isScan])
    · rintro ⟨c, hc, hs⟩
      rw [(hm c hc).1] at hs
      exact absurd hs (by simp)
  have hit : r.1._fingerprint = (fingerprintOf k s.world p).getD [] →
      (r.1.assureCached k s2 p).1._saveFileCache = r.1._saveFileCache
        ∧ (r.1.assureCached k s2 p).1._fingerprint = r.1._fingerprint
        ∧ ∃ cs : List Call, (r.1.assureCached k s2 p).2.calls = s2.calls ++ cs
          ∧ (∀ c ∈ cs, c.isEntryRead = false ∧ c.isMutation = false)
          ∧ ((∃ c ∈ cs, c.isScan = true) →
              k.opendir s.world (c_str p) = none ∧ r.1._error.code ≠ ErrorCode.kNoError) := by
    intro h
    obtain ⟨a, b, -, cs, hc, hm⟩ := g1 h
    exact ⟨a, b, cs, hc, noscan cs hm⟩
  have miss : r.1._saveFileCache = [] → r.1._error.code ≠ ErrorCode.kNoError →
      (addrOf k s.world ((c_str p).drop 4) = none ∨ k.opendir s.world (c_str p) = none) →
      r.1._fingerprint ≠ (fingerprintOf k s.world p).getD [] →
      (r.1.assureCached k s2 p).1._saveFileCache = r.1._saveFileCache
        ∧ (r.1.assureCached k s2 p).1._fingerprint = r.1._fingerprint
        ∧ ∃ cs : List Call, (r.1.assureCached k s2 p).2.calls = s2.calls ++ cs
          ∧ (∀ c ∈ cs, c.isEntryRead = false ∧ c.isMutation = false)
          ∧ ((∃ c ∈ cs, c.isScan = true) →
              k.opendir s.world (c_str p) = none ∧ r.1._error.code ≠ ErrorCode.kNoError) := by
    intro he herr hor hne
    rcases g2 hne with ⟨-, hc, hf, -, cs, hcs, hm⟩ | ⟨-, ho, hc, hf, -, cs, hcs, hm⟩
      | ⟨ha, ho, -⟩
    · exact ⟨by rw [hc, he], hf, cs, hcs, noscan cs hm⟩
    · exact ⟨by rw [hc, he], hf, cs, hcs, hm, fun _ => ⟨ho, herr⟩⟩
    · rcases hor with hor | hor
      · exact absurd hor ha
      · rw [hor] at ho; simp at ho
  by_cases h : m._fingerprint = (fingerprintOf k s.world p).getD []
  · exact hit (by rw [(h1 h).2.1]; exact h)
  · rcases h2 h with ⟨ha, hc, hf, hn, -⟩ | ⟨-, ho, hc, hf, hn, -⟩ | ⟨-, -, -, hf, -⟩
    · exact miss hc hn (Or.inl ha) (by rw [hf]; exact h)
    · exact miss hc hn (Or.inr ho) (by rw [hf]; exact h)
    · exact hit hf

/-- What `removeSavefile` leaves when it finds the name. -/
theorem removeSavefile_found {W : Type} (k : Env W) (m : DCAltSaveFileManager) (s : Sys W)
    (X : CStr) (hv : m.onVmu = true)
    (he : (m.assureCached k s m.savePath).1._error.code = ErrorCode.kNoError)
    (hx : ((m.assureCached k s m.savePath).1._saveFileCache.find X).isSome = true) :
    (m.removeSavefile k s X).2.1._saveFileCache
        = (m.assureCached k s m.savePath).1._saveFileCache.erase X
      ∧ (m.removeSavefile k s X).2.1.savePath = m.savePath
      ∧ (m.removeSavefile k s X).2.1._fingerprint
        = (fingerprintOf k (m.removeSavefile k s X).2.2.world m.savePath).getD []
      ∧ ∃ e, (m.assureCached k s m.savePath).1._saveFileCache.find X = some e
          ∧ (m.removeSavefile k s X).1
            = Routed.handled ((k.vmufs_delete s.world (addrOf k s.world ((c_str m.savePath).drop 4))
                (c_str e.2.getShortFilename)).1 == 0)
          ∧ (m.removeSavefile k s X).2.2.world
            = (k.vmufs_delete s.world (addrOf k s.world ((c_str m.savePath).drop 4))
                (c_str e.2.getShortFilename)).2 := by
  obtain ⟨w1, w2, -, -⟩ := assureCached_frame k m s m.savePath
  cases hf : (m.assureCached k s m.savePath).1._saveFileCache.find X with
  | none => rw [hf] at hx; simp at hx
  | some e =>
    unfold DCAltSaveFileManager.removeSavefile
    simp only [hv, Bool.not_true, Bool.false_eq_true, if_false, he, ne_eq, not_true_eq_false, hf]
    generalize m.assureCached k s m.savePath = r at w1 w2
    refine ⟨?_, ?_, ?_, e, rfl, ?_, ?_⟩
    · exact (fingerprint_frame k _ _ _).1
    · exact (fingerprint_frame k _ _ _).2.2.2.1.trans w2
    · dsimp only
      rw [fingerprint_fst, fingerprint_world, w2]
    · dsimp only
      rw [vmu_path_to_addr_world, vmu_path_to_addr_fst, w1]
    · dsimp only
      rw [fingerprint_world, vmu_path_to_addr_world, vmu_path_to_addr_fst, w1]

/-! ## Lemmas on generated names -/

theorem chars_getD (d : Nat) (h : d ≤ 35) :
    isDigitOrUpper ((str "0123456789ABCDEFGHIJKLMNOPQRSTUVWXYZ" ++ [0]).getD d 0) := by
  have hd : d < 36 := by omega
  unfold isDigitOrUpper
  interval_cases d <;> decide

theorem candidate_shape {W : Type} (k : Env W) (m : DCAltSaveFileManager)
    (hdraw : ∀ n, k.getRandomNumber n 35 ≤ 35) :
    ∃ c0 c1 c2 c3 : Nat, m.candidate k = str "SCUMMVM_" ++ [c0, c1, c2, c3]
      ∧ isDigitOrUpper c0 ∧ isDigitOrUpper c1 ∧ isDigitOrUpper c2 ∧ isDigitOrUpper c3 := by
  have hlen : (str "0123456789ABCDEFGHIJKLMNOPQRSTUVWXYZ" ++ [0]).length - 2 = 35 := by decide
  refine ⟨_, _, _, _, rfl, ?_, ?_, ?_, ?_⟩ <;>
    · rw [hlen]
      exact chars_getD _ (hdraw _)

/-! ## The claims on removal, reconciling, routing, keys and layout -/

/-- Claim C11. On a device-backed path (`hv`), let `removeSavefile(X)` find
`X` in the cache after a reconcile without error (`he`, `hx`); `hd` is the
invariant of the hash map that no two keys are equal up to case. Then, the
device being left as `removeSavefile` left it (`hs2`), the list
`listSavefiles` returns for the pattern `*` does not include `X`, and
`openRawFile` and `openForLoading` return `nullptr` for `X`. -/
theorem removed_name_is_gone {W : Type} (k : Env W) (m : DCAltSaveFileManager) (s s2 : Sys W)
    (X : CStr) (hv : m.onVmu = true) (hd : CacheDistinct m._saveFileCache)
    (he : (m.assureCached k s m.savePath).1._error.code = ErrorCode.kNoError)
    (hx : ((m.assureCached k s m.savePath).1._saveFileCache.find X).isSome = true)
    (hs2 : s2.world = (m.removeSavefile k s X).2.2.world) :
    (∃ names, ((m.removeSavefile k s X).2.1.listSavefiles k s2 (str "*")).1
          = Routed.handled names ∧ X ∉ names)
      ∧ ((m.removeSavefile k s X).2.1.openRawFile k s2 X).1 = Routed.handled none
      ∧ ((m.removeSavefile k s X).2.1.openForLoading k s2 X).1 = Routed.handled none := by
  obtain ⟨c1, c2, c3, -⟩ := removeSavefile_found k m s X hv he hx
  have hdist := assureCached_distinct k m s m.savePath hd
  have hgone := erase_find _ X hdist
  rw [← c1] at hgone
  rw [← hs2, ← c2] at c3
  generalize (m.removeSavefile k s X).2.1 = m1 at c2 c3 hgone
  have hv1 : m1.onVmu = true := by rw [onVmu_congr m m1 c2, hv]
  obtain ⟨a, -⟩ := (assureCached_cases k m1 s2 m1.savePath).1 c3
  rw [← a] at hgone
  refine ⟨?_, ?_, ?_⟩
  · unfold DCAltSaveFileManager.listSavefiles
    simp only [hv1, Bool.not_true, Bool.false_eq_true, if_false]
    split_ifs
    · exact ⟨[], rfl, by simp⟩
    · exact ⟨_, rfl, list_not_mem _ X _ hgone⟩
  · unfold DCAltSaveFileManager.openRawFile
    simp only [hv1, Bool.not_true, Bool.false_eq_true, if_false, hgone]
    split_ifs <;> rfl
  · unfold DCAltSaveFileManager.openForLoading
    simp only [hv1, Bool.not_true, Bool.false_eq_true, if_false, hgone]
    split_ifs <;> rfl

/-- Witness of `removed_name_is_gone`: the manager that has saved `SAVE1`
removes it. -/
theorem removed_name_is_gone_witness :
    savedRun.1.onVmu = true
      ∧ ((savedRun.1.assureCached cardEnv savedRun.2
          savedRun.1.savePath).1._saveFileCache.find (str "SAVE1")).isSome = true
      ∧ removedRun.1 = Routed.handled true
      ∧ (removedRun.2.1.openRawFile cardEnv removedRun.2.2 (str "SAVE1")).1
        = Routed.handled none :=
  ⟨by decide, by decide, by decide,
    (removed_name_is_gone cardEnv savedRun.1 savedRun.2 removedRun.2.2 (str "SAVE1") (by decide)
      (by unfold CacheDistinct; decide) (by decide) (by decide) rfl).2.1⟩

/-- Claim C12. On a device-backed path (`hv`), let the long name `filename`
be absent from the cache as `assureCached` leaves it (`habs`). Then
`openRawFile` and `openForLoading` return `nullptr`, and `removeSavefile`
returns `false` and leaves the manager, so the cache map and the stored
fingerprint, and the device log as `assureCached` left them: the device is
as it was and the calls added to the log include no delete and no write.
Where the stored fingerprint is the device's, cache map and stored
fingerprint are those of before the call. -/
theorem absent_name_not_found {W : Type} (k : Env W) (m : DCAltSaveFileManager) (s : Sys W)
    (filename : CStr) (hv : m.onVmu = true)
    (habs : (m.assureCached k s m.savePath).1._saveFileCache.find filename = none) :
    (m.openRawFile k s filename).1 = Routed.handled none
      ∧ (m.openForLoading k s filename).1 = Routed.handled none
      ∧ m.removeSavefile k s filename = (Routed.handled false, m.assureCached k s m.savePath)
      ∧ (m.removeSavefile k s filename).2.2.world = s.world
      ∧ (∃ cs : List Call, (m.removeSavefile k s filename).2.2.calls = s.calls ++ cs
          ∧ ∀ c ∈ cs, c.isMutation = false)
      ∧ ((m.clearError.fingerprint k s m.savePath).1 = m._fingerprint →
          (m.removeSavefile k s filename).2.1._saveFileCache = m._saveFileCache
            ∧ (m.removeSavefile k s filename).2.1._fingerprint = m._fingerprint) := by
  have hrem : m.removeSavefile k s filename
      = (Routed.handled false, m.assureCached k s m.savePath) := by
    unfold DCAltSaveFileManager.removeSavefile
    simp only [hv, Bool.not_true, Bool.false_eq_true, if_false, habs]
    split_ifs <;> rfl
  refine ⟨?_, ?_, hrem, ?_, ?_, ?_⟩
  · unfold DCAltSaveFileManager.openRawFile
    simp only [hv, Bool.not_true, Bool.false_eq_true, if_false, habs]
    split_ifs <;> rfl
  · unfold DCAltSaveFileManager.openForLoading
    simp only [hv, Bool.not_true, Bool.false_eq_true, if_false, habs]
    split_ifs <;> rfl
  · rw [hrem]; exact (assureCached_frame k m s m.savePath).1
  · rw [hrem]; exact assureCached_calls k m s m.savePath
  · intro h
    rw [hrem, fingerprint_fst] at *
    obtain ⟨a, b, -⟩ := (assureCached_cases k m s m.savePath).1 h.symm
    exact ⟨a, b⟩

/-- Witness of `absent_name_not_found`: the name `SAVE2` with a manager that
has listed the saves of a card holding `SAVE1`. -/
theorem absent_name_not_found_witness :
    reconciled.1.onVmu = true
      ∧ (reconciled.1.assureCached cardEnv reconciled.2
          reconciled.1.savePath).1._saveFileCache.find (str "SAVE2") = none
      ∧ (reconciled.1.openRawFile cardEnv reconciled.2 (str "SAVE2")).1 = Routed.handled none
      ∧ (reconciled.1.removeSavefile cardEnv reconciled.2 (str "SAVE2")).1
          = Routed.handled false :=
  ⟨by decide, by decide,
    (absent_name_not_found cardEnv reconciled.1 reconciled.2 (str "SAVE2") (by decide)
      (by decide)).1,
    congrArg Prod.fst (absent_name_not_found cardEnv reconciled.1 reconciled.2 (str "SAVE2")
      (by decide) (by decide)).2.2.1⟩

/-- Claim C13. Reconcile is `assureCached`. When the digest that `fingerprint`
returns for the device equals the stored fingerprint, `assureCached` leaves
the cache map and the stored fingerprint as they were and the calls it adds
to the device log include no `opendir` and no entry read. For two calls in a
row, the device being at the second call as it was at the first (`hs2`), the
second leaves the cache map and the stored fingerprint as the first left
them and reads no entry; when the first call reported no error the second
issues no `opendir` either, and any `opendir` it does issue is one that
fails, as it failed in the first call, so that nothing is enumerated. -/
theorem reconcile_same_fingerprint {W : Type} (k : Env W) (m : DCAltSaveFileManager)
    (s s2 : Sys W) (p : CStr) (hs2 : s2.world = s.world) :
    ((m.clearError.fingerprint k s p).1 = m._fingerprint →
        (m.assureCached k s p).1._saveFileCache = m._saveFileCache
          ∧ (m.assureCached k s p).1._fingerprint = m._fingerprint
          ∧ (m.assureCached k s p).2.world = s.world
          ∧ ∃ cs : List Call, (m.assureCached k s p).2.calls = s.calls ++ cs
              ∧ ∀ c ∈ cs, c.isScan = false)
      ∧ ((m.assureCached k s p).1.assureCached k s2 p).1._saveFileCache
          = (m.assureCached k s p).1._saveFileCache
      ∧ ((m.assureCached k s p).1.assureCached k s2 p).1._fingerprint
          = (m.assureCached k s p).1._fingerprint
      ∧ ∃ cs : List Call,
          ((m.assureCached k s p).1.assureCached k s2 p).2.calls = s2.calls ++ cs
            ∧ (∀ c ∈ cs, c.isEntryRead = false)
            ∧ ((m.assureCached k s p).1._error.code = ErrorCode.kNoError →
                ∀ c ∈ cs, c.isScan = false)
            ∧ ((∃ c ∈ cs, c.isScan = true) → k.opendir s.world (c_str p) = none) := by
  refine ⟨?_, ?_⟩
  · intro h
    rw [fingerprint_fst] at h
    obtain ⟨a, b, -, cs, hc, hm⟩ := (assureCached_cases k m s p).1 h.symm
    exact ⟨a, b, (assureCached_frame k m s p).1, cs, hc, fun c hx => (hm c hx).1⟩
  · obtain ⟨a, b, cs, hc, hm, ho⟩ := assureCached_again k m s s2 p hs2
    refine ⟨a, b, cs, hc, fun c hx => (hm c hx).1, ?_, fun hx => (ho hx).1⟩
    intro he c hx
    cases hs : c.isScan with
    | false => rfl
    | true => exact absurd he (ho ⟨c, hx, hs⟩).2

/-- Witness of `reconcile_same_fingerprint`: a manager that has listed the
saves of a card holding `SAVE1` reconciles once more with the same card. -/
theorem reconcile_same_fingerprint_witness :
    (reconciled.1.clearError.fingerprint cardEnv reconciled.2 (str "/vmu/a1")).1
        = reconciled.1._fingerprint
      ∧ (reconciled.1.assureCached cardEnv reconciled.2 (str "/vmu/a1")).1._saveFileCache
        = reconciled.1._saveFileCache
      ∧ (reconciled.1.assureCached cardEnv reconciled.2 (str "/vmu/a1")).1._fingerprint
        = reconciled.1._fingerprint :=
  ⟨by decide,
    ((reconcile_same_fingerprint cardEnv reconciled.1 reconciled.2 reconciled.2 (str "/vmu/a1")
      rfl).1 (by decide)).1,
    ((reconcile_same_fingerprint cardEnv reconciled.1 reconciled.2 reconciled.2 (str "/vmu/a1")
      rfl).1 (by decide)).2.1⟩

/-- Claim C14. On a device-backed path (`hv`), when `assureCached` leaves an
error (`he`), `listSavefiles` returns the empty list, `openRawFile`,
`openForLoading` and `openForSaving` return `nullptr` and `removeSavefile`
returns `false`; each of them leaves the manager and the device log as
`assureCached` left them, so no stream is constructed, the device is as it
was, and the calls added to the log include no write and no delete. -/
theorem reconcile_error_short_circuits {W : Type} (k : Env W) (fuel : Nat)
    (m : DCAltSaveFileManager) (s : Sys W) (pattern filename : CStr) (compress : Bool)
    (hv : m.onVmu = true)
    (he : (m.assureCached k s m.savePath).1._error.code ≠ ErrorCode.kNoError) :
    m.listSavefiles k s pattern = (Routed.handled [], m.assureCached k s m.savePath)
      ∧ m.openRawFile k s filename = (Routed.handled none, m.assureCached k s m.savePath)
      ∧ m.openForLoading k s filename = (Routed.handled none, m.assureCached k s m.savePath)
      ∧ m.openForSaving k fuel s filename compress
          = some (Routed.handled none, m.assureCached k s m.savePath)
      ∧ m.removeSavefile k s filename = (Routed.handled false, m.assureCached k s m.savePath)
      ∧ (m.assureCached k s m.savePath).2.world = s.world
      ∧ ∃ cs : List Call, (m.assureCached k s m.savePath).2.calls = s.calls ++ cs
          ∧ ∀ c ∈ cs, c.isMutation = false := by
  refine ⟨?_, ?_, ?_, ?_, ?_, (assureCached_frame k m s m.savePath).1,
    assureCached_calls k m s m.savePath⟩
  · unfold DCAltSaveFileManager.listSavefiles
    simp only [hv, Bool.not_true, Bool.false_eq_true, if_false, he, ne_eq, not_false_eq_true,
      if_true]
  · unfold DCAltSaveFileManager.openRawFile
    simp only [hv, Bool.not_true, Bool.false_eq_true, if_false, he, ne_eq, not_false_eq_true,
      if_true]
  · unfold DCAltSaveFileManager.openForLoading
    simp only [hv, Bool.not_true, Bool.false_eq_true, if_false, he, ne_eq, not_false_eq_true,
      if_true]
  · unfold DCAltSaveFileManager.openForSaving
    simp only [hv, Bool.not_true, Bool.false_eq_true, if_false, he, ne_eq, not_false_eq_true,
      if_true]
  · unfold DCAltSaveFileManager.removeSavefile
    simp only [hv, Bool.not_true, Bool.false_eq_true, if_false, he, ne_eq, not_false_eq_true,
      if_true]

/-- Witness of `reconcile_error_short_circuits`: the manager that has saved
`SAVE1` is used while the card is unplugged. -/
theorem reconcile_error_short_circuits_witness :
    savedRun.1.onVmu = true
      ∧ (savedRun.1.assureCached cardEnv unplugged savedRun.1.savePath).1._error.code
          ≠ ErrorCode.kNoError
      ∧ savedRun.1.openForSaving cardEnv 5 unplugged (str "SAVE2") true
          = some (Routed.handled none,
              savedRun.1.assureCached cardEnv unplugged savedRun.1.savePath)
      ∧ savedRun.1.removeSavefile cardEnv unplugged (str "SAVE1")
          = (Routed.handled false, savedRun.1.assureCached cardEnv unplugged savedRun.1.savePath) :=
  ⟨by decide, by decide,
    (reconcile_error_short_circuits cardEnv 5 savedRun.1 unplugged (str "*") (str "SAVE2") true
      (by decide) (by decide)).2.2.2.1,
    (reconcile_error_short_circuits cardEnv 5 savedRun.1 unplugged (str "*") (str "SAVE1") true
      (by decide) (by decide)).2.2.2.2.1⟩

/-- Claim C15, as amended. When the save path does not begin with the four
characters `/vmu` (`hv`, the test `strncmp(getSavePath().c_str(), "/vmu", 4)`
of the code), `listSavefiles`, `openRawFile`, `openForLoading`, `removeSavefile` and
`updateSavefilesList` come to the call of the same method of
`DefaultSaveFileManager` with the same argument, and the manager, with its
cache map and stored fingerprint, and the device log are as before. The
cache map and the stored fingerprint are not looked at: the call forwarded
is the same whatever they hold. -/
theorem other_paths_forwarded {W : Type} (k : Env W) (m : DCAltSaveFileManager) (s : Sys W)
    (arg : CStr) (lockedFiles : List CStr) (hv : m.onVmu = false) :
    m.listSavefiles k s arg = (Routed.forwarded (DefaultCall.listSavefiles arg), m, s)
      ∧ m.openRawFile k s arg = (Routed.forwarded (DefaultCall.openRawFile arg), m, s)
      ∧ m.openForLoading k s arg = (Routed.forwarded (DefaultCall.openForLoading arg), m, s)
      ∧ m.removeSavefile k s arg = (Routed.forwarded (DefaultCall.removeSavefile arg), m, s)
      ∧ m.updateSavefilesList lockedFiles
          = Routed.forwarded (DefaultCall.updateSavefilesList lockedFiles)
      ∧ ∀ (c : SaveFileCache) (f : CStr),
          ({ m with _saveFileCache := c, _fingerprint := f }.listSavefiles k s arg).1
              = (m.listSavefiles k s arg).1
            ∧ ({ m with _saveFileCache := c, _fingerprint := f }.openRawFile k s arg).1
              = (m.openRawFile k s arg).1
            ∧ ({ m with _saveFileCache := c, _fingerprint := f }.openForLoading k s arg).1
              = (m.openForLoading k s arg).1
            ∧ ({ m with _saveFileCache := c, _fingerprint := f }.removeSavefile k s arg).1
              = (m.removeSavefile k s arg).1
            ∧ { m with _saveFileCache := c, _fingerprint := f }.updateSavefilesList lockedFiles
              = m.updateSavefilesList lockedFiles := by
  have hv2 : ∀ (c : SaveFileCache) (f : CStr),
      DCAltSaveFileManager.onVmu { m with _saveFileCache := c, _fingerprint := f } = false :=
    fun c f => hv
  refine ⟨?_, ?_, ?_, ?_, ?_, ?_⟩
  · simp [DCAltSaveFileManager.listSavefiles, hv]
  · simp [DCAltSaveFileManager.openRawFile, hv]
  · simp [DCAltSaveFileManager.openForLoading, hv]
  · simp [DCAltSaveFileManager.removeSavefile, hv]
  · simp [DCAltSaveFileManager.updateSavefilesList, hv]
  · intro c f
    refine ⟨?_, ?_, ?_, ?_, ?_⟩
    · simp [DCAltSaveFileManager.listSavefiles, hv, hv2 c f]
    · simp [DCAltSaveFileManager.openRawFile, hv, hv2 c f]
    · simp [DCAltSaveFileManager.openForLoading, hv, hv2 c f]
    · simp [DCAltSaveFileManager.removeSavefile, hv, hv2 c f]
    · simp [DCAltSaveFileManager.updateSavefilesList, hv, hv2 c f]

/-- Witness of `other_paths_forwarded`: a manager whose save path is
`/sd/saves` lists the saves that match `*`. -/
theorem other_paths_forwarded_witness :
    sdManager.onVmu = false
      ∧ sdManager.listSavefiles cardEnv card10 (str "*")
        = (Routed.forwarded (DefaultCall.listSavefiles (str "*")), sdManager, card10) :=
  ⟨by decide,
    (other_paths_forwarded cardEnv sdManager card10 (str "*") [] (by decide)).1⟩

/-- Counterexample to claim C15 as stated. The save path `/vmufoo/saves` is
not under `/vmu`, but it begins with the four characters `/vmu`: the entry
points take it for a device path and forward nothing. `listSavefiles`
returns the empty list, `openRawFile` and `openForLoading` return `nullptr`,
`removeSavefile` returns `false` and `updateSavefilesList` does nothing,
with the error `kPathDoesNotExist` and no device call. -/
theorem path_with_vmu_prefix_counterexample :
    strncmpEq (str "/vmufoo/saves") (str "/vmu/") 5 = false
      ∧ vmufooManager.onVmu = true
      ∧ (vmufooManager.listSavefiles cardEnv card10 (str "*")).1 = Routed.handled []
      ∧ (vmufooManager.listSavefiles cardEnv card10 (str "*")).1
          ≠ Routed.forwarded (DefaultCall.listSavefiles (str "*"))
      ∧ (vmufooManager.listSavefiles cardEnv card10 (str "*")).2.1._error.code
          = ErrorCode.kPathDoesNotExist
      ∧ (vmufooManager.listSavefiles cardEnv card10 (str "*")).2.2.calls = []
      ∧ (vmufooManager.openRawFile cardEnv card10 (str "SAVE1")).1 = Routed.handled none
      ∧ (vmufooManager.openForLoading cardEnv card10 (str "SAVE1")).1 = Routed.handled none
      ∧ (vmufooManager.removeSavefile cardEnv card10 (str "SAVE1")).1 = Routed.handled false
      ∧ vmufooManager.updateSavefilesList [] = Routed.handled () :=
  ⟨by decide, by decide, by decide, by decide, by decide, by decide, by decide, by decide,
    by decide, by decide⟩

/-- Claim C16, the code at the failing input. With the save path `/sd/saves`,
`openForSaving(filename, false)` comes to the call
`DefaultSaveFileManager::openForSaving(filename)`, whose `compress` argument
takes its default value `true`: the flag passed on is not the flag given. -/
theorem compress_flag_not_forwarded (filename : CStr) :
    sdManager.onVmu = false
      ∧ sdManager.openForSaving cardEnv 5 card10 filename false
        = some (Routed.forwarded (DefaultCall.openForSaving filename true), sdManager, card10)
      ∧ sdManager.openForSaving cardEnv 5 card10 filename false
        = sdManager.openForSaving cardEnv 5 card10 filename true
      ∧ DefaultCall.openForSaving filename true ≠ DefaultCall.openForSaving filename false := by
  have hv : sdManager.onVmu = false := by decide
  refine ⟨hv, ?_, ?_, by simp⟩
  · simp [DCAltSaveFileManager.openForSaving, hv]
  · simp [DCAltSaveFileManager.openForSaving, hv]

/-- Claim C18. On a device-backed path (`hv`) with a reconcile that leaves no
error (`he`), `listSavefiles(pattern)` returns a list that holds a name
exactly when it is a key of the cache that `matchString(pattern, true)`, the
matching that ignores case, accepts, and holds no name twice. `hd` is the
invariant of the hash map that no two keys are equal up to case. -/
theorem listSavefiles_exact {W : Type} (k : Env W) (m : DCAltSaveFileManager) (s : Sys W)
    (pattern : CStr) (hv : m.onVmu = true) (hd : CacheDistinct m._saveFileCache)
    (he : (m.assureCached k s m.savePath).1._error.code = ErrorCode.kNoError) :
    ∃ names : List CStr, (m.listSavefiles k s pattern).1 = Routed.handled names
      ∧ (∀ n, n ∈ names ↔
          (∃ e ∈ (m.assureCached k s m.savePath).1._saveFileCache, e.1 = n)
            ∧ k.matchString n pattern true = true)
      ∧ names.Nodup := by
  have hdist := assureCached_distinct k m s m.savePath hd
  unfold DCAltSaveFileManager.listSavefiles
  simp only [hv, Bool.not_true, Bool.false_eq_true, if_false, he, ne_eq, not_true_eq_false]
  generalize (m.assureCached k s m.savePath).1._saveFileCache = c at hdist
  refine ⟨_, rfl, ?_, ?_⟩
  · intro n
    constructor
    · intro hn
      obtain ⟨e, hef, hk⟩ := List.mem_map.mp hn
      obtain ⟨hm, hp⟩ := List.mem_filter.mp hef
      have hk2 : e.1 = n := hk
      exact ⟨⟨e, hm, hk2⟩, by rw [← hk2]; exact hp⟩
    · rintro ⟨⟨e, hm, hk⟩, hp⟩
      exact List.mem_map.mpr ⟨e, List.mem_filter.mpr ⟨hm, by rw [hk]; exact hp⟩, hk⟩
  · have h1 : List.Pairwise (fun a b : CStr × VMUSaveFile => a.1 ≠ b.1) c := by
      refine List.Pairwise.imp ?_ hdist
      intro a b hab heq
      rw [heq, equalsIgnoreCase_self] at hab
      exact absurd hab (by simp)
    have h2 : List.Pairwise (fun a b : CStr × VMUSaveFile => a.1 ≠ b.1)
        (c.filter (fun e => k.matchString e.1 pattern true)) :=
      List.Pairwise.sublist (List.filter_sublist c) h1
    exact (List.pairwise_map.mpr h2 : List.Pairwise (fun a b : CStr => a ≠ b) _)

/-- Witness of `listSavefiles_exact`: the manager that has saved `SAVE1`
lists the saves that match `*`. -/
theorem listSavefiles_exact_witness :
    savedRun.1.onVmu = true
      ∧ (savedRun.1.assureCached cardEnv savedRun.2 savedRun.1.savePath).1._error.code
          = ErrorCode.kNoError
      ∧ (savedRun.1.listSavefiles cardEnv savedRun.2 (str "*")).1 = Routed.handled [str "SAVE1"]
      ∧ ∃ names : List CStr,
          (savedRun.1.listSavefiles cardEnv savedRun.2 (str "*")).1 = Routed.handled names
            ∧ names.Nodup :=
  ⟨by decide, by decide, by decide,
    (listSavefiles_exact cardEnv savedRun.1 savedRun.2 (str "*") (by decide)
      (by unfold CacheDistinct; decide) (by decide)).imp (fun names h => ⟨h.1, h.2.2⟩)⟩

/-- Claim C19. Let every number the random source returns for the range
`sizeof(chars) - 2 = 35` asked for lie in 0..35 (`hdraw`). Then every name
`makeSavefileName` returns is `SCUMMVM_` followed by four characters, each
one of `0` to `9` and `A` to `Z`: twelve characters, none of them the NUL
that ends `chars`. The name is returned at the first candidate that is not a
key of the cache, whatever the number of candidates the loop is given. -/
theorem makeSavefileName_shape {W : Type} (k : Env W) (fuel : Nat) (m : DCAltSaveFileManager)
    (hdraw : ∀ n, k.getRandomNumber n 35 ≤ 35) :
    (∀ name m1, m.makeSavefileName k fuel = some (name, m1) →
        (∃ c0 c1 c2 c3 : Nat, name = str "SCUMMVM_" ++ [c0, c1, c2, c3]
          ∧ isDigitOrUpper c0 ∧ isDigitOrUpper c1 ∧ isDigitOrUpper c2 ∧ isDigitOrUpper c3)
        ∧ name.length = 12 ∧ 0 ∉ name)
      ∧ (m._saveFileCache.find (m.candidate k) = none →
          m.makeSavefileName k (fuel + 1) = some (m.candidate k, { m with _rnd := m._rnd + 4 })) := by
  refine ⟨?_, ?_⟩
  · induction fuel generalizing m with
    | zero => intro name m1 h; simp [DCAltSaveFileManager.makeSavefileName] at h
    | succ fuel ih =>
      intro name m1 h
      unfold DCAltSaveFileManager.makeSavefileName at h
      dsimp only at h
      split_ifs at h with hc
      · exact ih _ name m1 h
      · simp only [Option.some.injEq, Prod.mk.injEq] at h
        obtain ⟨c0, c1, c2, c3, hn, h0, h1, h2, h3⟩ := candidate_shape k m hdraw
        rw [← h.1, hn]
        refine ⟨⟨c0, c1, c2, c3, rfl, h0, h1, h2, h3⟩, by simp [str], ?_⟩
        unfold isDigitOrUpper at h0 h1 h2 h3
        intro hmem
        rw [List.mem_append] at hmem
        rcases hmem with hmem | hmem
        · exact absurd hmem (by decide)
        · simp only [List.mem_cons, List.mem_singleton, List.not_mem_nil, or_false] at hmem
          omega
  · intro hnone
    unfold DCAltSaveFileManager.makeSavefileName
    dsimp only
    rw [hnone]
    rfl

/-- Witness of `makeSavefileName_shape`: the first name an unused manager
draws, with a random source that counts up, is `SCUMMVM_0123`. -/
theorem makeSavefileName_shape_witness :
    (∀ n, cardEnv.getRandomNumber n 35 ≤ 35)
      ∧ freshManager.makeSavefileName cardEnv 1
        = some (str "SCUMMVM_0123", { freshManager with _rnd := 4 })
      ∧ (str "SCUMMVM_0123").length = 12 ∧ 0 ∉ str "SCUMMVM_0123" :=
  ⟨fun n => Nat.le_of_lt_succ (Nat.mod_lt n (by decide)),
    (makeSavefileName_shape cardEnv 0 freshManager
      (fun n => Nat.le_of_lt_succ (Nat.mod_lt n (by decide)))).2 (by decide),
    ((makeSavefileName_shape cardEnv 1 freshManager
      (fun n => Nat.le_of_lt_succ (Nat.mod_lt n (by decide)))).1 (str "SCUMMVM_0123")
      { freshManager with _rnd := 4 } (by decide)).2⟩

/-- Claim C20. For a long name without a NUL byte and a sequence of writes
the stream accepts without error, the payload the destructor hands to
`vmu_pkg_build` is the four bytes of `4 + len(long name) + 1`, low byte
first, then the long name, a NUL byte and the bytes written; its length is
the `data_len` of the package. The 32-bit value read from its first four
bytes is `4 + len(long name) + 1`, and the payload from that offset on is
exactly the bytes written. `hsub` and `hint` say that the buffer the
constructor allocates holds the sub-header and that the free bytes fit an
`int`, so that what the constructor and the writes store lies inside the
buffer; `h32` says the payload fits the 32-bit field. -/
theorem payload_layout {W : Type} (k : Env W) (s : Sys W) (dev : Option Nat)
    (short long : CStr) (existing : Int) (ops : List StreamOp)
    (hnul : 0 ∉ long)
    (hsub : (4 + long.length + 1 : Int) ≤ k.vmufs_free_blocks s.world dev * 512 + existing - 640)
    (hint : k.vmufs_free_blocks s.world dev * 512 + existing < 2 ^ 31)
    (hw : ∀ o ∈ ops, o.isWrite = true)
    (herr : ((VMUSaveFileWriteStream.new k s dev short long existing).1.run k ops).err = false)
    (h32 : long.length + 5 + (written ops).length < 2 ^ 32) :
    (((VMUSaveFileWriteStream.new k s dev short long existing).1.run k ops).build k).1.data
        = le32 (4 + long.length + 1) ++ long ++ [0] ++ written ops
      ∧ (((VMUSaveFileWriteStream.new k s dev short long existing).1.run k ops).build k).1.data_len
        = ((((VMUSaveFileWriteStream.new k s dev short long existing).1.run k ops).build
            k).1.data.length : Int)
      ∧ rd32 (((VMUSaveFileWriteStream.new k s dev short long existing).1.run k ops).build
          k).1.data 0 = 4 + long.length + 1
      ∧ ((((VMUSaveFileWriteStream.new k s dev short long existing).1.run k ops).build
          k).1.data).drop (4 + long.length + 1) = written ops := by
  have hL : long.length + 5 < 2 ^ 32 := by omega
  obtain ⟨n1, n2, n3, -⟩ := new_fields k s dev short long existing hL
  have hrw := run_written k ops _ n1 hw herr
  have hp0 : (VMUSaveFileWriteStream.new k s dev short long existing).1.pos = 0 := rfl
  rw [hp0, Nat.zero_add, n2] at hrw
  obtain ⟨⟨-, -, -, x4, -⟩, -⟩ :=
    run_extends k ops (VMUSaveFileWriteStream.new k s dev short long existing).1 n1
  have hh := run_head k s dev short long existing ops hL
  rw [c_str_eq_self long hnul] at hh
  generalize (VMUSaveFileWriteStream.new k s dev short long existing).1.run k ops = f
    at hrw x4 hh herr
  generalize (VMUSaveFileWriteStream.new k s dev short long existing).1 = f0 at n1 n2 n3 x4 hrw
  have hpos : f._stream._pos = (written ops).length := hrw.1
  have hdl : f._pkg.data_len + (f._stream._pos : Int)
      = ((long.length + 5 + (written ops).length : Nat) : Int) := by
    rw [x4, n3, hpos]; push_cast; ring
  have hsave : readMem f._data (long.length + 5) (written ops).length = written ops := by
    have := hrw.2
    simpa [readMem] using this
  have hdata : (f.build k).1.data = le32 (4 + long.length + 1) ++ long ++ [0] ++ written ops := by
    unfold VMUSaveFileWriteStream.build
    dsimp only
    rw [hdl, Int.toNat_ofNat, readMem_add]
    have h5 : long.length + 5 = 4 + (long.length + 1) := by omega
    have h6 : 4 + long.length + 1 = long.length + 5 := by omega
    rw [Nat.zero_add, hsave, h5, hh, h6]
    simp
  have hlen : (le32 (4 + long.length + 1) ++ long ++ [0] ++ written ops).length
      = long.length + 5 + (written ops).length := by
    simp [le32_length]; omega
  refine ⟨hdata, ?_, ?_, ?_⟩
  · rw [hdata, hlen]
    unfold VMUSaveFileWriteStream.build
    dsimp only
    exact hdl
  · rw [hdata]
    rw [List.append_assoc, List.append_assoc, rd32_le32]
    exact Nat.mod_eq_of_lt (by omega)
  · rw [hdata]
    exact List.drop_left' (by simp [le32_length]; omega)

/-- Witness of `payload_layout`: on the card with ten free blocks the name
`SAVE1` and the bytes 1, 2, 3 give the payload 10, 0, 0, 0, `SAVE1`, 0, 1, 2,
3. -/
theorem payload_layout_witness :
    0 ∉ str "SAVE1"
      ∧ ((demoStream.run cardEnv [StreamOp.write [1, 2, 3]]).build cardEnv).1.data
        = [10, 0, 0, 0] ++ str "SAVE1" ++ [0] ++ [1, 2, 3] :=
  ⟨by decide,
    (payload_layout cardEnv card10 (some 0) (str "SCUMMVM_0123") (str "SAVE1") 0
      [StreamOp.write [1, 2, 3]] (by decide) (by decide) (by decide) (by decide) (by decide)
      (by decide)).1⟩

/-! ## Lemmas on paths -/

theorem charAt_lt_length (s : CStr) (i : Nat) (h : charAt s i ≠ 0) : i < (c_str s).length := by
  unfold charAt at h
  by_contra hn
  rw [List.getD_eq_default _ _ (by omega)] at h
  exact h rfl

theorem c_str_no_nul (p : CStr) : 0 ∉ c_str p := by
  intro h
  unfold c_str at h
  have := List.mem_takeWhile_imp h
  simp at this

theorem charAt_drop (p : CStr) (n i : Nat) : charAt ((c_str p).drop n) i = charAt p (n + i) := by
  have h0 : 0 ∉ (c_str p).drop n := fun h => c_str_no_nul p (List.mem_of_mem_drop h)
  unfold charAt
  rw [c_str_eq_self _ h0]
  simp only [List.getD_eq_getElem?_getD, List.getElem?_drop]

theorem port_letter (c : Nat) :
    (¬ (c ||| 32 < 97 ∨ c ||| 32 > 100)) ↔ ((65 ≤ c ∧ c ≤ 68) ∨ (97 ≤ c ∧ c ≤ 100)) := by
  constructor
  · intro h
    have h1 : c ||| 32 < 2 ^ 7 := by omega
    have h2 : c < 2 ^ 7 := by
      apply Nat.lt_pow_two_of_testBit
      intro i hi
      have h3 : (c ||| 32).testBit i = false :=
        Nat.testBit_lt_two_pow (lt_of_lt_of_le h1 (Nat.pow_le_pow_right (by decide) hi))
      rw [Nat.testBit_or] at h3
      exact (Bool.or_eq_false_iff.mp h3).1
    have h4 : c < 128 := h2
    interval_cases c <;> first | omega | exact absurd h (by decide)
  · rintro (⟨h1, h2⟩ | ⟨h1, h2⟩) <;> interval_cases c <;> decide

theorem port_lower (c : Nat) (h : (65 ≤ c ∧ c ≤ 68) ∨ (97 ≤ c ∧ c ≤ 100)) :
    c ||| 32 = tolower c := by
  rcases h with ⟨h1, h2⟩ | ⟨h1, h2⟩ <;> interval_cases c <;> decide

theorem vmu_path_to_addr_none {W : Type} (k : Env W) (m : DCAltSaveFileManager) (s : Sys W)
    (p : CStr) (h : vmu_path_to_addr k s ((c_str p).drop 4) = (none, s)) :
    (m.assureCached k s p).1._error.code = ErrorCode.kPathDoesNotExist
      ∧ (m.assureCached k s p).2 = s
      ∧ (m.fingerprint k s p).1 = [] ∧ (m.fingerprint k s p).2.2 = s := by
  have hf : ∀ m0 : DCAltSaveFileManager, m0.fingerprint k s p
      = ([], m0.setError ErrorCode.kPathDoesNotExist (str "Invalid VMU path " ++ p), s) := by
    intro m0
    unfold DCAltSaveFileManager.fingerprint
    simp only [h, if_true]
  refine ⟨?_, ?_, by rw [hf], by rw [hf]⟩
  · unfold DCAltSaveFileManager.assureCached
    simp only [hf, h, if_true]
    split_ifs <;> rfl
  · unfold DCAltSaveFileManager.assureCached
    simp only [hf, h, if_true]
    split_ifs <;> rfl

/-! ## Lemmas on packages, rescans, removal and the close -/

theorem stored_of_valid (p : vmu_pkg) (max : Nat) (h : p.Valid max) : p.stored = p := by
  obtain ⟨h1, h2, h3, -, -, -, -, -, -, h10, h11, h12, -, -, -, h16⟩ := h
  obtain ⟨ds, dl, ai, ic, an, ec, n, pal, idata, edata, data⟩ := p
  simp only at h1 h2 h3 h10 h11 h12 h16
  simp only [vmu_pkg.stored, fixLen_exact _ _ _ h1, fixLen_exact _ _ _ h2, fixLen_exact _ _ _ h3,
    fixLen_exact _ _ _ h10, fixLen_exact _ _ _ h11, fixLen_exact _ _ _ h12,
    fixLen_exact _ _ _ h16]

theorem scan_eq {W : Type} (k : Env W) (dev : Option Nat) (names : List CStr) :
    ∀ r : SaveFileCache × Sys W, (DCAltSaveFileManager.scan k dev names r).1
      = (scannedRecords k r.2.world dev names).foldl (fun c v => c.set v.getLongFilename v) r.1 := by
  induction names with
  | nil => intro r; rfl
  | cons n names ih =>
    intro r
    unfold DCAltSaveFileManager.scan scannedRecords
    by_cases h : strncmpEq (str "SCUMMVM_") n 8 = true
    · have hf : List.filter (fun n => strncmpEq (str "SCUMMVM_") n 8) (n :: names)
          = n :: List.filter (fun n => strncmpEq (str "SCUMMVM_") n 8) names := by
        rw [List.filter_cons]; simp only [h, if_true]
      rw [if_pos h, hf, List.map_cons, List.foldl_cons]
      dsimp only
      rw [ih]
      rfl
    · have hf : List.filter (fun n => strncmpEq (str "SCUMMVM_") n 8) (n :: names)
          = List.filter (fun n => strncmpEq (str "SCUMMVM_") n 8) names := by
        rw [List.filter_cons]; simp [h]
      rw [if_neg h, hf, ih]
      rfl

theorem set_mem (c : SaveFileCache) (key : CStr) (v : VMUSaveFile) :
    ∀ b ∈ c.set key v, b ∈ c ∨ (b.2 = v ∧ ((∃ b0 ∈ c, b0.1 = b.1) ∨ b.1 = key)) := by
  induction c with
  | nil =>
    intro b hb
    simp only [SaveFileCache.set, List.mem_singleton] at hb
    right; rw [hb]; exact ⟨rfl, Or.inr rfl⟩
  | cons e c ih =>
    intro b hb
    unfold SaveFileCache.set at hb
    split_ifs at hb with h
    · rcases List.mem_cons.mp hb with hb | hb
      · right; rw [hb]; exact ⟨rfl, Or.inl ⟨e, List.mem_cons_self _ _, rfl⟩⟩
      · left; exact List.mem_cons_of_mem _ hb
    · rcases List.mem_cons.mp hb with hb | hb
      · left; rw [hb]; exact List.mem_cons_self _ _
      · rcases ih b hb with h1 | ⟨h1, h2⟩
        · left; exact List.mem_cons_of_mem _ h1
        · right
          refine ⟨h1, ?_⟩
          rcases h2 with ⟨b0, hb0, hk⟩ | hk
          · exact Or.inl ⟨b0, List.mem_cons_of_mem _ hb0, hk⟩
          · exact Or.inr hk

theorem foldl_set_mem (recs : List VMUSaveFile) :
    ∀ (c : SaveFileCache) (b : CStr × VMUSaveFile),
      b ∈ recs.foldl (fun c v => c.set v.getLongFilename v) c →
      ((∃ b0 ∈ c, b0.1 = b.1) ∨ ∃ v ∈ recs, b.1 = v.getLongFilename)
        ∧ ((∃ b0 ∈ c, b0.2 = b.2) ∨ b.2 ∈ recs) := by
  induction recs with
  | nil => intro c b hb; exact ⟨Or.inl ⟨b, hb, rfl⟩, Or.inl ⟨b, hb, rfl⟩⟩
  | cons v recs ih =>
    intro c b hb
    rw [List.foldl_cons] at hb
    obtain ⟨h1, h2⟩ := ih _ b hb
    refine ⟨?_, ?_⟩
    · rcases h1 with ⟨b0, hb0, hk⟩ | ⟨v2, hv2, hk⟩
      · rcases set_mem c _ v b0 hb0 with h | ⟨-, ⟨b1, hb1, hk1⟩ | hk1⟩
        · exact Or.inl ⟨b0, h, hk⟩
        · exact Or.inl ⟨b1, hb1, hk1.trans hk⟩
        · exact Or.inr ⟨v, List.mem_cons_self _ _, by rw [← hk, hk1]⟩
      · exact Or.inr ⟨v2, List.mem_cons_of_mem _ hv2, hk⟩
    · rcases h2 with ⟨b0, hb0, hk⟩ | h
      · rcases set_mem c _ v b0 hb0 with h | ⟨h, -⟩
        · exact Or.inl ⟨b0, h, hk⟩
        · exact Or.inr (by rw [← hk, h]; exact List.mem_cons_self _ _)
      · exact Or.inr (List.mem_cons_of_mem _ h)

theorem find_set_isSome (c : SaveFileCache) (key Y : CStr) (v : VMUSaveFile)
    (h : (c.find Y).isSome = true) : ((c.set key v).find Y).isSome = true := by
  induction c with
  | nil => simp [SaveFileCache.find] at h
  | cons e c ih =>
    unfold SaveFileCache.set
    unfold SaveFileCache.find at h ih ⊢
    rw [List.find?_cons] at h
    split_ifs with hk
    · rw [List.find?_cons]
      cases hy : equalsIgnoreCase e.1 Y with
      | true => rfl
      | false => simp only [hy] at h ⊢; exact h
    · rw [List.find?_cons]
      cases hy : equalsIgnoreCase e.1 Y with
      | true => rfl
      | false => simp only [hy] at h ⊢; exact ih h

theorem foldl_set_find (recs : List VMUSaveFile) :
    ∀ (c : SaveFileCache) (Y : CStr),
      ((c.find Y).isSome = true ∨ ∃ v ∈ recs, v.getLongFilename = Y) →
      ((recs.foldl (fun c v => c.set v.getLongFilename v) c).find Y).isSome = true := by
  induction recs with
  | nil =>
    intro c Y h
    rcases h with h | ⟨v, hv, -⟩
    · exact h
    · cases hv
  | cons v recs ih =>
    intro c Y h
    rw [List.foldl_cons]
    apply ih
    rcases h with h | ⟨v2, hv2, hk⟩
    · exact Or.inl (find_set_isSome c _ Y v h)
    · rcases List.mem_cons.mp hv2 with h2 | h2
      · left
        rw [find_set c v.getLongFilename Y v (by rw [← hk, h2])]
        rfl
      · exact Or.inr ⟨v2, h2, hk⟩

theorem set_of_find_none (c : SaveFileCache) (key : CStr) (v : VMUSaveFile)
    (h : c.find key = none) : c.set key v = c ++ [(key, v)] := by
  induction c with
  | nil => rfl
  | cons e c ih =>
    have h1 := (find_none_iff _ _).mp h
    have h2 : equalsIgnoreCase e.1 key = false := h1 e (List.mem_cons_self _ _)
    unfold SaveFileCache.set
    rw [if_neg (by rw [h2]; simp), ih ((find_none_iff _ _).mpr
      (fun b hb => h1 b (List.mem_cons_of_mem _ hb)))]
    rfl

theorem foldl_set_distinct (recs : List VMUSaveFile) :
    ∀ c : SaveFileCache,
      (recs.map (fun v => v.getLongFilename)).Pairwise (fun a b => equalsIgnoreCase a b = false) →
      (∀ v ∈ recs, c.find v.getLongFilename = none) →
      recs.foldl (fun c v => c.set v.getLongFilename v) c
        = c ++ recs.map (fun v => (v.getLongFilename, v)) := by
  induction recs with
  | nil => intro c _ _; simp
  | cons v recs ih =>
    intro c hp hc
    rw [List.map_cons, List.pairwise_cons] at hp
    rw [List.foldl_cons, set_of_find_none c _ v (hc v (List.mem_cons_self _ _)),
      ih _ hp.2, List.map_cons, List.append_assoc]
    · rfl
    · intro v2 hv2
      rw [find_none_iff]
      intro b hb
      rcases List.mem_append.mp hb with hb | hb
      · exact (find_none_iff _ _).mp (hc v2 (List.mem_cons_of_mem _ hv2)) b hb
      · rw [List.mem_singleton.mp hb]
        exact hp.1 _ (List.mem_map_of_mem _ hv2)

theorem erase_find_other (c : SaveFileCache) (X Y : CStr) (h : equalsIgnoreCase Y X = false) :
    (c.erase X).find Y = c.find Y := by
  induction c with
  | nil => rfl
  | cons e c ih =>
    unfold SaveFileCache.erase
    split_ifs with hx
    · have hy : equalsIgnoreCase e.1 Y = false := by
        cases hy : equalsIgnoreCase e.1 Y with
        | false => rfl
        | true =>
          have h1 := (equalsIgnoreCase_iff _ _).mp hx
          have h2 := (equalsIgnoreCase_iff _ _).mp hy
          have h3 := (equalsIgnoreCase_iff Y X).mpr (h2.symm.trans h1)
          rw [h] at h3
          exact absurd h3 (by simp)
      unfold SaveFileCache.find
      rw [List.find?_cons]
      simp only [hy]
    · unfold SaveFileCache.find at ih ⊢
      rw [List.find?_cons, List.find?_cons, ih]

/-- The device calls of `removeSavefile` when it finds the name. -/
theorem removeSavefile_calls {W : Type} (k : Env W) (m : DCAltSaveFileManager) (s : Sys W)
    (X : CStr) (e : CStr × VMUSaveFile) (hv : m.onVmu = true)
    (he : (m.assureCached k s m.savePath).1._error.code = ErrorCode.kNoError)
    (hx : (m.assureCached k s m.savePath).1._saveFileCache.find X = some e) :
    ∃ cs1 cs2 : List Call,
      (m.removeSavefile k s X).2.2.calls
          = s.calls ++ cs1
            ++ [Call.vmufs_delete (addrOf k s.world ((c_str m.savePath).drop 4))
                (c_str e.2.getShortFilename)] ++ cs2
        ∧ (∀ c ∈ cs1, c.isMutation = false) ∧ ∀ c ∈ cs2, c.isMutation = false := by
  obtain ⟨w1, w2, -, -⟩ := assureCached_frame k m s m.savePath
  obtain ⟨cs, hc, hm⟩ := assureCached_calls k m s m.savePath
  unfold DCAltSaveFileManager.removeSavefile
  simp only [hv, Bool.not_true, Bool.false_eq_true, if_false, he, ne_eq, not_true_eq_false, hx]
  generalize m.assureCached k s m.savePath = r at w1 w2 hc
  obtain ⟨cs2, ac, am⟩ := vmu_path_to_addr_calls k r.2 ((c_str m.savePath).drop 4)
    (fun c => c.isMutation = false) (fun _ _ => rfl)
  have af := vmu_path_to_addr_fst k r.2 ((c_str m.savePath).drop 4)
  rw [w1] at af
  generalize vmu_path_to_addr k r.2 ((c_str m.savePath).drop 4) = a at ac af
  obtain ⟨cs3, fc, fm⟩ := fingerprint_calls k
    ({ r.1 with _saveFileCache := r.1._saveFileCache.erase X } : DCAltSaveFileManager)
    ({ world := (k.vmufs_delete a.2.world a.1 (c_str e.2.getShortFilename)).2,
       calls := a.2.calls ++ [Call.vmufs_delete a.1 (c_str e.2.getShortFilename)] } : Sys W)
    r.1.savePath
  refine ⟨cs ++ cs2, cs3, ?_, ?_, fm⟩
  · rw [fc, ac, hc, af]
    simp only [List.append_assoc]
  · intro c hcm
    rcases List.mem_append.mp hcm with h | h
    · exact hm c h
    · exact am c h

theorem run_names {W : Type} (k : Env W) (ops : List StreamOp) :
    ∀ f : VMUSaveFileWriteStream, (f.run k ops)._shortFilename = f._shortFilename
      ∧ (f.run k ops)._longFilename = f._longFilename ∧ (f.run k ops)._dev = f._dev := by
  induction ops with
  | nil => intro f; exact ⟨rfl, rfl, rfl⟩
  | cons op ops ih =>
    intro f
    have hrun : f.run k (op :: ops) = (f.step k op).run k ops := rfl
    rw [hrun]
    obtain ⟨a, b, c⟩ := ih (f.step k op)
    rw [a, b, c]
    cases op <;> exact ⟨rfl, rfl, rfl⟩

/-- The device calls of the destructor: at most one call changes the device,
the write under the short name of the stream. -/
theorem close_calls {W : Type} (k : Env W) (f : VMUSaveFileWriteStream)
    (m : DCAltSaveFileManager) (s : Sys W) :
    ∃ cs : List Call, (f.close k m s).2.calls = s.calls ++ cs
      ∧ ∀ c ∈ cs, c.isMutation = true →
          ∃ buf, c = Call.vmufs_write f._dev (c_str f._shortFilename) buf := by
  unfold VMUSaveFileWriteStream.close
  dsimp only
  split_ifs with h1 h2
  · exact ⟨[], by simp, by simp⟩
  · exact ⟨[], by simp, by simp⟩
  · obtain ⟨cs, hc, hm⟩ := cacheNewSave_calls k m
      ({ world := (k.vmufs_write s.world f._dev (c_str f._shortFilename) (f.build k).2.2).2,
         calls := s.calls ++ [Call.vmufs_write f._dev (c_str f._shortFilename) (f.build k).2.2] }
        : Sys W)
      f._longFilename
      (VMUSaveFile.ofBuffer k (f.build k).2.2 (f.build k).2.2.length f._shortFilename)
    refine ⟨Call.vmufs_write f._dev (c_str f._shortFilename) (f.build k).2.2 :: cs, ?_, ?_⟩
    · rw [hc]; simp
    · intro c hcm hmut
      rcases List.mem_cons.mp hcm with h | h
      · exact ⟨_, h⟩
      · rw [hm c h] at hmut
        exact absurd hmut (by simp)

/-! ## The claims on parsing, rescans, the package, removal and paths -/

/-- Claim C21, the code at the failing input. The package `badFrame` has a
payload of six bytes whose offset field holds 100 and whose name `AB` is
followed by no NUL. `vmu_pkg_parse` accepts it, and `VMUSaveFile::init`
makes a record of it: the save area starts at offset 100 of a payload of 6,
the save size is -94, which the read stream takes as the unsigned 4294967202,
and the long name runs to the end of the payload. A rescan of a card that
holds this file reports no error and caches the record under `AB`. -/
theorem init_accepts_bad_frame :
    (vmu_pkg_parse badFrame cardEnv.uninit_pkg).1 = 0
      ∧ (VMUSaveFile.init cardEnv badFrame badFrame.length (str "SCUMMVM_0001"))._pkg.data
          = [100, 0, 0, 0, 65, 66]
      ∧ (VMUSaveFile.init cardEnv badFrame badFrame.length (str "SCUMMVM_0001"))._pkg.data_len = 6
      ∧ (VMUSaveFile.init cardEnv badFrame badFrame.length (str "SCUMMVM_0001"))._saveBuf = 100
      ∧ (VMUSaveFile.init cardEnv badFrame badFrame.length (str "SCUMMVM_0001"))._saveSize = -94
      ∧ toUInt32 (VMUSaveFile.init cardEnv badFrame badFrame.length (str "SCUMMVM_0001"))._saveSize
          = 4294967202
      ∧ (VMUSaveFile.init cardEnv badFrame badFrame.length (str "SCUMMVM_0001")).getLongFilename
          = str "AB"
      ∧ (freshManager.listSavefiles cardEnv cardWithBadFrame (str "*")).1
          = Routed.handled [str "AB"]
      ∧ (freshManager.listSavefiles cardEnv cardWithBadFrame (str "*")).2.1._error.code
          = ErrorCode.kNoError
      ∧ (freshManager.listSavefiles cardEnv cardWithBadFrame (str "*")).2.1._saveFileCache.map
          (fun e => (e.1, e.2._saveBuf, e.2._saveSize)) = [(str "AB", 100, -94)] :=
  ⟨by decide, by decide, by decide, by decide, by decide, by decide, by decide, by decide,
    by decide, by decide⟩

/-- Claim C22, the code at the failing input. A card holds the save `SAVE1`
under `SCUMMVM_0123` and a file of three bytes under `SCUMMVM_0001`, which
`vmu_pkg_parse` rejects. A rescan reports no error and caches two records:
one for the rejected file, under the empty name, and `SAVE1`. On a device on
which every `vmufs_read` fails, the rescan of the card that holds `SAVE1`
reports no error either and caches a record for the entry that could not be
read. -/
theorem unreadable_entry_is_cached :
    (vmu_pkg_parse [1, 2, 3] cardEnv.uninit_pkg).1 = -1
      ∧ cardWithJunk.world.files.map (fun e => e.1) = [str "SCUMMVM_0001", str "SCUMMVM_0123"]
      ∧ (freshManager.listSavefiles cardEnv cardWithJunk (str "*")).1
          = Routed.handled [[], str "SAVE1"]
      ∧ (freshManager.listSavefiles cardEnv cardWithJunk (str "*")).2.1._error.code
          = ErrorCode.kNoError
      ∧ cacheNames (freshManager.listSavefiles cardEnv cardWithJunk (str "*")).2.1
          = [([], str "SCUMMVM_0001"), (str "SAVE1", str "SCUMMVM_0123")]
      ∧ (∀ w dev name, (noReadEnv.vmufs_read w dev name).1 = -1)
      ∧ (freshManager.listSavefiles noReadEnv { world := cardWithSave1, calls := [] }
            (str "*")).2.1._error.code = ErrorCode.kNoError
      ∧ cacheNames (freshManager.listSavefiles noReadEnv { world := cardWithSave1, calls := [] }
            (str "*")).2.1 = [([], str "SCUMMVM_0123")] :=
  ⟨by decide, by decide, by decide, by decide, by decide, fun _ _ _ => rfl, by decide, by decide⟩

/-- Claim C23. Package round trip: for every package whose header fields,
icon data, eye-catch data and payload have the sizes the format gives them
(`hp`), `vmu_pkg_build` succeeds, and `vmu_pkg_parse` of the bytes it returns
succeeds and gives back every field of the package, the payload among them.
`VMUSaveFile::init`, given those bytes, holds that package. -/
theorem package_round_trip {W : Type} (k : Env W) (p u : vmu_pkg) (short : CStr)
    (hp : p.Valid k.max_record_size) :
    (vmu_pkg_build k.max_record_size p).1 = 0
      ∧ vmu_pkg_parse (vmu_pkg_build k.max_record_size p).2 u = (0, p)
      ∧ (VMUSaveFile.init k (vmu_pkg_build k.max_record_size p).2
          (vmu_pkg_build k.max_record_size p).2.length short)._pkg = p := by
  have hs := stored_of_valid p _ hp
  obtain ⟨-, -, -, h4, h5, h6, h7, h8, h9, -, -, -, h13, h14, h15, -⟩ := hp
  have hb := vmu_pkg_build_ok k.max_record_size p h8 h9 h13 h14
  have hpar : ∀ u0 : vmu_pkg, vmu_pkg_parse (vmu_pkg_build k.max_record_size p).2 u0 = (0, p) := by
    intro u0
    rw [vmu_pkg_parse_build k.max_record_size p u0 h4 h5 h6 h7 h8 h9 h13 h14 h15, hs]
  refine ⟨by rw [hb], hpar u, ?_⟩
  unfold VMUSaveFile.init
  simp only [Int.toNat_ofNat, List.take_length, hpar]

/-- Witness of `package_round_trip`: the package the stream for `SAVE1`
builds after the bytes 1, 2, 3 have been written. -/
theorem package_round_trip_witness :
    ((demoStream.run cardEnv [StreamOp.write [1, 2, 3]]).build cardEnv).1.Valid
        cardEnv.max_record_size
      ∧ vmu_pkg_parse (vmu_pkg_build cardEnv.max_record_size
          ((demoStream.run cardEnv [StreamOp.write [1, 2, 3]]).build cardEnv).1).2
          cardEnv.uninit_pkg
        = (0, ((demoStream.run cardEnv [StreamOp.write [1, 2, 3]]).build cardEnv).1) :=
  ⟨by unfold vmu_pkg.Valid; decide,
    (package_round_trip cardEnv ((demoStream.run cardEnv [StreamOp.write [1, 2, 3]]).build
      cardEnv).1 cardEnv.uninit_pkg [] (by unfold vmu_pkg.Valid; decide)).2.1⟩

/-- Claim C24. Let the digest `fingerprint` returns at the start of
`assureCached` differ from the stored one (`hmiss`), the device be
addressed (`hdev`) and its directory be read (`hdir`). Then the cache is
built from the empty map by inserting, in the order of the directory, the
record read from every entry whose name begins with `SCUMMVM_`, under the
long name stored in it; nothing else enters it. So every key is the long
name of such a record and every value is such a record, the long name of
every such record is found in the cache, and where no two of these long
names are equal up to case the cache holds exactly one entry for each
record, under its long name. Each record carries the name of the entry it
was read from as its short name, and the stored fingerprint is the digest
computed at the start. -/
theorem rescan_cache {W : Type} (k : Env W) (m : DCAltSaveFileManager) (s : Sys W)
    (p : CStr) (names : List CStr)
    (hmiss : (m.clearError.fingerprint k s p).1 ≠ m._fingerprint)
    (hdev : addrOf k s.world ((c_str p).drop 4) ≠ none)
    (hdir : k.opendir s.world (c_str p) = some names) :
    (m.assureCached k s p).1._saveFileCache
        = (scannedRecords k s.world (addrOf k s.world ((c_str p).drop 4)) names).foldl
            (fun (c : SaveFileCache) v => c.set v.getLongFilename v) []
      ∧ (∀ e ∈ (m.assureCached k s p).1._saveFileCache,
          (∃ v ∈ scannedRecords k s.world (addrOf k s.world ((c_str p).drop 4)) names,
              e.1 = v.getLongFilename)
            ∧ e.2 ∈ scannedRecords k s.world (addrOf k s.world ((c_str p).drop 4)) names)
      ∧ (∀ v ∈ scannedRecords k s.world (addrOf k s.world ((c_str p).drop 4)) names,
          ((m.assureCached k s p).1._saveFileCache.find v.getLongFilename).isSome = true)
      ∧ (((scannedRecords k s.world (addrOf k s.world ((c_str p).drop 4)) names).map
            (fun v => v.getLongFilename)).Pairwise (fun a b => equalsIgnoreCase a b = false) →
          (m.assureCached k s p).1._saveFileCache
            = (scannedRecords k s.world (addrOf k s.world ((c_str p).drop 4)) names).map
                (fun v => (v.getLongFilename, v)))
      ∧ (∀ v ∈ scannedRecords k s.world (addrOf k s.world ((c_str p).drop 4)) names,
          ∃ n ∈ names, strncmpEq (str "SCUMMVM_") n 8 = true ∧ v._shortFilename = c_str n
            ∧ v = (VMUSaveFile.read k s (addrOf k s.world ((c_str p).drop 4)) (c_str n)).1)
      ∧ (m.assureCached k s p).1._fingerprint = (m.clearError.fingerprint k s p).1 := by
  have hcache : (m.assureCached k s p).1._saveFileCache
        = (scannedRecords k s.world (addrOf k s.world ((c_str p).drop 4)) names).foldl
            (fun (c : SaveFileCache) v => c.set v.getLongFilename v) []
      ∧ (m.assureCached k s p).1._fingerprint = (m.clearError.fingerprint k s p).1 := by
    obtain ⟨-, f2, -, -, -⟩ := fingerprint_frame k m.clearError s p
    have fw := fingerprint_world k m.clearError s p
    have f2b : (m.clearError.fingerprint k s p).2.1._fingerprint = m._fingerprint := f2
    unfold DCAltSaveFileManager.assureCached
    dsimp only
    generalize m.clearError.fingerprint k s p = r at f2b fw hmiss
    have aw := vmu_path_to_addr_world k r.2.2 ((c_str p).drop 4)
    have af := vmu_path_to_addr_fst k r.2.2 ((c_str p).drop 4)
    rw [fw] at aw af
    generalize vmu_path_to_addr k r.2.2 ((c_str p).drop 4) = a at aw af
    have h1 : ¬ r.2.1._fingerprint = r.1 := by rw [f2b]; exact fun h => hmiss h.symm
    have h2 : ¬ a.1 = none := by rw [af]; exact hdev
    rw [if_neg h1, if_neg h2, aw, hdir]
    dsimp only
    rw [scan_eq]
    simp only [Sys.log, aw, af]
    exact ⟨trivial, trivial⟩
  refine ⟨hcache.1, ?_, ?_, ?_, ?_, hcache.2⟩
  · intro e he
    rw [hcache.1] at he
    obtain ⟨h1, h2⟩ := foldl_set_mem _ [] e he
    refine ⟨?_, ?_⟩
    · rcases h1 with ⟨b0, hb0, -⟩ | h
      · cases hb0
      · exact h
    · rcases h2 with ⟨b0, hb0, -⟩ | h
      · cases hb0
      · exact h
  · intro v hv
    rw [hcache.1]
    exact foldl_set_find _ [] _ (Or.inr ⟨v, hv, rfl⟩)
  · intro hp
    rw [hcache.1, foldl_set_distinct _ [] hp (fun _ _ => rfl)]
    rfl
  · intro v hv
    unfold scannedRecords at hv
    obtain ⟨n, hn, rfl⟩ := List.mem_map.mp hv
    obtain ⟨hn1, hn2⟩ := List.mem_filter.mp hn
    exact ⟨n, hn1, hn2, rfl, rfl⟩

/-- Witness of `rescan_cache`: an unused manager reconciles with the card
that holds `SAVE1` under `SCUMMVM_0123`. -/
theorem rescan_cache_witness :
    (freshManager.clearError.fingerprint cardEnv { world := cardWithSave1, calls := [] }
        (str "/vmu/a1")).1 ≠ freshManager._fingerprint
      ∧ cardEnv.opendir cardWithSave1 (c_str (str "/vmu/a1")) = some [str "SCUMMVM_0123"]
      ∧ (freshManager.assureCached cardEnv { world := cardWithSave1, calls := [] }
          (str "/vmu/a1")).1._saveFileCache
        = (scannedRecords cardEnv cardWithSave1
            (addrOf cardEnv cardWithSave1 ((c_str (str "/vmu/a1")).drop 4))
            [str "SCUMMVM_0123"]).map (fun v => (v.getLongFilename, v))
      ∧ cacheNames (freshManager.assureCached cardEnv { world := cardWithSave1, calls := [] }
          (str "/vmu/a1")).1 = [(str "SAVE1", str "SCUMMVM_0123")] :=
  ⟨by decide, by decide,
    (rescan_cache cardEnv freshManager { world := cardWithSave1, calls := [] } (str "/vmu/a1")
      [str "SCUMMVM_0123"] (by decide) (by decide) (by decide)).2.2.2.1 (by decide),
    by decide⟩

/-- Claim C25. On a device-backed path (`hv`) after a reconcile without
error (`he`), `openForSaving` returns a stream for every bound on the name
loop when the long name is a key of the cache: the stream constructed with
the short name, the long name and the size `_size` of the cached record, and
the manager as the reconcile left it. After any operations on that stream,
the only call of its close that changes the device is the write under the
short name of the cached record. When the long name is no key of the cache,
the stream is constructed with the name `makeSavefileName` returns, the long
name given and the size 0; none is returned only where the bound on the name
loop runs out. -/
theorem openForSaving_stream {W : Type} (k : Env W) (fuel : Nat) (m : DCAltSaveFileManager)
    (s : Sys W) (filename : CStr) (compress : Bool) (hv : m.onVmu = true)
    (he : (m.assureCached k s m.savePath).1._error.code = ErrorCode.kNoError) :
    (∀ e, (m.assureCached k s m.savePath).1._saveFileCache.find filename = some e →
        m.openForSaving k fuel s filename compress
            = some (Routed.handled (some (VMUSaveFileWriteStream.new k
                  (vmu_path_to_addr k (m.assureCached k s m.savePath).2
                    ((c_str m.savePath).drop 4)).2
                  (addrOf k s.world ((c_str m.savePath).drop 4))
                  e.2._shortFilename e.2.getLongFilename e.2._size).1),
                (m.assureCached k s m.savePath).1,
                (VMUSaveFileWriteStream.new k
                  (vmu_path_to_addr k (m.assureCached k s m.savePath).2
                    ((c_str m.savePath).drop 4)).2
                  (addrOf k s.world ((c_str m.savePath).drop 4))
                  e.2._shortFilename e.2.getLongFilename e.2._size).2)
          ∧ ∀ (ops : List StreamOp) (m2 : DCAltSaveFileManager) (s2 : Sys W),
              ∃ cs : List Call,
                (((VMUSaveFileWriteStream.new k
                    (vmu_path_to_addr k (m.assureCached k s m.savePath).2
                      ((c_str m.savePath).drop 4)).2
                    (addrOf k s.world ((c_str m.savePath).drop 4))
                    e.2._shortFilename e.2.getLongFilename e.2._size).1.run k ops).close k m2
                    s2).2.calls = s2.calls ++ cs
                  ∧ ∀ c ∈ cs, c.isMutation = true →
                      ∃ buf, c = Call.vmufs_write (addrOf k s.world ((c_str m.savePath).drop 4))
                        (c_str e.2._shortFilename) buf)
      ∧ ((m.assureCached k s m.savePath).1._saveFileCache.find filename = none →
          (∀ n, (m.assureCached k s m.savePath).1.makeSavefileName k fuel = some n →
            m.openForSaving k fuel s filename compress
              = some (Routed.handled (some (VMUSaveFileWriteStream.new k
                    (vmu_path_to_addr k (m.assureCached k s m.savePath).2
                      ((c_str m.savePath).drop 4)).2
                    (addrOf k s.world ((c_str m.savePath).drop 4)) n.1 filename 0).1),
                  n.2,
                  (VMUSaveFileWriteStream.new k
                    (vmu_path_to_addr k (m.assureCached k s m.savePath).2
                      ((c_str m.savePath).drop 4)).2
                    (addrOf k s.world ((c_str m.savePath).drop 4)) n.1 filename 0).2))
            ∧ ((m.assureCached k s m.savePath).1.makeSavefileName k fuel = none →
                m.openForSaving k fuel s filename compress = none)) := by
  have hw := (assureCached_frame k m s m.savePath).1
  have hnv : ¬ ((!m.onVmu) = true) := by simp [hv]
  have hne : ¬ ((m.assureCached k s m.savePath).1._error.code ≠ ErrorCode.kNoError) := by
    simp [he]
  have haf := vmu_path_to_addr_fst k (m.assureCached k s m.savePath).2 ((c_str m.savePath).drop 4)
  rw [hw] at haf
  refine ⟨?_, ?_⟩
  · intro e hx
    refine ⟨?_, ?_⟩
    · unfold DCAltSaveFileManager.openForSaving
      rw [if_neg hnv]
      dsimp only
      rw [if_neg hne, hx]
      simp only [VMUSaveFile.createWriteStream, VMUSaveFile.getShortFilename, haf]
    · intro ops m2 s2
      obtain ⟨cs, hc, hm⟩ := close_calls k ((VMUSaveFileWriteStream.new k
        (vmu_path_to_addr k (m.assureCached k s m.savePath).2 ((c_str m.savePath).drop 4)).2
        (addrOf k s.world ((c_str m.savePath).drop 4))
        e.2._shortFilename e.2.getLongFilename e.2._size).1.run k ops) m2 s2
      obtain ⟨n1, -, n3⟩ := run_names k ops (VMUSaveFileWriteStream.new k
        (vmu_path_to_addr k (m.assureCached k s m.savePath).2 ((c_str m.savePath).drop 4)).2
        (addrOf k s.world ((c_str m.savePath).drop 4))
        e.2._shortFilename e.2.getLongFilename e.2._size).1
      rw [n1, n3] at hm
      exact ⟨cs, hc, hm⟩
  · intro hx
    refine ⟨?_, ?_⟩
    · intro n hn
      unfold DCAltSaveFileManager.openForSaving
      rw [if_neg hnv]
      dsimp only
      rw [if_neg hne, hx]
      simp only [hn, haf]
    · intro hn
      unfold DCAltSaveFileManager.openForSaving
      rw [if_neg hnv]
      dsimp only
      rw [if_neg hne, hx]
      simp only [hn]

/-- Witness of `openForSaving_stream`: the manager that has saved `SAVE1`
opens `SAVE1` again, writes the bytes 4, 5 and closes: the card still holds
one file, `SCUMMVM_0123`. -/
theorem openForSaving_stream_witness :
    savedRun.1.onVmu = true
      ∧ (savedRun.1.assureCached cardEnv savedRun.2 savedRun.1.savePath).1._error.code
          = ErrorCode.kNoError
      ∧ (∃ sf m1 s1, savedRun.1.openForSaving cardEnv 0 savedRun.2 (str "SAVE1") true
            = some (Routed.handled (some sf), m1, s1)
          ∧ sf._shortFilename = str "SCUMMVM_0123" ∧ sf._longFilename = str "SAVE1")
      ∧ (saveBytes cardEnv 5 savedRun.1 savedRun.2 (str "SAVE1") [4, 5]).map
          (fun r => r.2.world.files.map (fun e => e.1)) = some [str "SCUMMVM_0123"] :=
  ⟨by decide, by decide,
    ⟨_, _, _,
      ((openForSaving_stream cardEnv 0 savedRun.1 savedRun.2 (str "SAVE1") true (by decide)
        (by decide)).1 (str "SAVE1", VMUSaveFile.init cardEnv
          ((demoStream.run cardEnv [StreamOp.write [1, 2, 3]]).build cardEnv).2.2 653
          (str "SCUMMVM_0123")) (by decide)).1, rfl, by decide⟩,
    by decide⟩

/-- Claim C26. The function `vmu_eyecatch_size` of saves.cpp returns a value
for every tag: 0 for `VMUPKG_EC_NONE`, 72 * 56 * 2 = 8064 for
`VMUPKG_EC_16BIT`, 512 + 72 * 56 = 4544 for `VMUPKG_EC_256COL`,
32 + 72 * 56 / 2 = 2048 for `VMUPKG_EC_16COL` and -1 for every other tag;
the copy in dcalt.cpp returns the same value for every tag. -/
theorem vmu_eyecatch_size_table (eyecatch_type : Int) :
    vmu_eyecatch_size eyecatch_type
        = (if eyecatch_type = VMUPKG_EC_NONE then 0
           else if eyecatch_type = VMUPKG_EC_16BIT then 8064
           else if eyecatch_type = VMUPKG_EC_256COL then 4544
           else if eyecatch_type = VMUPKG_EC_16COL then 2048
           else -1)
      ∧ dcalt.vmu_eyecatch_size eyecatch_type = vmu_eyecatch_size eyecatch_type
      ∧ (VMUPKG_EC_NONE, VMUPKG_EC_16BIT, VMUPKG_EC_256COL, VMUPKG_EC_16COL) = (0, 1, 2, 3) := by
  refine ⟨?_, rfl, rfl⟩
  unfold vmu_eyecatch_size
  split_ifs <;> rfl

/-- Claim C27. On a device-backed path (`hv`), let `removeSavefile(X)` find
the entry `e` for `X` in the cache after a reconcile without error (`he`,
`hx`). Then it returns `true` exactly when `vmufs_delete`, called for the
short name of the record, returns 0. Whatever the delete returns, the cache
is the reconciled cache with that entry erased: the lookup of `X` fails (`hd`
is the invariant that no two keys are equal up to case), the lookup of every
name that differs from `X` by more than case gives what it gave before, and
the stored fingerprint is the digest `fingerprint` computes for the device
as the delete left it. The delete is the only call in the log that changes
the device. -/
theorem removeSavefile_effect {W : Type} (k : Env W) (m : DCAltSaveFileManager) (s : Sys W)
    (X : CStr) (e : CStr × VMUSaveFile) (hv : m.onVmu = true)
    (hd : CacheDistinct m._saveFileCache)
    (he : (m.assureCached k s m.savePath).1._error.code = ErrorCode.kNoError)
    (hx : (m.assureCached k s m.savePath).1._saveFileCache.find X = some e) :
    ((m.removeSavefile k s X).1 = Routed.handled true ↔
        (k.vmufs_delete s.world (addrOf k s.world ((c_str m.savePath).drop 4))
          (c_str e.2.getShortFilename)).1 = 0)
      ∧ ((m.removeSavefile k s X).1 = Routed.handled true
          ∨ (m.removeSavefile k s X).1 = Routed.handled false)
      ∧ (m.removeSavefile k s X).2.2.world
          = (k.vmufs_delete s.world (addrOf k s.world ((c_str m.savePath).drop 4))
              (c_str e.2.getShortFilename)).2
      ∧ (m.removeSavefile k s X).2.1._saveFileCache
          = (m.assureCached k s m.savePath).1._saveFileCache.erase X
      ∧ (m.removeSavefile k s X).2.1._saveFileCache.find X = none
      ∧ (∀ Y, equalsIgnoreCase Y X = false →
          (m.removeSavefile k s X).2.1._saveFileCache.find Y
            = (m.assureCached k s m.savePath).1._saveFileCache.find Y)
      ∧ (m.removeSavefile k s X).2.1._fingerprint
          = (m.fingerprint k (m.removeSavefile k s X).2.2 m.savePath).1
      ∧ (m.removeSavefile k s X).2.2.calls.filter Call.isMutation
          = s.calls.filter Call.isMutation
            ++ [Call.vmufs_delete (addrOf k s.world ((c_str m.savePath).drop 4))
                (c_str e.2.getShortFilename)] := by
  obtain ⟨c1, c2, c3, e2, hx2, c4, c5⟩ :=
    removeSavefile_found k m s X hv he (by rw [hx]; rfl)
  rw [hx] at hx2
  obtain rfl : e = e2 := Option.some.inj hx2
  have hdist := assureCached_distinct k m s m.savePath hd
  obtain ⟨cs1, cs2, hc, hm1, hm2⟩ := removeSavefile_calls k m s X e hv he hx
  refine ⟨?_, ?_, c5, c1, ?_, ?_, ?_, ?_⟩
  · rw [c4]
    constructor
    · intro h
      have h2 := Routed.handled.inj h
      exact beq_iff_eq.mp h2
    · intro h
      rw [h]; rfl
  · rw [c4]
    cases (k.vmufs_delete s.world (addrOf k s.world ((c_str m.savePath).drop 4))
      (c_str e.2.getShortFilename)).1 == 0
    · right; rfl
    · left; rfl
  · rw [c1]; exact erase_find _ X hdist
  · intro Y hY
    rw [c1]; exact erase_find_other _ X Y hY
  · rw [c3, fingerprint_fst]
  · rw [hc]
    have f1 : cs1.filter Call.isMutation = [] := List.filter_eq_nil_iff.mpr
      (fun c hcm => by rw [hm1 c hcm]; simp)
    have f2 : cs2.filter Call.isMutation = [] := List.filter_eq_nil_iff.mpr
      (fun c hcm => by rw [hm2 c hcm]; simp)
    simp only [List.filter_append, f1, f2, List.append_nil]
    rfl

/-- Witness of `removeSavefile_effect`: the manager that has saved `SAVE1`
removes it; the delete of `SCUMMVM_0123` succeeds and `true` is returned. -/
theorem removeSavefile_effect_witness :
    savedRun.1.onVmu = true
      ∧ (savedRun.1.assureCached cardEnv savedRun.2 savedRun.1.savePath).1._saveFileCache.find
          (str "SAVE1")
        = some (str "SAVE1", VMUSaveFile.init cardEnv
            ((demoStream.run cardEnv [StreamOp.write [1, 2, 3]]).build cardEnv).2.2 653
            (str "SCUMMVM_0123"))
      ∧ removedRun.1 = Routed.handled true
      ∧ removedRun.2.1._saveFileCache.find (str "SAVE1") = none :=
  ⟨by decide, by decide, by decide,
    (removeSavefile_effect cardEnv savedRun.1 savedRun.2 (str "SAVE1")
      (str "SAVE1", VMUSaveFile.init cardEnv
        ((demoStream.run cardEnv [StreamOp.write [1, 2, 3]]).build cardEnv).2.2 653
        (str "SCUMMVM_0123"))
      (by decide) (by unfold CacheDistinct; decide) (by decide) (by decide)).2.2.2.2.1⟩

/-- Claim C28, the code at the failing input. The constructors copy
`MAX(size, 32)` bytes of the name into `desc_long`: for every length the
count is at least 32 and at least the length, and it is at most 32 and at
most the length only for a name of exactly 32 bytes. For `SAVE1` it is 32:
the field of the save stream and of the config stream holds `SAVE1`, the
terminating NUL and what follows it in memory, not `SAVE1` padded with
spaces. For a name of 40 bytes it is 40, eight bytes more than the field
holds. -/
theorem desc_long_copies_max (size : Int) :
    (32 ≤ MAX size 32 ∧ size ≤ MAX size 32)
      ∧ ((MAX size 32 ≤ 32 ∧ MAX size 32 ≤ size) ↔ size = 32)
      ∧ MAX ((str "SAVE1").length : Int) 32 = 32
      ∧ MAX ((List.replicate 40 65).length : Int) 32 = 40
      ∧ (VMUSaveFileWriteStream.new cardEnv card10 (some 0) (str "SCUMMVM_0123") (str "SAVE1")
            0).1._pkg.desc_long = str "SAVE1" ++ [0] ++ List.replicate 26 32
      ∧ (VMUConfigFileWriteStream.new cardEnv card10 (some 0) (str "SAVE1") 0).1._pkg.desc_long
          = str "SAVE1" ++ [0] ++ List.replicate 26 32
      ∧ str "SAVE1" ++ [0] ++ List.replicate 26 32 ≠ fixLen 32 32 (str "SAVE1") := by
  refine ⟨?_, ?_, by decide, by decide, by decide, by decide, by decide⟩
  · unfold MAX; split_ifs <;> omega
  · unfold MAX; split_ifs <;> omega

/-- Claim C29. Let the save path `p` begin with `/vmu` (`hv`). When its
character at index 4 is `/`, the one at index 5 is one of `a` to `d` or `A`
to `D` and the one at index 6 is one of `0` to `5`, `vmu_path_to_addr`, given
the path from index 4 on, is the one call `maple_enum_dev(port, unit)` with
port the lowercase letter less `a` and unit the digit less `0`, and it is the
same for every path with these three characters. In every other case it
returns `NULL` without a device call, and `assureCached` leaves the error
`kPathDoesNotExist` and the device log as it was. Every index of the path
that `vmu_path_to_addr` reads is at most the length of the path, the index
of its terminator, and its result is the same for every string that has the
same characters at the indices read. -/
theorem vmu_path_addressing {W : Type} (k : Env W) (m : DCAltSaveFileManager) (s : Sys W)
    (p : CStr) (hv : strncmpEq p (str "/vmu") 4 = true) :
    ((charAt p 4 = 47
        ∧ ((65 ≤ charAt p 5 ∧ charAt p 5 ≤ 68) ∨ (97 ≤ charAt p 5 ∧ charAt p 5 ≤ 100))
        ∧ (48 ≤ charAt p 6 ∧ charAt p 6 ≤ 53)) →
        vmu_path_to_addr k s ((c_str p).drop 4)
            = (k.maple_enum_dev s.world (tolower (charAt p 5) - 97) (charAt p 6 - 48),
                s.log (Call.maple_enum_dev (tolower (charAt p 5) - 97) (charAt p 6 - 48)))
          ∧ ∀ p2 : CStr, charAt p2 4 = charAt p 4 → charAt p2 5 = charAt p 5 →
              charAt p2 6 = charAt p 6 →
              vmu_path_to_addr k s ((c_str p2).drop 4) = vmu_path_to_addr k s ((c_str p).drop 4))
      ∧ (¬ (charAt p 4 = 47
          ∧ ((65 ≤ charAt p 5 ∧ charAt p 5 ≤ 68) ∨ (97 ≤ charAt p 5 ∧ charAt p 5 ≤ 100))
          ∧ (48 ≤ charAt p 6 ∧ charAt p 6 ≤ 53)) →
        vmu_path_to_addr k s ((c_str p).drop 4) = (none, s)
          ∧ (m.assureCached k s p).1._error.code = ErrorCode.kPathDoesNotExist
          ∧ (m.assureCached k s p).2 = s)
      ∧ (∀ i ∈ vmu_path_to_addr_reads ((c_str p).drop 4), 4 + i ≤ strlen p)
      ∧ ∀ q2 : CStr,
          (∀ i ∈ vmu_path_to_addr_reads ((c_str p).drop 4),
            charAt q2 i = charAt ((c_str p).drop 4) i) →
          vmu_path_to_addr k s q2 = vmu_path_to_addr k s ((c_str p).drop 4) := by
  have hlen : 4 ≤ strlen p := by
    unfold strncmpEq at hv
    have h1 := congrArg List.length (beq_iff_eq.mp hv)
    have h2 : (c_str (str "/vmu")).length = 4 := by decide
    simp only [List.length_take, h2] at h1
    unfold strlen
    omega
  have hdep : ∀ p2 : CStr, charAt p2 4 = charAt p 4 → charAt p2 5 = charAt p 5 →
      charAt p2 6 = charAt p 6 →
      vmu_path_to_addr k s ((c_str p2).drop 4) = vmu_path_to_addr k s ((c_str p).drop 4) := by
    intro p2 h4 h5 h6
    unfold vmu_path_to_addr
    simp only [charAt_drop, Nat.reduceAdd, h4, h5, h6]
  refine ⟨?_, ?_, ?_, ?_⟩
  · rintro ⟨h4, h5, h6⟩
    refine ⟨?_, hdep⟩
    have hp := (port_letter (charAt p 5)).mpr h5
    unfold vmu_path_to_addr
    simp only [charAt_drop, Nat.reduceAdd]
    rw [if_neg (by rw [h4]; simp)]
    rw [if_neg hp, if_neg (by omega), port_lower _ h5]
  · intro hc
    have hnone : vmu_path_to_addr k s ((c_str p).drop 4) = (none, s) := by
      unfold vmu_path_to_addr
      simp only [charAt_drop, Nat.reduceAdd]
      by_cases h4 : charAt p 4 = 47
      · rw [if_neg (by rw [h4]; simp)]
        by_cases hp : charAt p 5 ||| 32 < 97 ∨ charAt p 5 ||| 32 > 100
        · rw [if_pos hp]
        · rw [if_neg hp]
          have h5 := (port_letter (charAt p 5)).mp hp
          have h6 : charAt p 6 < 48 ∨ charAt p 6 > 53 := by
            by_contra h6
            exact hc ⟨h4, h5, by omega⟩
          rw [if_pos h6]
      · rw [if_pos h4]
    obtain ⟨a, b, -, -⟩ := vmu_path_to_addr_none k m s p hnone
    exact ⟨hnone, a, b⟩
  · intro i hi
    unfold vmu_path_to_addr_reads at hi
    simp only [charAt_drop, Nat.reduceAdd] at hi
    split_ifs at hi with h1 h2
    · simp only [List.mem_singleton] at hi; omega
    · have h5 : 4 < (c_str p).length := charAt_lt_length p 4 (by omega)
      simp only [List.mem_cons, List.mem_singleton, List.not_mem_nil, or_false] at hi
      unfold strlen; omega
    · have h5 := (port_letter (charAt p 5)).mp h2
      have h6 : 5 < (c_str p).length := charAt_lt_length p 5 (by omega)
      simp only [List.mem_cons, List.mem_singleton, List.not_mem_nil, or_false] at hi
      unfold strlen; omega

  · intro q2 hr
    generalize (c_str p).drop 4 = q at hr
    unfold vmu_path_to_addr_reads at hr
    unfold vmu_path_to_addr
    by_cases h1 : charAt q 0 ≠ 47
    · rw [if_pos h1] at hr
      rw [hr 0 (by simp), if_pos h1, if_pos h1]
    · rw [if_neg h1] at hr
      dsimp only at hr
      by_cases h2 : charAt q 1 ||| 32 < 97 ∨ charAt q 1 ||| 32 > 100
      · rw [if_pos h2] at hr
        rw [hr 0 (by simp), hr 1 (by simp), if_neg h1, if_neg h1]
        dsimp only
        rw [if_pos h2, if_pos h2]
      · rw [if_neg h2] at hr
        rw [hr 0 (by simp), hr 1 (by simp), hr 2 (by simp)]

/-- Witness of `vmu_path_addressing`: the path `/vmu/a1` addresses port 0,
unit 1, and the path `/vmu` addresses no device. -/
theorem vmu_path_addressing_witness :
    strncmpEq (str "/vmu/a1") (str "/vmu") 4 = true
      ∧ vmu_path_to_addr cardEnv card10 ((c_str (str "/vmu/a1")).drop 4)
        = (some 0, card10.log (Call.maple_enum_dev 0 1))
      ∧ (freshManager.assureCached cardEnv card10 (str "/vmu")).1._error.code
        = ErrorCode.kPathDoesNotExist :=
  ⟨by decide,
    ((vmu_path_addressing cardEnv freshManager card10 (str "/vmu/a1") (by decide)).1
      (by decide)).1,
    ((vmu_path_addressing cardEnv freshManager card10 (str "/vmu") (by decide)).2.1
      (by decide)).2.1⟩

/-- Claim C30. The function `is_vmu` returns 1 exactly when the path begins
with `/vmu/`, its character at index 5 is in `a` .. `a + MAPLE_PORT_COUNT - 1`
(`a` to `d`), its character at index 6 is in `0` .. `0 + MAPLE_UNIT_COUNT - 1`
(`0` to `5`) and its character at index 7 is `/`; it returns 0 otherwise, as
for `/vmu/a1`. Every index it reads through `path[i]` is at most the length
of the string, the index of the terminator, and its result is the same for
every path that agrees on `strncmp`, on `strlen(path) >= 7` and on the
characters at those indices. -/
theorem is_vmu_spec (path : CStr) :
    (is_vmu path = 1 ↔
        (strncmpEq path (str "/vmu/") 5 = true
          ∧ (97 ≤ charAt path 5 ∧ charAt path 5 ≤ 97 + MAPLE_PORT_COUNT - 1)
          ∧ (48 ≤ charAt path 6 ∧ charAt path 6 ≤ 48 + MAPLE_UNIT_COUNT - 1)
          ∧ charAt path 7 = 47))
      ∧ (is_vmu path = 1 ∨ is_vmu path = 0)
      ∧ is_vmu (str "/vmu/a1") = 0 ∧ is_vmu (str "/vmu/a1/") = 1
      ∧ (MAPLE_PORT_COUNT, MAPLE_UNIT_COUNT) = (4, 6)
      ∧ (∀ i ∈ is_vmu_reads path, i ≤ strlen path)
      ∧ ∀ path2 : CStr, strncmpEq path2 (str "/vmu/") 5 = strncmpEq path (str "/vmu/") 5 →
          (strlen path2 ≥ 7 ↔ strlen path ≥ 7) →
          (∀ i ∈ is_vmu_reads path, charAt path2 i = charAt path i) →
          is_vmu path2 = is_vmu path := by
  refine ⟨?_, ?_, by decide, by decide, rfl, ?_, ?_⟩
  · unfold is_vmu MAPLE_PORT_COUNT MAPLE_UNIT_COUNT
    constructor
    · intro h
      split_ifs at h with h1 h2 h3
      · exact ⟨h1, by omega, by omega, h3.2.2⟩
      · exact absurd h (by decide)
      · exact absurd h (by decide)
      · exact absurd h (by decide)
    · rintro ⟨h1, h2, h3, h4⟩
      have h7 : 7 < (c_str path).length := charAt_lt_length path 7 (by rw [h4]; decide)
      have hl : strlen path ≥ 7 := by unfold strlen; omega
      rw [if_pos h1, if_pos hl, if_pos ⟨by omega, by omega, h4⟩]
  · unfold is_vmu
    split_ifs <;> simp
  · intro i hi
    unfold is_vmu_reads at hi
    split_ifs at hi with h1 h2 h3 h4 <;>
      simp only [List.mem_cons, List.mem_singleton, List.not_mem_nil, or_false] at hi <;>
      omega
  · intro path2 hs hl hr
    unfold is_vmu_reads at hr
    unfold is_vmu
    rw [hs]
    by_cases h1 : strncmpEq path (str "/vmu/") 5 = true
    · rw [if_pos h1, if_pos h1] at *
      by_cases h2 : strlen path ≥ 7
      · rw [if_pos h2] at hr ⊢
        rw [if_pos (hl.mpr h2)]
        by_cases h3 : charAt path 5 ≥ 97 ∧ charAt path 5 < 97 + MAPLE_PORT_COUNT
        · rw [if_pos h3] at hr
          by_cases h4 : charAt path 6 ≥ 48 ∧ charAt path 6 < 48 + MAPLE_UNIT_COUNT
          · rw [if_pos h4] at hr
            rw [hr 5 (by simp), hr 6 (by simp), hr 7 (by simp)]
          · rw [if_neg h4] at hr
            rw [hr 5 (by simp), hr 6 (by simp)]
            rw [if_neg (fun h => h4 h.2.1), if_neg (fun h => h4 h.2.1)]
        · rw [if_neg h3] at hr
          rw [hr 5 (by simp)]
          rw [if_neg (fun h => h3 h.1), if_neg (fun h => h3 h.1)]
      · rw [if_neg h2, if_neg (fun h => h2 (hl.mp h))]
    · rw [if_neg h1, if_neg h1]

end DCAlt
